import Mathlib

/-!
Ledger aggregation of `script.js`.

A shallow embedding of the aggregation core of the personal cash-flow tracker
(`src/script.js`): period filter, totals, category totals, per-date running
balance, spending-limit warnings, weekly comparisons, the transaction modal,
deletion, registration, PIN and email validation, and the export.

Modelling conventions.

* An instant (what `new Date(x)` holds) is an `Int`: milliseconds since the epoch.
* JavaScript numbers are rationals (`ℚ`). `roundDouble` is the rounding of an IEEE
  double operation: the percentages of the limit checks and of the pattern loop
  are computed with it, as the script computes them. The sums of amounts are
  exact; the functions named `...With` take the rounding of each sum as an
  argument, `roundDouble` for the script and `id` for the exact sums.
* Local time is UTC plus an offset. In the functions that take `tz` the offset is
  fixed, and `setDate(getDate() + k)` moves an instant by `k` days of `msPerDay`
  milliseconds; the functions named `...In` take a `Zone`, whose offset may
  change, and there `setDate(getDate() + 1)` moves to the same local time of the
  next calendar day.
* A JavaScript object used as a dictionary is an association list of its own
  properties in insertion order (`Object.keys` order for keys that are not array
  indices). The category mappings are read through `lookup`, which also finds
  the members that an object literal inherits from `Object.prototype`; the other
  dictionaries have display dates and storage keys as keys.
* `localStorage` and the DOM are passed in explicitly: the stored ledger is the
  argument `allTransactions`, the two date inputs are `Option` values.
* Where a function reads or writes storage itself, `localStorage` is a list of
  keys with the values that `JSON.parse` gives back (`LocalStorage`); a failing
  `setItem` stores nothing. `JSON.stringify` is modelled up to the JSON value it
  writes, not its text.
* `parseFloat`, `Math.random`, `toLowerCase`, `confirm` and the clock are inputs
  of the functions that call them; a parsed amount is a rational or `NaN`.
-/

namespace Sasuba

/-! ## Data model -/

/-- The object returned by `nowTimestamp`: display date `MM/DD/YY`, display time
`HH:MM:SS`, and `iso`, kept as the instant that `new Date(iso)` yields. -/
structure Stamp where
  date : String
  time : String
  iso : Int
  deriving DecidableEq

/-- A ledger record as built by `saveTransaction`; `category` is read by
`getSpendingByCategory` but never written by the creation flow. -/
structure Transaction where
  id : String
  type : String
  amount : ℚ
  note : String
  date : String
  time : String
  createdBy : String
  createdAt : Stamp
  category : Option String := none
  editedBy : Option String := none
  editedAt : Option Stamp := none
  deriving DecidableEq

/-- Milliseconds per day. -/
def msPerDay : Int := 86400000

/-! ## Period filter (`updateStatistics`, `renderDailySummary`, `printReport`, `loadAndRender`) -/

/-- A time zone as the built-in `Date` sees it: the offset from UTC, in milliseconds, in
force at a UTC instant (`LocalTZA(t, true)`) and the offset in force at a local time value
(`LocalTZA(t, false)`). -/
structure Zone where
  offsetAt : Int → Int
  offsetOfLocal : Int → Int

/-- A zone without daylight-saving changes: local time is UTC plus `tz` milliseconds. -/
def fixedZone (tz : Int) : Zone :=
  { offsetAt := fun _ => tz, offsetOfLocal := fun _ => tz }

/-- The statements `const endDate = new Date(end); endDate.setDate(endDate.getDate() + 1)`
in zone `z`: `setDate` moves the local time value of `stop` forward by one calendar day
and takes the result back to UTC, so the step is 23 or 25 hours across a daylight-saving
change. -/
def setDateNextDay (z : Zone) (stop : Int) : Int :=
  let localTime := stop + z.offsetAt stop
  let moved := localTime + msPerDay
  moved - z.offsetOfLocal moved

/-- The value of `setDateNextDay` in a zone of fixed offset, where every local calendar
day has `msPerDay` milliseconds. -/
def endDatePlusOne (stop : Int) : Int := stop + msPerDay

/-- The callback of `allTransactions.filter(tx => ...)` in `updateStatistics`
(lines 1411-1419), repeated in `renderDailySummary` and `printReport`, in zone `z`;
`start` / `stop` are `null` (`none`) or a `Date`. -/
def periodKeepIn (z : Zone) (start stop : Option Int) (tx : Transaction) : Bool :=
  if (match start with
      | some s => decide (tx.createdAt.iso < s)
      | none => false) then false
  else if (match stop with
      | some e => decide (tx.createdAt.iso ≥ setDateNextDay z e)
      | none => false) then false
  else true

/-- The list `periodTransactions` of `updateStatistics` and `renderDailySummary`, and
`filtered` of `printReport`, in zone `z`. -/
def periodTransactionsIn (z : Zone) (start stop : Option Int)
    (allTransactions : List Transaction) : List Transaction :=
  allTransactions.filter (periodKeepIn z start stop)

/-- The callback `periodKeepIn` in a zone of fixed offset. -/
def periodKeep (start stop : Option Int) (tx : Transaction) : Bool :=
  if (match start with
      | some s => decide (tx.createdAt.iso < s)
      | none => false) then false
  else if (match stop with
      | some e => decide (tx.createdAt.iso ≥ endDatePlusOne e)
      | none => false) then false
  else true

/-- The list `periodTransactionsIn` in a zone of fixed offset. -/
def periodTransactions (start stop : Option Int) (allTransactions : List Transaction) :
    List Transaction :=
  allTransactions.filter (periodKeep start stop)

/-- The callback of `txs.filter` in `loadAndRender` (lines 1359-1379). `searchHit q tx`
stands for `tx.note.toLowerCase().includes(q) || String(tx.amount).includes(q)`, whose
string conversions are left abstract; the empty query is falsy and skips the test. -/
def loadAndRenderKeep (searchHit : String → Transaction → Bool) (start stop : Option Int)
    (viewType searchQuery : String) (tx : Transaction) : Bool :=
  if (match start with
      | some s => decide (tx.createdAt.iso < s)
      | none => false) then false
  else if (match stop with
      | some e => decide (tx.createdAt.iso ≥ endDatePlusOne e)
      | none => false) then false
  else if viewType ≠ "all" ∧ tx.type ≠ viewType then false
  else if searchQuery ≠ "" ∧ ¬ (searchHit searchQuery tx = true) then false
  else true

/-- The list `filtered` of `loadAndRender`. -/
def loadAndRenderFiltered (searchHit : String → Transaction → Bool) (start stop : Option Int)
    (viewType searchQuery : String) (txs : List Transaction) : List Transaction :=
  txs.filter (loadAndRenderKeep searchHit start stop viewType searchQuery)

/-- The callback of `txs.filter` in `loadAndRender` (lines 1359-1379) in zone `z`, with
`searchHit` as in `loadAndRenderKeep`. -/
def loadAndRenderKeepIn (z : Zone) (searchHit : String → Transaction → Bool)
    (start stop : Option Int) (viewType searchQuery : String) (tx : Transaction) : Bool :=
  if (match start with
      | some s => decide (tx.createdAt.iso < s)
      | none => false) then false
  else if (match stop with
      | some e => decide (tx.createdAt.iso ≥ setDateNextDay z e)
      | none => false) then false
  else if viewType ≠ "all" ∧ tx.type ≠ viewType then false
  else if searchQuery ≠ "" ∧ ¬ (searchHit searchQuery tx = true) then false
  else true

/-- The list `filtered` of `loadAndRender` in zone `z`. -/
def loadAndRenderFilteredIn (z : Zone) (searchHit : String → Transaction → Bool)
    (start stop : Option Int) (viewType searchQuery : String) (txs : List Transaction) :
    List Transaction :=
  txs.filter (loadAndRenderKeepIn z searchHit start stop viewType searchQuery)

/-- The contract of the period filter in the words of the specification: the instant is
`>= start` when a start is given and `< end + 1 day` when an end is given, the day being
the calendar day of zone `z` that follows `end`. -/
def WithinPeriodIn (z : Zone) (start stop : Option Int) (tx : Transaction) : Prop :=
  (∀ s, start = some s → s ≤ tx.createdAt.iso) ∧
  (∀ e, stop = some e → tx.createdAt.iso < setDateNextDay z e)

/-- The contract `WithinPeriodIn` in a zone of fixed offset, where the day after `end` is
`end + 86400000` ms. -/
def WithinPeriod (start stop : Option Int) (tx : Transaction) : Prop :=
  (∀ s, start = some s → s ≤ tx.createdAt.iso) ∧
  (∀ e, stop = some e → tx.createdAt.iso < e + msPerDay)

/-! ## The built-in `Date`, restricted to what the script calls -/

/-- ECMAScript `DayFromYear`: the day number of 1 January of year `y`. -/
def dayFromYear (y : Int) : Int :=
  365 * (y - 1970) + (y - 1969) / 4 - (y - 1901) / 100 + (y - 1601) / 400

/-- ECMAScript `InLeapYear`, on a year. -/
def inLeapYear (y : Int) : Bool :=
  (y % 4 == 0 && y % 100 != 0) || y % 400 == 0

/-- Days of the year that precede month index `mn` (0 = January). -/
def daysBeforeMonth (leap : Bool) (mn : Int) : Int :=
  ([0, 31, 59, 90, 120, 151, 181, 212, 243, 273, 304, 334].getD mn.toNat 0 : Int) +
    (if leap && decide (2 ≤ mn) then 1 else 0)

/-- ECMAScript `MakeDay(year, month, date)`: month indices outside `0..11` carry into the
year and `date` may overflow the month. -/
def makeDay (year month date : Int) : Int :=
  let ym := year + month / 12
  let mn := month % 12
  dayFromYear ym + daysBeforeMonth (inLeapYear ym) mn + date - 1

/-- The civil date `(year, month 1..12, day)` of a day number. -/
def civilFromDays (day : Int) : Int × Int × Int :=
  let z := day + 719468
  let era := z / 146097
  let doe := z - era * 146097
  let yoe := (doe - doe / 1460 + doe / 36524 - doe / 146096) / 365
  let doy := doe - (365 * yoe + yoe / 4 - yoe / 100)
  let mp := (5 * doy + 2) / 153
  let d := doy - (153 * mp + 2) / 5 + 1
  let m := if mp < 10 then mp + 3 else mp - 9
  let y := yoe + era * 400 + (if m ≤ 2 then 1 else 0)
  (y, m, d)

/-- The local day number of an instant; `tz` is local time minus UTC, in milliseconds. -/
def localDay (tz t : Int) : Int := (t + tz) / msPerDay

/-- Milliseconds since local midnight. -/
def localMsInDay (tz t : Int) : Int := (t + tz) % msPerDay

/-- The method `getFullYear`. -/
def getFullYear (tz t : Int) : Int := (civilFromDays (localDay tz t)).1
/-- The method `getMonth` (0 = January). -/
def getMonth (tz t : Int) : Int := (civilFromDays (localDay tz t)).2.1 - 1
/-- The method `getDate` (day of the month). -/
def getDate (tz t : Int) : Int := (civilFromDays (localDay tz t)).2.2
/-- The method `getDay` (0 = Sunday); day number 0 was a Thursday. -/
def getDay (tz t : Int) : Int := (localDay tz t + 4) % 7
/-- The method `getHours`. -/
def getHours (tz t : Int) : Int := localMsInDay tz t / 3600000
/-- The method `getMinutes`. -/
def getMinutes (tz t : Int) : Int := localMsInDay tz t / 60000 % 60
/-- The method `getSeconds`. -/
def getSeconds (tz t : Int) : Int := localMsInDay tz t / 1000 % 60

/-- The method `setDate(getDate() + k)`: same local time of day, `k` days later. -/
def addDays (t k : Int) : Int := t + k * msPerDay

/-- `TimeClip`: a time value beyond 8.64e15 ms is an invalid date. -/
def timeClip (t : Int) : Option Int :=
  if t.natAbs ≤ 8640000000000000 then some t else none

/-- The constructor `new Date(year, monthIndex, day)`: local midnight of that day
(`none` is an `Invalid Date`). Years are at least 2000 here, so the two-digit-year rule
of the constructor does not apply. -/
def newDateLocal (tz year monthIndex day : Int) : Option Int :=
  timeClip (makeDay year monthIndex day * msPerDay - tz)

/-- The value of an `<input type="date">`: a calendar date `YYYY-MM-DD`. -/
structure DateInput where
  year : Int
  month : Int
  day : Int
  deriving DecidableEq

/-- The constructor `new Date("YYYY-MM-DD")`: a date-only string is UTC midnight. -/
def newDateFromInput (v : DateInput) : Int :=
  makeDay v.year (v.month - 1) v.day * msPerDay

/-- The expression `value ? new Date(value) : null` on a date input (empty = `none`). -/
def filterBound (value : Option DateInput) : Option Int :=
  value.map newDateFromInput

/-! ## Strings of `nowTimestamp` and `parseDate` -/

/-- The conversion `String(n)` of an integer. -/
def jsString (n : Int) : String :=
  if n < 0 then "-" ++ Nat.repr n.natAbs else Nat.repr n.natAbs

/-- The method `padStart(2, '0')`. -/
def padStart2 (s : String) : String :=
  String.mk (List.replicate (2 - s.data.length) '0' ++ s.data)

/-- The method `slice(-2)`: the last two characters. -/
def sliceLast2 (s : String) : String :=
  String.mk (s.data.drop (s.data.length - 2))

/-- The function `nowTimestamp`, with the clock reading `now` passed in. -/
def nowTimestamp (tz now : Int) : Stamp :=
  let mm := padStart2 (jsString (getMonth tz now + 1))
  let dd := padStart2 (jsString (getDate tz now))
  let yy := sliceLast2 (jsString (getFullYear tz now))
  let hh := padStart2 (jsString (getHours tz now))
  let min := padStart2 (jsString (getMinutes tz now))
  let ss := padStart2 (jsString (getSeconds tz now))
  { date := mm ++ "/" ++ dd ++ "/" ++ yy, time := hh ++ ":" ++ min ++ ":" ++ ss, iso := now }

/-- The method `split(sep)` for a one-character separator, on the characters of a string. -/
def splitOn (sep : Char) : List Char → List (List Char)
  | [] => [[]]
  | c :: cs =>
    if c = sep then [] :: splitOn sep cs
    else match splitOn sep cs with
      | [] => [[c]]
      | p :: ps => (c :: p) :: ps

/-- The value of one decimal digit. -/
def digitVal (c : Char) : Option Nat :=
  if '0' ≤ c ∧ c ≤ '9' then some (c.toNat - 48) else none

/-- The conversion `Number(s)` on the strings that occur in a display date: the empty
string is 0, a run of decimal digits is its value, and anything else is `NaN` (`none`).
Other numeric literals that `Number` accepts (signs, blanks, fractions, exponents, hex)
are outside this model and read as `NaN`. -/
def jsNumber (s : List Char) : Option Nat :=
  s.foldl (fun acc c => match acc, digitVal c with
    | some n, some d => some (10 * n + d)
    | _, _ => none) (some 0)

/-- What `parseDate` returns: `null`, an invalid `Date`, or a `Date` holding an instant. -/
inductive JsDate where
  | null
  | invalid
  | valid (t : Int)
  deriving DecidableEq

/-- The function `parseDate` (lines 27-31): `null` for a falsy string, otherwise
`new Date(2000 + yy, mm - 1, dd)` on the first three `/`-separated numbers; a missing
or `NaN` component gives an invalid date. -/
def parseDate (tz : Int) (dateStr : String) : JsDate :=
  if dateStr = "" then JsDate.null
  else match (splitOn '/' dateStr.data).map jsNumber with
    | some mm :: some dd :: some yy :: _ =>
      match newDateLocal tz (2000 + (yy : Int)) ((mm : Int) - 1) (dd : Int) with
      | some t => JsDate.valid t
      | none => JsDate.invalid
    | _ => JsDate.invalid

/-- The conversion `ToNumber` applied to an operand of `dateA - dateB`: `null` is 0, an
invalid date is `NaN` (`none`). -/
def JsDate.toNumber : JsDate → Option Int
  | JsDate.null => some 0
  | JsDate.invalid => none
  | JsDate.valid t => some t

/-- The comparator `(a, b) => parseDate(a) - parseDate(b)`; `none` is `NaN`. -/
def compareAsc (tz : Int) (a b : String) : Option Int :=
  match (parseDate tz a).toNumber, (parseDate tz b).toNumber with
  | some x, some y => some (x - y)
  | _, _ => none

/-- The comparator `(a, b) => parseDate(b) - parseDate(a)`. -/
def compareDesc (tz : Int) (a b : String) : Option Int :=
  match (parseDate tz b).toNumber, (parseDate tz a).toNumber with
  | some x, some y => some (x - y)
  | _, _ => none

/-- The method `Array.prototype.sort(comparefn)`: a stable sort in which `a` stays in
front of `b` unless the comparator is positive; a `NaN` result counts as `+0`
(`SortCompare`). For a consistent comparator every stable sort gives this result. -/
def jsSort {α : Type} (comparefn : α → α → Option Int) (xs : List α) : List α :=
  xs.insertionSort (fun a b => ¬ (0 < (comparefn a b).getD 0))

/-! ## Numbers (IEEE 754 doubles) -/

/-- The number of binary digits of `n`, found with at most `fuel` halvings. -/
def bitLength : Nat → Nat → Nat
  | 0, _ => 0
  | fuel + 1, n => if n = 0 then 0 else bitLength fuel (n / 2) + 1

/-- The exponent `⌊log₂ (n / d)⌋` of a positive fraction. -/
def floorLog2 (n d : Nat) : Int :=
  let k : Int := (bitLength n n : Int) - (bitLength d d : Int)
  if (if 0 ≤ k then decide (d * 2 ^ k.toNat ≤ n) else decide (d ≤ n * 2 ^ (-k).toNat)) then k
  else k - 1

/-- The fraction `n / d` rounded to the nearest integer, a tie going to the even one. -/
def roundHalfEven (n d : Nat) : Nat :=
  let f := n / d
  let r := n % d
  if 2 * r < d then f else if d < 2 * r then f + 1 else if f % 2 = 0 then f else f + 1

/-- The IEEE 754 double nearest to `q`, a tie going to the even significand: the result
of a JavaScript `+`, `-`, `*` or `/` whose exact value is `q`. The significand has 53 bits
and the exponent is at least -1022 (subnormal numbers included); magnitudes from `2^1024`
on, which a double does not hold, are not modelled. -/
def roundDouble (q : ℚ) : ℚ :=
  if q = 0 then 0
  else
    let n := q.num.natAbs
    let d := q.den
    let e := if floorLog2 n d < -1022 then -1022 else floorLog2 n d
    let s := e - 52
    let m := roundHalfEven (n * 2 ^ (-s).toNat) (d * 2 ^ s.toNat)
    let a : ℚ := ((m * 2 ^ s.toNat : Nat) : ℚ) / ((2 ^ (-s).toNat : Nat) : ℚ)
    if q < 0 then -a else a

/-! ## Objects used as dictionaries -/

/-- A plain object with string keys: its own properties in insertion order. -/
abbrev Dict (α : Type) := List (String × α)

/-- The property read `obj[key]` (`none` is `undefined`). -/
def Dict.get {α : Type} : Dict α → String → Option α
  | [], _ => none
  | (k, v) :: rest, key => if k = key then some v else Dict.get rest key

/-- The property write `obj[key] = value`: an existing property keeps its position, a new
one is appended. -/
def Dict.set {α : Type} : Dict α → String → α → Dict α
  | [], key, value => [(key, value)]
  | (k, v) :: rest, key, value =>
    if k = key then (k, value) :: rest else (k, v) :: Dict.set rest key value

/-- The call `Object.keys(obj)`. -/
def Dict.keys {α : Type} (d : Dict α) : List String := d.map Prod.fst

/-! ## Totals (`updateStatistics`) -/

/-- The accumulator `{ inflow, outflow, count }` of the reducer. -/
structure Stats where
  inflow : ℚ
  outflow : ℚ
  count : Nat
  deriving DecidableEq

/-- The reducer callback of `updateStatistics` (lines 1422-1430). -/
def statsStep (acc : Stats) (tx : Transaction) : Stats :=
  if tx.type = "inflow" then
    { inflow := acc.inflow + tx.amount, outflow := acc.outflow, count := acc.count + 1 }
  else
    { inflow := acc.inflow, outflow := acc.outflow + tx.amount, count := acc.count + 1 }

/-- The value `stats` of `updateStatistics`. -/
def reduceStats (periodTxs : List Transaction) : Stats :=
  periodTxs.foldl statsStep { inflow := 0, outflow := 0, count := 0 }

/-- The four numbers that `updateStatistics` writes to the page (before formatting). -/
structure StatDisplay where
  inflow : ℚ
  outflow : ℚ
  savings : ℚ
  count : Nat
  deriving DecidableEq

/-- The function `updateStatistics`: its argument `transactions` is never read; the
ledger comes from `getTx()` and the bounds from the two date inputs. -/
def updateStatistics (allTransactions : List Transaction) (start stop : Option Int)
    (_transactions : List Transaction) : StatDisplay :=
  let stats := reduceStats (periodTransactions start stop allTransactions)
  { inflow := stats.inflow, outflow := stats.outflow,
    savings := stats.inflow - stats.outflow, count := stats.count }

/-! ## Category totals (`getSpendingByCategory`) -/

/-- The expression `x || 0` on a number or `undefined`. -/
def orZero : Option ℚ → ℚ
  | some v => if v = 0 then 0 else v
  | none => 0

/-- The expression `transaction.category || 'Other'`: a missing or empty category is
falsy. -/
def categoryOf (tx : Transaction) : String :=
  match tx.category with
  | some c => if c = "" then "Other" else c
  | none => "Other"

/-- The condition of line 290. -/
def inCategoryWindow (startDate endDate : Int) (tx : Transaction) : Bool :=
  decide (tx.createdAt.iso ≥ startDate) && decide (tx.createdAt.iso ≤ endDate) &&
    decide (tx.type = "outflow")

/-- The names of the properties of `Object.prototype`, which every object literal `{}`
inherits. -/
def objectPrototypeKeys : List String :=
  ["constructor", "__defineGetter__", "__defineSetter__", "hasOwnProperty",
   "__lookupGetter__", "__lookupSetter__", "isPrototypeOf", "propertyIsEnumerable",
   "toString", "valueOf", "__proto__", "toLocaleString"]

/-- A value stored in a category mapping: a number, or the string that `+` builds once
the value read is not a number, which is `String(Object.prototype[member])` followed by
the decimal forms of the amounts appended to it. -/
inductive Cell where
  | number (q : ℚ)
  | text (member : String) (appended : List ℚ)
  deriving DecidableEq

/-- A numeral written where a stored value stands is that number. -/
instance instOfNatCell (n : Nat) : OfNat Cell n := ⟨Cell.number n⟩

/-- The result of the property read `obj[key]` on an object literal: `undefined`, an own
property, or the member of `Object.prototype` of that name. -/
inductive Lookup where
  | undefined
  | own (v : Cell)
  | inherited (member : String)
  deriving DecidableEq

/-- The property read `obj[key]` on an object literal whose own properties are `obj`. -/
def lookup (obj : Dict Cell) (key : String) : Lookup :=
  match obj.get key with
  | some v => Lookup.own v
  | none => if key ∈ objectPrototypeKeys then Lookup.inherited key else Lookup.undefined

/-- The value of a property read in a boolean context: `undefined` and the number 0 are
falsy; the strings of a mapping are not empty, and a member of `Object.prototype` is a
function or an object. -/
def Lookup.truthy : Lookup → Bool
  | Lookup.undefined => false
  | Lookup.own (Cell.number q) => decide (q ≠ 0)
  | Lookup.own (Cell.text _ _) => true
  | Lookup.inherited _ => true

/-- The `forEach` callback of `getSpendingByCategory`: line 292 reads
`spendingByCategory[category] || 0`, adds the amount with `+` (a concatenation when the
value read is a string, a function or an object) and assigns the result; an assignment to
`__proto__` of a value that is not an object is ignored by the setter. -/
def categoryStep (startDate endDate : Int) (spendingByCategory : Dict Cell) (tx : Transaction) :
    Dict Cell :=
  if inCategoryWindow startDate endDate tx then
    let category := categoryOf tx
    match lookup spendingByCategory category with
    | Lookup.undefined => spendingByCategory.set category (Cell.number (0 + tx.amount))
    | Lookup.own (Cell.number v) =>
      spendingByCategory.set category (Cell.number ((if v = 0 then 0 else v) + tx.amount))
    | Lookup.own (Cell.text member appended) =>
      spendingByCategory.set category (Cell.text member (appended ++ [tx.amount]))
    | Lookup.inherited member =>
      if category = "__proto__" then spendingByCategory
      else spendingByCategory.set category (Cell.text member [tx.amount])
  else spendingByCategory

/-- The function `getSpendingByCategory` (lines 286-296). -/
def getSpendingByCategory (transactions : List Transaction) (startDate endDate : Int) :
    Dict Cell :=
  transactions.foldl (categoryStep startDate endDate) []

/-! ## Per-date running balance (`renderDailySummary`, `renderTransactions`, `renderHistory`) -/

/-- The per-date accumulator `{ inflow, outflow }`. -/
structure DayTotals where
  inflow : ℚ
  outflow : ℚ
  deriving DecidableEq

/-- The `forEach` callback that groups by display date (lines 1584-1588, 1451-1455,
1651-1655). -/
def byDateStep (byDate : Dict DayTotals) (tx : Transaction) : Dict DayTotals :=
  let cur : DayTotals := match byDate.get tx.date with
    | some d => d
    | none => { inflow := 0, outflow := 0 }
  if tx.type = "inflow" then
    byDate.set tx.date { inflow := cur.inflow + tx.amount, outflow := cur.outflow }
  else
    byDate.set tx.date { inflow := cur.inflow, outflow := cur.outflow + tx.amount }

/-- The object `byDate` after the grouping loop. -/
def groupByDate (txs : List Transaction) : Dict DayTotals :=
  txs.foldl byDateStep []

/-- The array `datesAsc`. -/
def datesAsc (tz : Int) (byDate : Dict DayTotals) : List String :=
  jsSort (compareAsc tz) byDate.keys

/-- The array `datesDesc`. -/
def datesDesc (tz : Int) (byDate : Dict DayTotals) : List String :=
  jsSort (compareDesc tz) byDate.keys

/-- The value `data.inflow - data.outflow` for `data = byDate[date]`; every date that is
iterated is a key of `byDate`. -/
def dailySavings (byDate : Dict DayTotals) (date : String) : ℚ :=
  match byDate.get date with
  | some data => data.inflow - data.outflow
  | none => 0

/-- The loop `datesAsc.forEach(date => ...)` that fills `savingsByDate`, started from a
given state `(runningBalance, savingsByDate)`. -/
def accumulate (byDate : Dict DayTotals) :
    List String → ℚ × Dict ℚ → ℚ × Dict ℚ
  | [], st => st
  | date :: rest, (runningBalance, savingsByDate) =>
    let runningBalance1 := runningBalance + dailySavings byDate date
    accumulate byDate rest (runningBalance1, savingsByDate.set date runningBalance1)

/-- The object `savingsByDate`. -/
def savingsByDate (tz : Int) (byDate : Dict DayTotals) : Dict ℚ :=
  (accumulate byDate (datesAsc tz byDate) (0, [])).2

/-- One row of the daily-summary table. -/
structure SummaryRow where
  date : String
  inflow : ℚ
  outflow : ℚ
  savings : Option ℚ
  deriving DecidableEq

/-- One `<tr>` of the loop `datesDesc.forEach(date => ...)`: `data = byDate[date]`,
`savings = savingsByDate[date]`. -/
def summaryRow (byDate : Dict DayTotals) (savings : Dict ℚ) (date : String) : SummaryRow :=
  let data : DayTotals := (byDate.get date).getD { inflow := 0, outflow := 0 }
  { date := date, inflow := data.inflow, outflow := data.outflow, savings := savings.get date }

/-- The rows that `renderDailySummary` writes, top to bottom (`none` is the message
"No transactions for selected period."). Its argument `transactions` is never read. -/
def renderDailySummary (tz : Int) (allTransactions : List Transaction) (start stop : Option Int)
    (_transactions : List Transaction) : Option (List SummaryRow) :=
  let periodTxs := periodTransactions start stop allTransactions
  if periodTxs.length = 0 then none
  else
    let byDate := groupByDate periodTxs
    some ((datesDesc tz byDate).map (summaryRow byDate (savingsByDate tz byDate)))

/-- The rows that `renderHistory` writes (`none` is "No history yet."). -/
def renderHistory (tz : Int) (allTransactions : List Transaction) : Option (List SummaryRow) :=
  if allTransactions.length = 0 then none
  else
    let byDate := groupByDate allTransactions
    some ((datesDesc tz byDate).map (summaryRow byDate (savingsByDate tz byDate)))

/-- The grouping callback `byDateStep` with the result of each `+=` rounded by `rnd`:
`roundDouble` is the arithmetic of the script, `id` the exact one. -/
def byDateStepWith (rnd : ℚ → ℚ) (byDate : Dict DayTotals) (tx : Transaction) :
    Dict DayTotals :=
  let cur : DayTotals := match byDate.get tx.date with
    | some d => d
    | none => { inflow := 0, outflow := 0 }
  if tx.type = "inflow" then
    byDate.set tx.date { inflow := rnd (cur.inflow + tx.amount), outflow := cur.outflow }
  else
    byDate.set tx.date { inflow := cur.inflow, outflow := rnd (cur.outflow + tx.amount) }

/-- The object `byDate` after the grouping loop, sums rounded by `rnd`. -/
def groupByDateWith (rnd : ℚ → ℚ) (txs : List Transaction) : Dict DayTotals :=
  txs.foldl (byDateStepWith rnd) []

/-- The value `data.inflow - data.outflow`, rounded by `rnd`. -/
def dailySavingsWith (rnd : ℚ → ℚ) (byDate : Dict DayTotals) (date : String) : ℚ :=
  match byDate.get date with
  | some data => rnd (data.inflow - data.outflow)
  | none => 0

/-- The loop `datesAsc.forEach(date => ...)` with `runningBalance += dailySavings` rounded
by `rnd`. -/
def accumulateWith (rnd : ℚ → ℚ) (byDate : Dict DayTotals) :
    List String → ℚ × Dict ℚ → ℚ × Dict ℚ
  | [], st => st
  | date :: rest, (runningBalance, savingsByDate) =>
    let runningBalance1 := rnd (runningBalance + dailySavingsWith rnd byDate date)
    accumulateWith rnd byDate rest (runningBalance1, savingsByDate.set date runningBalance1)

/-- The object `savingsByDate`, sums rounded by `rnd`. -/
def savingsByDateWith (rnd : ℚ → ℚ) (tz : Int) (byDate : Dict DayTotals) : Dict ℚ :=
  (accumulateWith rnd byDate (datesAsc tz byDate) (0, [])).2

/-- The rows that `renderHistory` writes, sums rounded by `rnd`. -/
def renderHistoryWith (rnd : ℚ → ℚ) (tz : Int) (allTransactions : List Transaction) :
    Option (List SummaryRow) :=
  if allTransactions.length = 0 then none
  else
    let byDate := groupByDateWith rnd allTransactions
    some ((datesDesc tz byDate).map (summaryRow byDate (savingsByDateWith rnd tz byDate)))

/-- The reducer of lines 1497-1501 over `allTransactions.filter(tx => tx.date === date)`. -/
def dateTotal (allTransactions : List Transaction) (date : String) : DayTotals :=
  (allTransactions.filter (fun tx => decide (tx.date = date))).foldl
    (fun acc tx =>
      if tx.type = "inflow" then { inflow := acc.inflow + tx.amount, outflow := acc.outflow }
      else { inflow := acc.inflow, outflow := acc.outflow + tx.amount })
    { inflow := 0, outflow := 0 }

/-- The object `byDate` of `renderTransactions` (lines 1476-1480): the displayed records
grouped by date. -/
def groupForDisplay (transactions : List Transaction) : Dict (List Transaction) :=
  transactions.foldl (fun byDate tx =>
    byDate.set tx.date (((byDate.get tx.date).getD []) ++ [tx])) []

/-- One date card of the transaction list: the header numbers; the list of items under
it (lines 1522-1551) is presentation and is not modelled. -/
structure DateHeader where
  date : String
  inflow : ℚ
  outflow : ℚ
  savings : ℚ
  deriving DecidableEq

/-- One date card of the loop `datesDesc.forEach(date => ...)` of `renderTransactions`:
`dateTotal` over the whole ledger and `savings = savingsByDate[date] || 0`. -/
def dateHeader (allTransactions : List Transaction) (savings : Dict ℚ) (date : String) :
    DateHeader :=
  let total := dateTotal allTransactions date
  { date := date, inflow := total.inflow, outflow := total.outflow,
    savings := orZero (savings.get date) }

/-- The date cards that `renderTransactions` writes, top to bottom (`none` is
"No transactions found"). `allTransactions` is `getTx()`, `transactions` the filtered
list passed by `loadAndRender`. -/
def renderTransactions (tz : Int) (allTransactions transactions : List Transaction) :
    Option (List DateHeader) :=
  if transactions.length = 0 then none
  else
    let allByDate := groupByDate allTransactions
    let byDate := groupForDisplay transactions
    some ((jsSort (compareDesc tz) byDate.keys).map
      (dateHeader allTransactions (savingsByDate tz allByDate)))

/-! ## Users and settings -/

/-- The object `user.settings`; a field that was never saved is `undefined` (`none`). -/
structure Settings where
  savingsGoal : Option ℚ := none
  dailySpendingLimit : Option ℚ := none
  weeklySpendingLimit : Option ℚ := none
  dailyReminder : Option Bool := none
  weeklyReport : Option Bool := none
  deriving DecidableEq

/-- A reflection note. -/
structure Reflection where
  id : String
  date : Int
  text : String
  deriving DecidableEq

/-- A stored user record. `transactions` is the property that `generateNotifications`
tests; the registration handler builds `{ email, name, pin, settings, reflections }`. -/
structure User where
  email : String
  name : String
  pin : String
  settings : Option Settings := some {}
  reflections : Option (List Reflection) := some []
  transactions : Option (List Transaction) := none
  deriving DecidableEq

/-- The stored session object. -/
structure Session where
  email : String
  name : String
  loginAt : Int
  deriving DecidableEq

/-- The function `getCurrentUser` (lines 118-131): the first user with the session's
email, with missing `settings` / `reflections` filled in. -/
def getCurrentUser (session : Option Session) (users : List User) : Option User :=
  match session with
  | none => none
  | some sess =>
    match users.find? (fun u => decide (u.email = sess.email)) with
    | some user =>
      some { user with
        settings := some (user.settings.getD {}),
        reflections := some (user.reflections.getD []) }
    | none => none

/-! ## Spending per period -/

/-- The comparison `a.toDateString() === b.toDateString()`: same local calendar day. -/
def sameDateString (tz a b : Int) : Bool := decide (localDay tz a = localDay tz b)

/-- The function `calculateSpendingForPeriod` (lines 207-224). -/
def calculateSpendingForPeriod (tz : Int) (transactions : List Transaction)
    (startDate endDate : Int) : ℚ :=
  let isSameDay := sameDateString tz startDate endDate
  transactions.foldl (fun spending tx =>
    if tx.type = "outflow" then
      if isSameDay then
        if sameDateString tz tx.createdAt.iso startDate then spending + tx.amount else spending
      else if startDate ≤ tx.createdAt.iso ∧ tx.createdAt.iso ≤ endDate then
        spending + tx.amount
      else spending
    else spending) 0

/-- The function `calculateSavingsForPeriod` (lines 192-205). -/
def calculateSavingsForPeriod (transactions : List Transaction) (startDate endDate : Int) : ℚ :=
  transactions.foldl (fun savings tx =>
    if startDate ≤ tx.createdAt.iso ∧ tx.createdAt.iso ≤ endDate then
      if tx.type = "inflow" then savings + tx.amount else savings - tx.amount
    else savings) 0

/-- The value `currentWeekStart`: `today` moved back by `today.getDay()` days. -/
def currentWeekStart (tz today : Int) : Int := addDays today (-(getDay tz today))

/-! ## Threshold evaluator (`checkSpendingLimits`, `generateNotifications`) -/

/-- What a run of an evaluator did: every division it evaluated, as
`(denominator expression, numerator, denominator)` in evaluation order, and the records
it emitted. -/
structure Trace (α : Type) where
  divisions : List (String × ℚ × ℚ)
  out : List α

/-- Evaluate one division `a / b` on top of a trace; `what` names the source expression
of the denominator. -/
def Trace.divide {α : Type} (t : Trace α) (what : String) (a b : ℚ) : Trace α :=
  { divisions := t.divisions ++ [(what, a, b)], out := t.out }

/-- Emit one record on top of a trace. -/
def Trace.emit {α : Type} (t : Trace α) (x : α) : Trace α :=
  { divisions := t.divisions, out := t.out ++ [x] }

/-- A warning element appended to `#spending-limit-warnings`: its heading and the three
numbers its text shows (before formatting). -/
structure LimitWarning where
  heading : String
  spent : ℚ
  percentage : ℚ
  limit : ℚ
  deriving DecidableEq

/-- The comparison `limit > 0` on a number or `undefined`. -/
def isPositive : Option ℚ → Bool
  | some l => decide (0 < l)
  | none => false

/-- One guarded block of `checkSpendingLimits` (lines 404-415, and 417-428); `what` names
the limit; the percentage `(spent / limit) * 100` is computed in doubles. -/
def limitBlock (heading what : String) (limit : Option ℚ) (spent : ℚ)
    (t : Trace LimitWarning) : Trace LimitWarning :=
  if isPositive limit then
    let l := limit.getD 0
    let percentage := roundDouble (roundDouble (spent / l) * 100)
    let t1 := t.divide what spent l
    if percentage ≥ 80 then
      t1.emit { heading := heading, spent := spent, percentage := percentage, limit := l }
    else t1
  else t

/-- Lines 402-428 of `checkSpendingLimits`, on the spends already computed. -/
def limitWarnings (settings : Settings) (dailySpent weeklySpent : ℚ) : Trace LimitWarning :=
  let t0 : Trace LimitWarning := { divisions := [], out := [] }
  let t1 := limitBlock "Daily Spending Limit Warning" "dailySpendingLimit"
    settings.dailySpendingLimit dailySpent t0
  limitBlock "Weekly Spending Limit Warning" "weeklySpendingLimit"
    settings.weeklySpendingLimit weeklySpent t1

/-- The function `checkSpendingLimits` (lines 387-429): `user` is `getCurrentUser()`,
`txs` is `getTx()`, `today` the clock, `hasContainer` whether the warnings element
exists; `none` is an early return. -/
def checkSpendingLimits (tz : Int) (user : Option User) (txs : List Transaction) (today : Int)
    (hasContainer : Bool) : Option (Trace LimitWarning) :=
  match user with
  | none => none
  | some u =>
    match u.settings with
    | none => none
    | some settings =>
      let dailySpent := calculateSpendingForPeriod tz txs today today
      let weeklySpent := calculateSpendingForPeriod tz txs (currentWeekStart tz today) today
      if hasContainer then some (limitWarnings settings dailySpent weeklySpent) else none

/-- A notification record `{ type, title, message, time }`; the message is kept as the
numbers and the words interpolated into its template. -/
structure Notification where
  type : String
  title : String
  messageNumbers : List ℚ
  messageWords : List String
  time : String
  deriving DecidableEq

/-- One limit test of `generateNotifications` (lines 461-468, and 470-477), in doubles:
`spent > limit * 0.8`; the division stands in the message template and is evaluated only
when the record is pushed. -/
def alertBlock (title time what : String) (limit : Option ℚ) (spent : ℚ)
    (t : Trace Notification) : Trace Notification :=
  if isPositive limit ∧ spent > roundDouble (limit.getD 0 * roundDouble (8 / 10)) then
    let l := limit.getD 0
    (t.divide what spent l).emit
      { type := "warning", title := title,
        messageNumbers := [spent, roundDouble (roundDouble (spent / l) * 100), l],
        messageWords := [], time := time }
  else t

/-- The expression `((current - last) / last) * 100` of lines 306 and 487 on two numbers,
in doubles. -/
def changePercent (cur last : ℚ) : ℚ :=
  roundDouble (roundDouble (roundDouble (cur - last) / last) * 100)

/-- The two operands of that expression as numbers; `none` when one of them is not a
number: `undefined`, a string of a mapping and a member of `Object.prototype` all convert
to `NaN`, and the change is then `NaN`. -/
def numericOperands : Lookup → Lookup → Option (ℚ × ℚ)
  | Lookup.own (Cell.number cur), Lookup.own (Cell.number last) => some (cur, last)
  | _, _ => none

/-- The loop `for (const category in currentWeekSpending)` of `generateNotifications`
(lines 484-497) and `updatePatternAlerts` (lines 304-318): the guard is the truthiness of
`lastWeekSpending[category]`; a change that is `NaN` fails `Math.abs(change) > 20`, and
its division, whose operands are not both numbers, is left out of the trace. -/
def patternLoop (currentWeekSpending lastWeekSpending : Dict Cell) :
    List String → Trace Notification → Trace Notification
  | [], t => t
  | category :: rest, t =>
    if (lookup lastWeekSpending category).truthy then
      match numericOperands (lookup currentWeekSpending category)
          (lookup lastWeekSpending category) with
      | some (cur, last) =>
        let change := changePercent cur last
        let t1 := t.divide "lastWeekSpending[category]" (roundDouble (cur - last)) last
        if |change| > 20 then
          let direction := if change > 0 then "more" else "less"
          patternLoop currentWeekSpending lastWeekSpending rest
            (t1.emit { type := "info", title := "Spending Pattern Change",
                       messageNumbers := [|change|], messageWords := [direction, category],
                       time := "This week" })
        else patternLoop currentWeekSpending lastWeekSpending rest t1
      | none => patternLoop currentWeekSpending lastWeekSpending rest t
    else patternLoop currentWeekSpending lastWeekSpending rest t

/-- The function `updatePatternAlerts`; `none` when the alerts element is missing. -/
def updatePatternAlerts (hasElement : Bool) (currentWeekSpending lastWeekSpending : Dict Cell) :
    Option (Trace Notification) :=
  if hasElement then
    some (patternLoop currentWeekSpending lastWeekSpending currentWeekSpending.keys
      { divisions := [], out := [] })
  else none

/-- The function `generateNotifications` (lines 443-516); `user` is `getCurrentUser()`,
which always carries a `settings` object. -/
def generateNotifications (tz : Int) (user : Option User) (txs : List Transaction)
    (today : Int) : Trace Notification :=
  let notifications : Trace Notification := { divisions := [], out := [] }
  match user with
  | none => notifications
  | some u =>
    if u.transactions.isNone then notifications
    else
      let weekStart := currentWeekStart tz today
      let lastWeekStart := addDays weekStart (-7)
      let n1 := match u.settings with
        | some settings =>
          let dailySpent := calculateSpendingForPeriod tz txs today today
          let weeklySpent := calculateSpendingForPeriod tz txs weekStart today
          alertBlock "Weekly Spending Alert" "This week" "weeklySpendingLimit"
            settings.weeklySpendingLimit weeklySpent
            (alertBlock "Daily Spending Alert" "Today" "dailySpendingLimit"
              settings.dailySpendingLimit dailySpent notifications)
        | none => notifications
      let currentWeekSpending := getSpendingByCategory txs weekStart today
      let lastWeekSpending :=
        getSpendingByCategory txs lastWeekStart (lastWeekStart + 6 * 24 * 60 * 60 * 1000)
      let n2 := patternLoop currentWeekSpending lastWeekSpending currentWeekSpending.keys n1
      match txs.getLast? with
      | some lastTx =>
        let daysSinceLastEntry := (today - lastTx.createdAt.iso) / msPerDay
        if 1 < daysSinceLastEntry ∧ (u.settings.bind (fun st => st.dailyReminder)) = some true then
          n2.emit { type := "info", title := "Daily Tracking Reminder",
                    messageNumbers := [(daysSinceLastEntry : ℚ)], messageWords := [],
                    time := "Today" }
        else n2
      | none => n2

/-! ## Record creation (`saveTransaction`, add mode) -/

/-- The object literal `tx` of `saveTransaction` (lines 1266-1276): `ts` is
`nowTimestamp()`, `id` the value of `uid('tx_')`, `email` the session's email. -/
def newTransaction (ts : Stamp) (id type : String) (amount : ℚ) (note email : String) :
    Transaction :=
  { id := id, type := type, amount := amount, note := note, date := ts.date, time := ts.time,
    createdBy := email, createdAt := ts }

/-! ## Registration and settings (`initAuth`, `saveSettings`) -/

/-- The object literal `newUser` of the register handler (lines 1007-1014): it has no
`transactions` property. -/
def newUser (email name pin : String) : User :=
  { email := email, name := name, pin := pin, settings := some {}, reflections := some [],
    transactions := none }

/-- The assignments of `saveSettings` (lines 856-862) on the current user; the arguments
are the values read from the form (`parseFloat(...) || 0` and the two checkboxes). -/
def applySettings (user : User) (savingsGoal dailySpendingLimit weeklySpendingLimit : ℚ)
    (dailyReminder weeklyReport : Bool) : User :=
  let settings : Settings :=
    { savingsGoal := some savingsGoal, dailySpendingLimit := some dailySpendingLimit,
      weeklySpendingLimit := some weeklySpendingLimit, dailyReminder := some dailyReminder,
      weeklyReport := some weeklyReport }
  { user with settings := some settings }

/-! ## Weekly windows (`updateSavingsInsights`, `updateSpendingPatterns`) -/

/-- The value `lastWeekStart`: `currentWeekStart` moved back by 7 days. -/
def lastWeekStart (tz today : Int) : Int := addDays (currentWeekStart tz today) (-7)

/-- The value `lastWeekEnd` of `updateSavingsInsights` (line 160):
`new Date(currentWeekStart.getTime() - 1)`. -/
def insightsLastWeekEnd (tz today : Int) : Int := currentWeekStart tz today - 1

/-- The end of the last-week window of `updateSpendingPatterns` (line 274) and
`generateNotifications` (line 482):
`new Date(lastWeekStart.getTime() + 6 * 24 * 60 * 60 * 1000)`. -/
def patternsLastWeekEnd (tz today : Int) : Int :=
  lastWeekStart tz today + 6 * 24 * 60 * 60 * 1000

/-- The numbers that `updateSavingsInsights` computes (lines 156-186); `changePercent` is
computed only when `lastWeekSavings !== 0`. -/
structure SavingsInsights where
  currentWeekSavings : ℚ
  lastWeekSavings : ℚ
  changePercent : Option ℚ
  monthlyProjection : ℚ
  deriving DecidableEq

/-- The function `updateSavingsInsights` (lines 144-190), as the values it writes to the
page; `none` when no user is logged in. -/
def updateSavingsInsights (tz : Int) (user : Option User) (txs : List Transaction)
    (today : Int) : Option SavingsInsights :=
  match user with
  | none => none
  | some _ =>
    let currentWeekSavings := calculateSavingsForPeriod txs (currentWeekStart tz today) today
    let lastWeekSavings :=
      calculateSavingsForPeriod txs (lastWeekStart tz today) (insightsLastWeekEnd tz today)
    let dailyRate := currentWeekSavings / 7
    some { currentWeekSavings := currentWeekSavings, lastWeekSavings := lastWeekSavings,
           changePercent :=
             if lastWeekSavings ≠ 0 then
               some (((currentWeekSavings - lastWeekSavings) / |lastWeekSavings|) * 100)
             else none,
           monthlyProjection := dailyRate * 30 }

/-- The two mappings that `updateSpendingPatterns` computes (lines 272-274) and hands to
`updatePatternAlerts`, `updateCategoryChart` and `updateTopCategories`. -/
structure SpendingPatterns where
  currentWeekSpending : Dict Cell
  lastWeekSpending : Dict Cell
  deriving DecidableEq

/-- The function `updateSpendingPatterns` (lines 263-284), as the two mappings. -/
def updateSpendingPatterns (tz : Int) (txs : List Transaction) (today : Int) :
    SpendingPatterns :=
  { currentWeekSpending := getSpendingByCategory txs (currentWeekStart tz today) today,
    lastWeekSpending :=
      getSpendingByCategory txs (lastWeekStart tz today) (patternsLastWeekEnd tz today) }

/-! ## Savings-goal progress (`updateSavingsGoalProgress`) -/

/-- The numbers that `updateSavingsGoalProgress` writes: the two of the text and the
percentage of the fill width. -/
structure GoalProgress where
  monthlySavings : ℚ
  goalAmount : ℚ
  progressPercent : ℚ
  deriving DecidableEq

/-- The loop of lines 238-247: net of the records from `monthStart` through `today`; a
comparison with an invalid `monthStart` is false. -/
def monthlySavings (monthStart : Option Int) (today : Int) (txs : List Transaction) : ℚ :=
  txs.foldl (fun acc tx =>
    if (match monthStart with
        | some ms => decide (ms ≤ tx.createdAt.iso)
        | none => false) = true ∧ tx.createdAt.iso ≤ today then
      if tx.type = "inflow" then acc + tx.amount else acc - tx.amount
    else acc) 0

/-- The function `updateSavingsGoalProgress` (lines 226-261); the three clock reads are
one instant `now`; `none` is the early return (no user, no settings, falsy goal). -/
def updateSavingsGoalProgress (tz : Int) (user : Option User) (txs : List Transaction)
    (now : Int) : Option GoalProgress :=
  match user with
  | none => none
  | some u =>
    match u.settings with
    | none => none
    | some settings =>
      match settings.savingsGoal with
      | none => none
      | some goalAmount =>
        if goalAmount = 0 then none
        else
          let monthStart := newDateLocal tz (getFullYear tz now) (getMonth tz now) 1
          let saved := monthlySavings monthStart now txs
          some { monthlySavings := saved, goalAmount := goalAmount,
                 progressPercent := min 100 ((saved / goalAmount) * 100) }

/-! ## Storage (`load`, `save`, `getUsers`, `getSession`, `getTx`, `saveTx`) -/

/-- The constant `USERS_KEY`. -/
def USERS_KEY : String := "cms_users_v2"

/-- The constant `TX_KEY_PREFIX`. -/
def TX_KEY_PREFIX : String := "cms_tx_"

/-- The constant `SESSION_KEY`. -/
def SESSION_KEY : String := "cms_session_v2"

/-- A value of `localStorage` as `JSON.parse` gives it back: the user collection, the
session object, or one ledger. -/
inductive Stored where
  | users (us : List User)
  | session (s : Session)
  | ledger (txs : List Transaction)
  deriving DecidableEq

/-- The items of `localStorage` by key; a key holds the kind of value that the script
writes under it, anything else reads as absent. -/
abbrev LocalStorage := Dict Stored

/-- A call of `showAlert(message, type)`. -/
abbrev Alert := String × String

/-- The function `load` (lines 74-81): `none` is `null`. -/
def load (ls : LocalStorage) (key : String) : Option Stored := ls.get key

/-- The result of `save`: the storage after the call, the returned boolean, and the alert
of the `catch` branch. -/
structure Saved where
  storage : LocalStorage
  ok : Bool
  alerts : List Alert
  deriving DecidableEq

/-- The function `save` (lines 83-92); `writeOk` tells whether `localStorage.setItem`
succeeds, and a throwing `setItem` stores nothing. -/
def save (writeOk : Bool) (ls : LocalStorage) (key : String) (val : Stored) : Saved :=
  if writeOk then { storage := ls.set key val, ok := true, alerts := [] }
  else { storage := ls, ok := false, alerts := [("Error saving data. Please try again.", "error")] }

/-- The function `getUsers`. -/
def getUsers (ls : LocalStorage) : List User :=
  match load ls USERS_KEY with
  | some (Stored.users us) => us
  | _ => []

/-- The function `getSession`. -/
def getSession (ls : LocalStorage) : Option Session :=
  match load ls SESSION_KEY with
  | some (Stored.session s) => some s
  | _ => none

/-- The function `getTxKey` (lines 98-101): `null` without a session or with an empty
session email. -/
def getTxKey (ls : LocalStorage) : Option String :=
  match getSession ls with
  | some session => if session.email = "" then none else some ( TX_KEY_PREFIX ++ session.email)
  | none => none

/-- The function `getTx` (lines 103-106). -/
def getTx (ls : LocalStorage) : List Transaction :=
  match getTxKey ls with
  | some txKey =>
    match load ls txKey with
    | some (Stored.ledger txs) => txs
    | _ => []
  | none => []

/-- The function `saveTx` (lines 108-111). -/
def saveTx (writeOk : Bool) (ls : LocalStorage) (arr : List Transaction) : Saved :=
  match getTxKey ls with
  | some txKey => save writeOk ls txKey (Stored.ledger arr)
  | none => { storage := ls, ok := false, alerts := [] }

/-! ## The transaction modal (`saveTransaction`) -/

/-- The code points that `String.prototype.trim` removes: white space and line
terminators. -/
def isTrimChar (c : Char) : Bool :=
  let n := c.toNat
  n = 9 || n = 10 || n = 11 || n = 12 || n = 13 || n = 32 || n = 160 || n = 5760 ||
    (8192 ≤ n && n ≤ 8202) || n = 8232 || n = 8233 || n = 8239 || n = 8287 || n = 12288 ||
    n = 65279

/-- The method `trim`. -/
def trim (s : String) : String :=
  String.mk ((s.data.dropWhile isTrimChar).reverse.dropWhile isTrimChar).reverse

/-- The function `uid` (lines 19-21); `random` is the value of
`Math.random().toString(36).slice(2, 9)`. -/
def uid (pfx random : String) : String := pfx ++ random

/-- The method `findIndex`: `none` is `-1`. -/
def findIndex {α : Type} (p : α → Bool) : List α → Option Nat
  | [] => none
  | x :: xs => if p x then some 0 else (findIndex p xs).map (· + 1)

/-- The inputs of the modal as `saveTransaction` reads them: `amount` is the value of
`parseFloat(transAmount.value)`, `none` for `NaN`; `note` is the raw text. -/
structure TxForm where
  type : String
  amount : Option ℚ
  note : String
  deriving DecidableEq

/-- What a call of `saveTransaction` leaves behind: the storage, the alerts shown, the
variable `editingId`, whether the modal is still open, and whether `loadAndRender` ran. -/
structure SaveOutcome where
  storage : LocalStorage
  alerts : List Alert
  editingId : Option String
  modalActive : Bool
  rendered : Bool
  deriving DecidableEq

/-- The function `saveTransaction` (lines 1223-1286), called with the modal open; `now`
is the clock reading of `nowTimestamp()`. -/
def saveTransaction (tz now : Int) (random : String) (writeOk : Bool) (ls : LocalStorage)
    (editingId : Option String) (form : TxForm) : SaveOutcome :=
  match getSession ls with
  | none => ⟨ls, [("Not logged in", "error")], editingId, true, false⟩
  | some session =>
    let type := form.type
    let note := trim form.note
    match form.amount with
    | none => ⟨ls, [("Please enter a valid amount", "error")], editingId, true, false⟩
    | some amount =>
      if amount ≤ 0 then
        ⟨ls, [("Please enter a valid amount", "error")], editingId, true, false⟩
      else if note = "" then
        ⟨ls, [("Please enter a note/description", "error")], editingId, true, false⟩
      else
        let txs := getTx ls
        match editingId.filter (fun id => decide (id ≠ "")) with
        | some id =>
          match findIndex (fun x => decide (x.id = id)) txs with
          | none => ⟨ls, [("Transaction not found", "error")], none, false, false⟩
          | some idx =>
            let txs1 := match txs[idx]? with
              | some old =>
                txs.set idx { old with
                  type := type, amount := amount, note := note,
                  editedBy := some session.email, editedAt := some (nowTimestamp tz now) }
              | none => txs
            let r := saveTx writeOk ls txs1
            ⟨r.storage,
              r.alerts ++ (if r.ok then [("Transaction updated successfully", "success")] else []),
              none, false, true⟩
        | none =>
          let ts := nowTimestamp tz now
          let tx := newTransaction ts (uid "tx_" random) type amount note session.email
          let r := saveTx writeOk ls (txs ++ [tx])
          ⟨r.storage,
            r.alerts ++ (if r.ok then [("Transaction saved successfully", "success")] else []),
            none, false, true⟩

/-! ## PIN validation (`isValidPin`, the strength indicator) -/

/-- The property `length` of a string: the number of UTF-16 code units. -/
def utf16Length (s : String) : Nat :=
  (s.data.map (fun c => if c.toNat < 65536 then 1 else 2)).sum

/-- The test `/^\d+$/.test(s)`: at least one character, all of them `0` to `9`. -/
def testDigits (s : String) : Bool := !s.data.isEmpty && s.data.all Char.isDigit

/-- The function `isValidPin` (lines 37-39), as the truthiness of its result; `none` is a
missing pin. -/
def isValidPin (pin : Option String) : Bool :=
  match pin with
  | none => false
  | some p =>
    decide (p ≠ "") && decide (utf16Length p ≥ 4) && decide (utf16Length p ≤ 12) && testDigits p

/-- The listener of the PIN input (lines 956-978): text and colour of the indicator,
`none` when it is hidden. -/
def pinStrength (pin : String) : Option (String × String) :=
  if pin = "" then none
  else if utf16Length pin < 4 then some ("PIN too short (min 4 digits)", "var(--danger)")
  else if utf16Length pin > 12 then some ("PIN too long (max 12 digits)", "var(--danger)")
  else if !testDigits pin then some ("PIN should contain only digits", "var(--danger)")
  else some ("PIN is valid", "var(--success)")

/-! ## Export (`exportData`) -/

/-- A JSON value as `JSON.stringify` writes it; `instant t` is the string
`toISOString()` of the instant `t`. -/
inductive Json where
  | null
  | num (q : ℚ)
  | str (s : String)
  | instant (t : Int)
  | arr (items : List Json)
  | obj (fields : List (String × Json))

/-- The JSON form of the object of `nowTimestamp`. -/
def Stamp.toJson (s : Stamp) : Json :=
  Json.obj [("date", Json.str s.date), ("time", Json.str s.time), ("iso", Json.instant s.iso)]

/-- A property that is written only when it is defined. -/
def optField (key : String) : Option Json → List (String × Json)
  | some v => [(key, v)]
  | none => []

/-- The JSON form of a ledger record: the properties of the object literal of
`saveTransaction` in their order, then the optional ones. -/
def Transaction.toJson (tx : Transaction) : Json :=
  Json.obj
    ([("id", Json.str tx.id), ("type", Json.str tx.type), ("amount", Json.num tx.amount),
      ("note", Json.str tx.note), ("date", Json.str tx.date), ("time", Json.str tx.time),
      ("createdBy", Json.str tx.createdBy), ("createdAt", tx.createdAt.toJson)] ++
      optField "category" (tx.category.map Json.str) ++
      optField "editedBy" (tx.editedBy.map Json.str) ++
      optField "editedAt" (tx.editedAt.map Stamp.toJson))

/-- The object `data` of `exportData` (lines 1984-1990), as the JSON value that
`JSON.stringify(data, null, 2)` writes. -/
def exportData (tz now : Int) (ls : LocalStorage) : Json :=
  let txs := getTx ls
  let session := getSession ls
  Json.obj
    [("exportedAt", (nowTimestamp tz now).toJson),
     ("user", match session with
        | some s => Json.obj [("email", Json.str s.email), ("name", Json.str s.name)]
        | none => Json.null),
     ("transactions", Json.arr (txs.map Transaction.toJson))]

/-! ## Users in storage (`saveUsers`, `setSession`, `saveUserData`) -/

/-- The function `saveUsers`. -/
def saveUsers (writeOk : Bool) (ls : LocalStorage) (u : List User) : Saved :=
  save writeOk ls USERS_KEY (Stored.users u)

/-- The function `setSession`. -/
def setSession (writeOk : Bool) (ls : LocalStorage) (session : Session) : Saved :=
  save writeOk ls SESSION_KEY (Stored.session session)

/-- The function `saveUserData` (lines 133-141). -/
def saveUserData (writeOk : Bool) (ls : LocalStorage) (user : User) : Saved :=
  let users := getUsers ls
  match findIndex (fun u => decide (u.email = user.email)) users with
  | some userIndex => saveUsers writeOk ls (users.set userIndex user)
  | none => { storage := ls, ok := false, alerts := [] }

/-! ## Deleting (`deleteTx`, `deleteReflection`) -/

/-- What a delete handler leaves behind: the storage, the alerts shown, and whether the
list was rendered again. -/
structure DeleteOutcome where
  storage : LocalStorage
  alerts : List Alert
  rendered : Bool
  deriving DecidableEq

/-- The function `window.deleteTx` (lines 1296-1304); `confirmed` is the answer to
`confirm(...)`. -/
def deleteTx (confirmed writeOk : Bool) (ls : LocalStorage) (id : String) : DeleteOutcome :=
  if !confirmed then ⟨ls, [], false⟩
  else
    let txs := (getTx ls).filter (fun x => decide (x.id ≠ id))
    let r := saveTx writeOk ls txs
    if r.ok then ⟨r.storage, r.alerts ++ [("Transaction deleted", "success")], true⟩
    else ⟨r.storage, r.alerts, false⟩

/-- The function `deleteReflection` (lines 637-679); the empty string is the falsy id. -/
def deleteReflection (confirmed writeOk : Bool) (ls : LocalStorage) (reflectionId : String) :
    DeleteOutcome :=
  if reflectionId = "" then ⟨ls, [("Invalid reflection ID", "error")], false⟩
  else if !confirmed then ⟨ls, [], false⟩
  else
    match getCurrentUser (getSession ls) (getUsers ls) with
    | none => ⟨ls, [("Unable to delete reflection. User data not found.", "error")], false⟩
    | some user =>
      match user.reflections with
      | none => ⟨ls, [("Unable to delete reflection. User data not found.", "error")], false⟩
      | some reflections =>
        let initialLength := reflections.length
        let kept := reflections.filter (fun ref => decide (ref.id ≠ reflectionId))
        if kept.length = initialLength then
          ⟨ls, [("Reflection not found. It may have already been deleted.", "error")], false⟩
        else
          let r := saveUserData writeOk ls { user with reflections := some kept }
          if r.ok then
            ⟨r.storage, r.alerts ++ [("Reflection deleted successfully.", "success")], true⟩
          else
            ⟨r.storage, r.alerts ++ [("Failed to save changes. Please try again.", "error")],
              false⟩

/-! ## Email validation and registration (`isValidEmail`, `initAuth`) -/

/-- The classes of characters that the pattern of `isValidEmail` tells apart: white space
(`\s`), `@`, `.`, and every other character. -/
inductive EmailChar where
  | space
  | at
  | dot
  | other
  deriving DecidableEq

/-- The class of a character; `\s` matches the characters that `trim` removes. -/
def classify (c : Char) : EmailChar :=
  if isTrimChar c then EmailChar.space
  else if c = '@' then EmailChar.at
  else if c = '.' then EmailChar.dot
  else EmailChar.other

/-- The part `[^\s@]+` of the pattern: one or more characters that are neither white space
nor `@`. -/
def emailPart : RegularExpression EmailChar :=
  (RegularExpression.char EmailChar.dot + RegularExpression.char EmailChar.other) *
    RegularExpression.star
      (RegularExpression.char EmailChar.dot + RegularExpression.char EmailChar.other)

/-- The pattern `/^[^\s@]+@[^\s@]+\.[^\s@]+$/` of `isValidEmail`. -/
def emailPattern : RegularExpression EmailChar :=
  emailPart * (RegularExpression.char EmailChar.at *
    (emailPart * (RegularExpression.char EmailChar.dot * emailPart)))

/-- The function `isValidEmail` (lines 33-35): the whole string matches the pattern. -/
def isValidEmail (email : String) : Bool :=
  emailPattern.rmatch (email.data.map classify)

/-- The values of the three inputs of the register form. -/
structure RegisterForm where
  name : String
  email : String
  pin : String
  deriving DecidableEq

/-- What the register handler leaves behind: the storage, the alerts shown, and the email
written to the login form when the account was created. -/
structure RegisterOutcome where
  storage : LocalStorage
  alerts : List Alert
  loginEmail : Option String
  deriving DecidableEq

/-- The click listener of the register button (lines 981-1027); `toLowerCase` is the
built-in method, `usersOk` and `ledgerOk` tell whether the two writes succeed. -/
def register (toLowerCase : String → String) (usersOk ledgerOk : Bool) (ls : LocalStorage)
    (form : RegisterForm) : RegisterOutcome :=
  let name := trim form.name
  let email := toLowerCase (trim form.email)
  let pin := form.pin
  if name = "" ∨ email = "" ∨ pin = "" then
    ⟨ls, [("Please fill all fields", "error")], none⟩
  else if !isValidEmail email then
    ⟨ls, [("Please enter a valid email address", "error")], none⟩
  else if !isValidPin (some pin) then
    ⟨ls, [("PIN must be 4-12 digits", "error")], none⟩
  else
    let users := getUsers ls
    if users.any (fun u => decide (u.email = email)) then
      ⟨ls, [("Email already registered", "error")], none⟩
    else
      let r := saveUsers usersOk ls (users ++ [newUser email name pin])
      if r.ok then
        let userTxKey := TX_KEY_PREFIX ++ email
        let r2 := save ledgerOk r.storage userTxKey (Stored.ledger [])
        ⟨r2.storage,
          r.alerts ++ r2.alerts ++
            [("Account created successfully. You may now login.", "success")],
          some email⟩
      else ⟨r.storage, r.alerts, none⟩

/-! ## The statistics of `loadAndRender` -/

/-- The call `updateStatistics(filtered)` of `loadAndRender` (line 1382): `txs` is
`getTx()`, and `filtered` is built from it with the view type and the search query. -/
def loadAndRenderStatistics (searchHit : String → Transaction → Bool) (txs : List Transaction)
    (start stop : Option Int) (viewType searchQuery : String) : StatDisplay :=
  updateStatistics txs start stop
    (loadAndRenderFiltered searchHit start stop viewType searchQuery txs)

/-! ## Scenarios of the specification -/

/-- The ledger `[inflow 100 day 1, outflow 30 day 1, outflow 20 day 2]`, created through
`nowTimestamp` in a UTC zone on 1 and 2 January 2025. -/
def scenarioLedger : List Transaction :=
  [newTransaction (nowTimestamp 0 1735718400000) "tx_a" "inflow" 100 "allowance" "a@b.c",
   newTransaction (nowTimestamp 0 1735722000000) "tx_b" "outflow" 30 "rice" "a@b.c",
   newTransaction (nowTimestamp 0 1735808400000) "tx_c" "outflow" 20 "bus" "a@b.c"]

/-- Outflows `Food 40, Food 10, Transport 5`, with an inflow in between. -/
def scenarioCategories : List Transaction :=
  [{ newTransaction (nowTimestamp 0 1735718400000) "tx_a" "outflow" 40 "lunch" "a@b.c" with
       category := some "Food" },
   { newTransaction (nowTimestamp 0 1735720000000) "tx_i" "inflow" 500 "pay" "a@b.c" with
       category := some "Food" },
   { newTransaction (nowTimestamp 0 1735722000000) "tx_b" "outflow" 10 "snack" "a@b.c" with
       category := some "Food" },
   { newTransaction (nowTimestamp 0 1735808400000) "tx_c" "outflow" 5 "bus" "a@b.c" with
       category := some "Transport" }]

/-- A storage with one registered user, their session, and a ledger of one record created
on 2025-01-08 12:00 UTC. -/
def scenarioStorage : LocalStorage :=
  [("cms_users_v2", Stored.users [newUser "a@b.c" "A" "1234"]),
   ("cms_session_v2", Stored.session ⟨"a@b.c", "A", 1736337600000⟩),
   ("cms_tx_a@b.c", Stored.ledger
      [newTransaction (nowTimestamp 0 1736337600000) "tx_a" "inflow" 100 "allowance" "a@b.c"])]

/-- A zone that moves from UTC-5 to UTC-4 on 9 March 2025 at 07:00 UTC (02:00 local time),
as America/New_York does; a local time in the skipped hour is read with the offset before
the change. -/
def springForwardZone : Zone :=
  { offsetAt := fun t => if t < 1741503600000 then -18000000 else -14400000,
    offsetOfLocal := fun t => if t < 1741489200000 then -18000000 else -14400000 }

/-- Three inflows of 0.1, 0.2 and 0.3, as the doubles that `parseFloat` gives, created in
a UTC zone on 1, 2 and 3 January 2025. -/
def scenarioTenths : List Transaction :=
  [newTransaction (nowTimestamp 0 1735718400000) "tx_a" "inflow" (roundDouble (1 / 10)) "a"
     "a@b.c",
   newTransaction (nowTimestamp 0 1735808400000) "tx_b" "inflow" (roundDouble (2 / 10)) "b"
     "a@b.c",
   newTransaction (nowTimestamp 0 1735894800000) "tx_c" "inflow" (roundDouble (3 / 10)) "c"
     "a@b.c"]

/-! ## Specification-side definitions -/

/-- The records that `getSpendingByCategory` adds under key `c`, written from the
specification: outflows inside the window whose category (absent read as "Other") is `c`. -/
def categoryRecords (txs : List Transaction) (startDate endDate : Int) (c : String) :
    List Transaction :=
  txs.filter (fun tx => decide (startDate ≤ tx.createdAt.iso ∧ tx.createdAt.iso ≤ endDate ∧
    tx.type = "outflow" ∧ categoryOf tx = c))

/-- The number held under a key, 0 when the key is absent. -/
def numberOrZero : Option Cell → ℚ
  | some (Cell.number v) => v
  | _ => 0

/-- Days in month `mm` (1 = January). -/
def daysInMonth (leap : Bool) (mm : Nat) : Nat :=
  if mm = 2 then (if leap then 29 else 28)
  else if mm = 4 ∨ mm = 6 ∨ mm = 9 ∨ mm = 11 then 30 else 31

/-- The fields `(yy, mm, dd)` of a display date of the exact shape `MM/DD/YY` (two decimal
digits each). -/
def calendarFields (s : String) : Option (Nat × Nat × Nat) :=
  match s.data with
  | [m1, m2, s1, d1, d2, s2, y1, y2] =>
    if s1 = '/' ∧ s2 = '/' then
      match digitVal m1, digitVal m2, digitVal d1, digitVal d2, digitVal y1, digitVal y2 with
      | some a, some b, some c, some d, some e, some f =>
        some (10 * e + f, 10 * a + b, 10 * c + d)
      | _, _, _, _, _, _ => none
    else none
  | _ => none

/-- A well-formed display date: `MM/DD/YY` naming a real day of the years 2000-2099, as
`nowTimestamp` writes it. -/
def wellFormedDate (s : String) : Bool :=
  match calendarFields s with
  | some (yy, mm, dd) =>
    decide (1 ≤ mm ∧ mm ≤ 12 ∧ 1 ≤ dd ∧ dd ≤ daysInMonth (inLeapYear (2000 + (yy : Int))) mm)
  | none => false

/-- Calendar order of two display dates: `a` is on or before `b`, comparing
(year, month, day). -/
def calendarLE (a b : String) : Bool :=
  match calendarFields a, calendarFields b with
  | some (y1, m1, d1), some (y2, m2, d2) =>
    decide (y1 < y2 ∨ (y1 = y2 ∧ (m1 < m2 ∨ (m1 = m2 ∧ d1 ≤ d2))))
  | _, _ => false

/-- The day number of calendar fields `(yy, mm, dd)` in the years 2000-2099. -/
def fieldsDay (f : Nat × Nat × Nat) : Int :=
  makeDay (2000 + (f.1 : Int)) ((f.2.1 : Int) - 1) (f.2.2 : Int)

/-- The day number of a display date (0 when the string has another shape). -/
def dayKey (s : String) : Int :=
  match calendarFields s with
  | some f => fieldsDay f
  | none => 0

/-- Inflow recorded on display date `d`. -/
def inflowOn (txs : List Transaction) (d : String) : ℚ :=
  ((txs.filter (fun tx => decide (tx.date = d ∧ tx.type = "inflow"))).map (·.amount)).sum

/-- Outflow recorded on display date `d`. -/
def outflowOn (txs : List Transaction) (d : String) : ℚ :=
  ((txs.filter (fun tx => decide (tx.date = d ∧ tx.type = "outflow"))).map (·.amount)).sum

/-- The daily net `inflow - outflow` of display date `d`. -/
def netOn (txs : List Transaction) (d : String) : ℚ := inflowOn txs d - outflowOn txs d

/-- The dates present in a record set, each once. -/
def datesOf (txs : List Transaction) : List String := (txs.map (·.date)).dedup

/-- The glossary's running balance of date `d`: the daily nets of all dates of the set
that are on or before `d` in calendar order, summed. -/
def runningBalanceSpec (txs : List Transaction) (d : String) : ℚ :=
  (((datesOf txs).filter (fun d2 => calendarLE d2 d)).map (netOn txs)).sum

/-- The total net of all dates of a record set. -/
def totalNetSpec (txs : List Transaction) : ℚ := ((datesOf txs).map (netOn txs)).sum

/-- The daily nets of the dates strictly after `d` in calendar order, summed. -/
def laterNetSpec (txs : List Transaction) (d : String) : ℚ :=
  (((datesOf txs).filter (fun d2 => !calendarLE d2 d)).map (netOn txs)).sum

/-- The direct descending computation of the specification: start from the total net of
all dates, read the dates from the latest to the earliest, give each date the running
value, then take that date's own net off. -/
def descendingLoop (byDate : Dict DayTotals) :
    List String → ℚ × Dict ℚ → ℚ × Dict ℚ
  | [], st => st
  | date :: rest, (running, out) =>
    descendingLoop byDate rest (running - dailySavings byDate date, out.set date running)

/-- The per-date values of the direct descending computation. -/
def savingsDirectDesc (tz : Int) (byDate : Dict DayTotals) : Dict ℚ :=
  (descendingLoop byDate (datesDesc tz byDate)
    ((byDate.keys.map (dailySavings byDate)).sum, [])).2

/-- The total net of the dates `dates`, summed in that order with each sum rounded by
`rnd`. -/
def totalNetWith (rnd : ℚ → ℚ) (byDate : Dict DayTotals) (dates : List String) : ℚ :=
  dates.foldl (fun acc date => rnd (acc + dailySavingsWith rnd byDate date)) 0

/-- The direct descending computation of the specification with each result rounded by
`rnd`: the dates are read from the latest to the earliest with a running sum of the nets
already read, and each date gets `total` minus that sum. -/
def directDescendingWith (rnd : ℚ → ℚ) (byDate : Dict DayTotals) (total : ℚ) :
    List String → ℚ × Dict ℚ → ℚ × Dict ℚ
  | [], st => st
  | date :: rest, (later, out) =>
    directDescendingWith rnd byDate total rest
      (rnd (later + dailySavingsWith rnd byDate date), out.set date (rnd (total - later)))

/-- The per-date values of the direct descending computation, the total taken over
`totalOrder`. -/
def savingsDirectDescWith (rnd : ℚ → ℚ) (tz : Int) (byDate : Dict DayTotals)
    (totalOrder : List String) : Dict ℚ :=
  (directDescendingWith rnd byDate (totalNetWith rnd byDate totalOrder) (datesDesc tz byDate)
    (0, [])).2

/-- Validity of calendar fields `(yy, mm, dd)`. -/
def ValidFields (f : Nat × Nat × Nat) : Prop :=
  1 ≤ f.2.1 ∧ f.2.1 ≤ 12 ∧ 1 ≤ f.2.2 ∧
    f.2.2 ≤ daysInMonth (inLeapYear (2000 + (f.1 : Int))) f.2.1

/-- Strict calendar order of fields. -/
def FieldsLT (f g : Nat × Nat × Nat) : Prop :=
  f.1 < g.1 ∨ (f.1 = g.1 ∧ (f.2.1 < g.2.1 ∨ (f.2.1 = g.2.1 ∧ f.2.2 < g.2.2)))

/-- A limit that switches its check off: unset, zero or negative. -/
def Disabled (limit : Option ℚ) : Prop :=
  limit = none ∨ ∃ l, limit = some l ∧ l ≤ 0

/-- A trace in which no record has title `title` and no division has the denominator
expression `what`. -/
def Avoids (title what : String) (t : Trace Notification) : Prop :=
  (∀ n ∈ t.out, n.title ≠ title) ∧ (∀ e ∈ t.divisions, e.1 ≠ what)

/-- The weekly spend of the specification: outflows whose local day lies from the Sunday
of the current week (today's day minus today's weekday number) through today. -/
def weeklySpendSpec (tz : Int) (txs : List Transaction) (today : Int) : ℚ :=
  ((txs.filter (fun tx => decide (tx.type = "outflow" ∧
      localDay tz today - getDay tz today ≤ localDay tz tx.createdAt.iso ∧
      localDay tz tx.createdAt.iso ≤ localDay tz today))).map (·.amount)).sum

/-- The daily spend of the specification: outflows whose display date is today's. -/
def dailySpendSpec (tz : Int) (txs : List Transaction) (today : Int) : ℚ :=
  ((txs.filter (fun tx => decide (tx.type = "outflow" ∧
      tx.date = (nowTimestamp tz today).date))).map (·.amount)).sum

/-- An instant whose local day lies in the years 2000-2099, the years that a two-digit
display year names. -/
def InDisplayCentury (tz t : Int) : Prop :=
  10957 ≤ localDay tz t ∧ localDay tz t < 47482

instance instDecidableInDisplayCentury (tz t : Int) : Decidable (InDisplayCentury tz t) := by
  unfold InDisplayCentury
  exact inferInstance

/-- The clamp of the specification: a percentage brought into `[0, 100]`. -/
def clampPercent (x : ℚ) : ℚ := max 0 (min 100 x)

/-- The two decimal digits of a number below 100, as `padStart(2, '0')` writes them. -/
def twoDigit (k : Nat) : List Char :=
  [Char.ofNat (48 + k / 10), Char.ofNat (48 + k % 10)]

/-- The alert that the pattern comparison of the specification gives for one category:
none unless the category holds a number in both mappings and the previous one is not 0,
otherwise the record of the percentage change when its absolute value exceeds 20. -/
def patternAlert (cur last : Dict Cell) (category : String) : Option Notification :=
  match cur.get category, last.get category with
  | some (Cell.number v), some (Cell.number p) =>
    if p = 0 then none
    else if |changePercent v p| > 20 then
      some { type := "info", title := "Spending Pattern Change",
             messageNumbers := [|changePercent v p|],
             messageWords := [if changePercent v p > 0 then "more" else "less", category],
             time := "This week" }
    else none
  | _, _ => none

/-- The division that the pattern comparison evaluates for one category: none unless the
category holds a number in both mappings and the previous one is not 0. -/
def patternDivision (cur last : Dict Cell) (category : String) : Option (String × ℚ × ℚ) :=
  match cur.get category, last.get category with
  | some (Cell.number v), some (Cell.number p) =>
    if p = 0 then none
    else some ("lastWeekSpending[category]", roundDouble (v - p), p)
  | _, _ => none

/-- A record that flags category `c`: its message names `c` after the direction word. -/
def Flags (n : Notification) (c : String) : Prop :=
  n.title = "Spending Pattern Change" ∧ ∃ dir, n.messageWords = [dir, c]

/-- Reading a property of a JSON object, for the import of the specification. -/
def Json.field : Json → String → Option Json
  | Json.obj fields, key => Dict.get fields key
  | _, _ => none

/-- The text of a JSON string. -/
def Json.asStr : Json → Option String
  | Json.str s => some s
  | _ => none

/-- The value of a JSON number. -/
def Json.asNum : Json → Option ℚ
  | Json.num q => some q
  | _ => none

/-- A timestamp object read back from its JSON form. -/
def Stamp.ofJson (j : Json) : Option Stamp :=
  match j.field "date", j.field "time", j.field "iso" with
  | some (Json.str d), some (Json.str t), some (Json.instant i) =>
    some { date := d, time := t, iso := i }
  | _, _, _ => none

/-- An optional property read back with `read`; an absent property stays absent. -/
def optRead {α : Type} (read : Json → Option α) : Option Json → Option (Option α)
  | none => some none
  | some v => (read v).map some

/-- A ledger record read back from its JSON form. -/
def Transaction.ofJson (j : Json) : Option Transaction := do
  let id ← (j.field "id").bind Json.asStr
  let type ← (j.field "type").bind Json.asStr
  let amount ← (j.field "amount").bind Json.asNum
  let note ← (j.field "note").bind Json.asStr
  let date ← (j.field "date").bind Json.asStr
  let time ← (j.field "time").bind Json.asStr
  let createdBy ← (j.field "createdBy").bind Json.asStr
  let createdAt ← (j.field "createdAt").bind Stamp.ofJson
  let category ← optRead Json.asStr (j.field "category")
  let editedBy ← optRead Json.asStr (j.field "editedBy")
  let editedAt ← optRead Stamp.ofJson (j.field "editedAt")
  pure { id := id, type := type, amount := amount, note := note, date := date, time := time,
         createdBy := createdBy, createdAt := createdAt, category := category,
         editedBy := editedBy, editedAt := editedAt }

/-- The records of a JSON array read back in order; none when one of them is not a
ledger record. -/
def readRecords : List Json → Option (List Transaction)
  | [] => some []
  | j :: js =>
    match Transaction.ofJson j, readRecords js with
    | some tx, some txs => some (tx :: txs)
    | _, _ => none

/-- The import of the specification, which the script does not have: the `transactions`
array of an exported object read back into a ledger. -/
def importTransactions (j : Json) : Option (List Transaction) :=
  match j.field "transactions" with
  | some (Json.arr items) => readRecords items
  | _ => none

/-- A storage whose user keeps one reflection, with their session and a ledger of two
records. -/
def scenarioJournal : LocalStorage :=
  [("cms_users_v2", Stored.users
      [{ newUser "a@b.c" "A" "1234" with
          reflections := some [⟨"ref_q7w1e5r", 1736337600000, "spent less"⟩] }]),
   ("cms_session_v2", Stored.session ⟨"a@b.c", "A", 1736337600000⟩),
   ("cms_tx_a@b.c", Stored.ledger
      [newTransaction (nowTimestamp 0 1736337600000) "tx_a" "inflow" 100 "allowance" "a@b.c",
       newTransaction (nowTimestamp 0 1736341200000) "tx_b" "outflow" 30 "lunch" "a@b.c"])]

/-- The reflections of the logged-in user, as `getCurrentUser` returns them; none without
a user. -/
def currentReflections (ls : LocalStorage) : List Reflection :=
  match getCurrentUser (getSession ls) (getUsers ls) with
  | some user => user.reflections.getD []
  | none => []

/-- The record that an edit leaves in place of `old`, in the words of the specification:
type, amount and note are the submitted values, `editedBy` the session email, `editedAt`
the current timestamp, every other field is the one of `old`. -/
def editedRecord (old : Transaction) (type : String) (amount : ℚ) (note email : String)
    (ts : Stamp) : Transaction :=
  { id := old.id, type := type, amount := amount, note := note, date := old.date,
    time := old.time, createdBy := old.createdBy, createdAt := old.createdAt,
    category := old.category, editedBy := some email, editedAt := some ts }

/-- The shape of a valid email in the words of the specification: no white space, exactly
one `@` with at least one character before it, and after the `@` a `.` with at least one
character before it and at least one after it. -/
def EmailShape (s : String) : Prop :=
  (∀ c ∈ s.data, isTrimChar c = false) ∧ s.data.count '@' = 1 ∧
    ∃ before after, s.data = before ++ '@' :: after ∧ before ≠ [] ∧
      ∃ y z, after = y ++ '.' :: z ∧ y ≠ [] ∧ z ≠ []

/-! ## Theorems -/

/-! ### Doubles -/

/-- Values of `roundDouble`: the doubles nearest to 0.1 and 0.8, the sum `0.1 + 0.2` that
is 0.30000000000000004, numbers that are doubles already, and the ties at half of the
smallest subnormal number and at one and a half times it, which go to the even
significand. -/
theorem roundDouble_values :
    roundDouble (1 / 10) = 3602879701896397 / 36028797018963968 ∧
    roundDouble (8 / 10) = 3602879701896397 / 4503599627370496 ∧
    roundDouble (roundDouble (1 / 10) + roundDouble (2 / 10)) =
      roundDouble (30000000000000004 / 100000000000000000) ∧
    roundDouble (roundDouble (1 / 10) + roundDouble (2 / 10)) ≠ roundDouble (3 / 10) ∧
    roundDouble 80 = 80 ∧ roundDouble (-20) = -20 ∧ roundDouble (15075 / 100) = 15075 / 100 ∧
    roundDouble (2 ^ 53 + 1) = 2 ^ 53 ∧ roundDouble (2 ^ 53 + 3) = 2 ^ 53 + 4 ∧
    roundDouble (1 / 2 ^ 1075) = 0 ∧ roundDouble (3 / 2 ^ 1075) = 2 / 2 ^ 1074 ∧
    roundDouble (roundDouble (1 / 3)) = roundDouble (1 / 3) := by
  refine ⟨by decide!, by decide!, by decide!, by decide!, by decide!, by decide!, by decide!,
    by decide!, by decide!, by decide!, by decide!, by decide!⟩


theorem periodKeep_iff (start stop : Option Int) (tx : Transaction) :
    periodKeep start stop tx = true ↔ WithinPeriod start stop tx := by
  unfold periodKeep WithinPeriod endDatePlusOne
  cases start <;> cases stop <;> simp

theorem periodKeepIn_iff (z : Zone) (start stop : Option Int) (tx : Transaction) :
    periodKeepIn z start stop tx = true ↔ WithinPeriodIn z start stop tx := by
  unfold periodKeepIn WithinPeriodIn
  cases start <;> cases stop <;> simp

theorem setDateNextDay_fixed (tz stop : Int) :
    setDateNextDay (fixedZone tz) stop = stop + msPerDay := by
  simp only [setDateNextDay, fixedZone]
  ring

theorem periodKeepIn_fixed (tz : Int) (start stop : Option Int) (tx : Transaction) :
    periodKeepIn (fixedZone tz) start stop tx = periodKeep start stop tx := by
  cases start <;> cases stop <;>
    simp [periodKeepIn, periodKeep, endDatePlusOne, setDateNextDay_fixed]

/-- C1: in every time zone the date-range filter returns, in ledger order, exactly the
records whose instant is `>= start` (when given) and `< end + 1 day` (when given), the day
being the calendar day that `setDate(getDate() + 1)` adds to `end`; with both bounds
omitted the ledger is returned unchanged; `loadAndRender` applies the same date test. In a
zone of fixed offset the day has 86400000 ms; across the change of 9 March 2025 in a zone
like America/New_York it has 23 hours, so with end 2025-03-09 the bound is 1741561200000
and a record of 23:30 UTC is outside, one of 22:30 UTC inside. -/
theorem C1_period_filter (z : Zone) (start stop : Option Int) (txs : List Transaction)
    (searchHit : String → Transaction → Bool) :
    (∃ p : Transaction → Bool, (∀ tx, p tx = true ↔ WithinPeriodIn z start stop tx) ∧
        periodTransactionsIn z start stop txs = txs.filter p) ∧
      (periodTransactionsIn z start stop txs).Sublist txs ∧
      (∀ tx, tx ∈ periodTransactionsIn z start stop txs ↔
        tx ∈ txs ∧ WithinPeriodIn z start stop tx) ∧
      periodTransactionsIn z none none txs = txs ∧
      loadAndRenderFilteredIn z searchHit start stop "all" "" txs =
        periodTransactionsIn z start stop txs ∧
      (∀ tz e : Int, setDateNextDay (fixedZone tz) e = e + 86400000) ∧
      (∀ tz : Int, periodTransactionsIn (fixedZone tz) start stop txs =
        periodTransactions start stop txs) ∧
      (setDateNextDay springForwardZone 1741478400000 = 1741561200000 ∧
        periodTransactionsIn springForwardZone none (some 1741478400000)
          [newTransaction (nowTimestamp (-14400000) 1741563000000) "tx_a" "outflow" 10 "tea"
            "a@b.c"] = [] ∧
        (periodTransactionsIn springForwardZone none (some 1741478400000)
          [newTransaction (nowTimestamp (-14400000) 1741559400000) "tx_b" "outflow" 10 "tea"
            "a@b.c"]).length = 1) := by
  refine ⟨⟨periodKeepIn z start stop, periodKeepIn_iff z start stop, rfl⟩,
    List.filter_sublist _, ?_, ?_, ?_, ?_, ?_, by decide, by decide, by decide⟩
  · intro tx
    simp [periodTransactionsIn, List.mem_filter, periodKeepIn_iff]
  · simp [periodTransactionsIn, periodKeepIn]
  · unfold loadAndRenderFilteredIn periodTransactionsIn
    congr 1
  · intro tz e
    exact setDateNextDay_fixed tz e
  · intro tz
    unfold periodTransactionsIn periodTransactions
    congr 1
    funext tx
    exact periodKeepIn_fixed tz start stop tx

/-! ### Single-day filter -/

/-- With both bounds set to the same date input `d`, the period filter keeps exactly the
records whose instant lies on `d` as a UTC day. -/
theorem periodKeep_single_day (d : DateInput) (tx : Transaction) :
    periodKeep (filterBound (some d)) (filterBound (some d)) tx = true ↔
      localDay 0 tx.createdAt.iso = makeDay d.year (d.month - 1) d.day := by
  rw [periodKeep_iff]
  simp only [WithinPeriod, filterBound, Option.map_some', Option.some.injEq, forall_eq',
    newDateFromInput, localDay, msPerDay]
  constructor
  · intro h
    omega
  · intro h
    omega

/-- When local time is UTC the single-day filter keeps exactly the records of local day
`d`, in ledger order. -/
theorem single_day_filter_utc (d : DateInput) (txs : List Transaction) :
    periodTransactions (filterBound (some d)) (filterBound (some d)) txs =
      txs.filter (fun tx =>
        decide (localDay 0 tx.createdAt.iso = makeDay d.year (d.month - 1) d.day)) := by
  unfold periodTransactions
  apply List.filter_congr
  intro tx _
  rw [Bool.eq_iff_iff, periodKeep_single_day]
  simp

/-- C2 (failing input): in a UTC+8 zone a record created on 1 January 2025 at 03:00 local
time carries the display date `01/01/25` and the local civil date 2025-01-01, yet the
filter with start = end = 2025-01-01 drops it; a record created on 2 January at 03:00
local time, displayed as `01/02/25`, is kept by that same filter. -/
theorem C2_single_day_drops_local_record :
    (newTransaction (nowTimestamp 28800000 1735671600000) "tx_1" "outflow" 10 "rice"
        "a@b.c").date = "01/01/25" ∧
      civilFromDays (localDay 28800000 1735671600000) = (2025, 1, 1) ∧
      periodTransactions (filterBound (some ⟨2025, 1, 1⟩)) (filterBound (some ⟨2025, 1, 1⟩))
        [newTransaction (nowTimestamp 28800000 1735671600000) "tx_1" "outflow" 10 "rice"
          "a@b.c"] = [] ∧
      (newTransaction (nowTimestamp 28800000 1735758000000) "tx_2" "outflow" 10 "rice"
        "a@b.c").date = "01/02/25" ∧
      (periodTransactions (filterBound (some ⟨2025, 1, 1⟩)) (filterBound (some ⟨2025, 1, 1⟩))
        [newTransaction (nowTimestamp 28800000 1735758000000) "tx_2" "outflow" 10 "rice"
          "a@b.c"]).length = 1 := by
  refine ⟨by decide, by decide, by decide, by decide, by decide⟩

/-! ### Totals -/

theorem foldl_statsStep (txs : List Transaction) (acc : Stats) :
    txs.foldl statsStep acc =
      { inflow := acc.inflow +
          ((txs.filter (fun tx => decide (tx.type = "inflow"))).map (·.amount)).sum,
        outflow := acc.outflow +
          ((txs.filter (fun tx => !decide (tx.type = "inflow"))).map (·.amount)).sum,
        count := acc.count + txs.length } := by
  induction txs generalizing acc with
  | nil => simp
  | cons tx rest ih =>
    rw [List.foldl_cons, ih]
    by_cases h : tx.type = "inflow"
    · simp [statsStep, h, add_assoc, Nat.add_comm, Nat.add_left_comm]
    · simp [statsStep, h, add_assoc, Nat.add_comm, Nat.add_left_comm]

/-- C3: when every record of the period is an inflow or an outflow, `updateStatistics`
shows inflow = sum of inflow amounts, outflow = sum of outflow amounts, savings =
inflow - outflow and count = number of records; an empty set gives four zeros. -/
theorem C3_totals (allTransactions : List Transaction) (start stop : Option Int)
    (arg : List Transaction)
    (htype : ∀ tx ∈ periodTransactions start stop allTransactions,
      tx.type = "inflow" ∨ tx.type = "outflow") :
    let period := periodTransactions start stop allTransactions
    let shown := updateStatistics allTransactions start stop arg
    shown.inflow = ((period.filter (fun tx => decide (tx.type = "inflow"))).map (·.amount)).sum ∧
    shown.outflow =
      ((period.filter (fun tx => decide (tx.type = "outflow"))).map (·.amount)).sum ∧
    shown.savings = shown.inflow - shown.outflow ∧
    shown.count = period.length ∧
    (period = [] → shown = { inflow := 0, outflow := 0, savings := 0, count := 0 }) := by
  intro period shown
  have hfilter : period.filter (fun tx => !decide (tx.type = "inflow")) =
      period.filter (fun tx => decide (tx.type = "outflow")) := by
    apply List.filter_congr
    intro tx htx
    rcases htype tx htx with h | h <;> simp [h]
  have hr := foldl_statsStep period ⟨0, 0, 0⟩
  rw [hfilter] at hr
  have hs : shown = ⟨(reduceStats period).inflow, (reduceStats period).outflow,
      (reduceStats period).inflow - (reduceStats period).outflow, (reduceStats period).count⟩ := rfl
  refine ⟨?_, ?_, ?_, ?_, ?_⟩
  · rw [hs]; simp only [reduceStats, hr]; simp
  · rw [hs]; simp only [reduceStats, hr]; simp
  · rw [hs]
  · rw [hs]; simp only [reduceStats, hr]; simp
  · intro hnil
    rw [hs, hnil]
    simp [reduceStats]

/-- C3 (witness): the scenario ledger of the specification with both bounds omitted gives
inflow 100, outflow 50, savings 50, count 3. -/
theorem C3_totals_witness :
    (∀ tx ∈ periodTransactions none none scenarioLedger,
        tx.type = "inflow" ∨ tx.type = "outflow") ∧
      updateStatistics scenarioLedger none none [] =
        { inflow := 100, outflow := 50, savings := 50, count := 3 } ∧
      (updateStatistics scenarioLedger none none []).savings =
        (updateStatistics scenarioLedger none none []).inflow -
          (updateStatistics scenarioLedger none none []).outflow :=
  ⟨by decide, by decide!, (C3_totals scenarioLedger none none [] (by decide)).2.2.1⟩

/-! ### Dictionaries -/

theorem Dict.get_set {α : Type} (d : Dict α) (k k2 : String) (v : α) :
    (d.set k v).get k2 = if k = k2 then some v else d.get k2 := by
  induction d with
  | nil => simp [Dict.set, Dict.get]
  | cons p rest ih =>
    obtain ⟨a, b⟩ := p
    by_cases hak : a = k
    · subst hak
      by_cases h2 : a = k2 <;> simp [Dict.set, Dict.get, h2]
    · by_cases h2 : a = k2
      · subst h2
        simp [Dict.set, Dict.get, hak, Ne.symm hak]
      · simp [Dict.set, Dict.get, hak, h2, ih]

theorem Dict.keys_set {α : Type} (d : Dict α) (k : String) (v : α) :
    (d.set k v).keys = if k ∈ d.keys then d.keys else d.keys ++ [k] := by
  induction d with
  | nil => simp [Dict.set, Dict.keys]
  | cons p rest ih =>
    obtain ⟨a, b⟩ := p
    by_cases hak : a = k
    · subst hak
      simp [Dict.set, Dict.keys]
    · have hka : ¬ k = a := fun h => hak h.symm
      simp only [Dict.keys] at ih
      by_cases hmem : k ∈ rest.map Prod.fst
      · simp [Dict.set, Dict.keys, hak, hka, ih, hmem]
      · simp [Dict.set, Dict.keys, hak, hka, ih, hmem]

theorem Dict.nodup_keys_set {α : Type} (d : Dict α) (k : String) (v : α)
    (h : d.keys.Nodup) : (d.set k v).keys.Nodup := by
  rw [Dict.keys_set]
  by_cases hmem : k ∈ d.keys
  · simpa [hmem] using h
  · simp only [hmem, if_false]
    exact List.Nodup.append h (List.nodup_singleton k) (by simpa using hmem)

theorem Dict.mem_keys_iff {α : Type} (d : Dict α) (k : String) :
    k ∈ d.keys ↔ (d.get k).isSome = true := by
  induction d with
  | nil => simp [Dict.keys, Dict.get]
  | cons p rest ih =>
    obtain ⟨a, b⟩ := p
    simp only [Dict.keys] at ih
    by_cases hak : a = k
    · simp [Dict.keys, Dict.get, hak]
    · have hka : ¬ k = a := fun h => hak h.symm
      simp [Dict.keys, Dict.get, hak, hka, ih]

/-! ### Category totals -/

theorem orZero_some (x : ℚ) : orZero (some x) = x := by
  by_cases h : x = 0 <;> simp [orZero, h]

theorem lookup_plain (d : Dict Cell) (c : String) (hc : c ∉ objectPrototypeKeys) :
    lookup d c = match d.get c with
      | some v => Lookup.own v
      | none => Lookup.undefined := by
  unfold lookup
  cases d.get c with
  | none => simp [hc]
  | some v => rfl

theorem categoryStep_get_other (s e : Int) (d : Dict Cell) (tx : Transaction) (c : String)
    (hc : categoryOf tx ≠ c) : (categoryStep s e d tx).get c = d.get c := by
  unfold categoryStep
  split
  · simp only
    split
    · simp [Dict.get_set, hc]
    · simp [Dict.get_set, hc]
    · simp [Dict.get_set, hc]
    · split
      · rfl
      · simp [Dict.get_set, hc]
  · rfl

theorem categoryStep_get_self (s e : Int) (d : Dict Cell) (tx : Transaction)
    (hw : inCategoryWindow s e tx = true) (hc : categoryOf tx ∉ objectPrototypeKeys)
    (hd : d.get (categoryOf tx) = none ∨ ∃ v, d.get (categoryOf tx) = some (Cell.number v)) :
    (categoryStep s e d tx).get (categoryOf tx) =
      some (Cell.number (numberOrZero (d.get (categoryOf tx)) + tx.amount)) := by
  unfold categoryStep
  rw [if_pos hw]
  simp only
  rw [lookup_plain d _ hc]
  rcases hd with h | ⟨v, h⟩
  · rw [h]
    simp [Dict.get_set, numberOrZero]
  · rw [h]
    by_cases hv : v = 0
    · simp [Dict.get_set, numberOrZero, hv]
    · simp [Dict.get_set, numberOrZero, hv]

theorem foldl_categoryStep (txs : List Transaction) (s e : Int) (d : Dict Cell) (c : String)
    (hc : c ∉ objectPrototypeKeys)
    (hd : d.get c = none ∨ ∃ v, d.get c = some (Cell.number v)) :
    (txs.foldl (categoryStep s e) d).get c =
      if categoryRecords txs s e c = [] then d.get c
      else some (Cell.number
        (numberOrZero (d.get c) + ((categoryRecords txs s e c).map (·.amount)).sum)) := by
  induction txs generalizing d with
  | nil => simp [categoryRecords]
  | cons tx rest ih =>
    rw [List.foldl_cons]
    by_cases hw : inCategoryWindow s e tx = true
    · have hw2 : s ≤ tx.createdAt.iso ∧ tx.createdAt.iso ≤ e ∧ tx.type = "outflow" := by
        simpa [inCategoryWindow, and_assoc] using hw
      by_cases hcat : categoryOf tx = c
      · have hhead : categoryRecords (tx :: rest) s e c = tx :: categoryRecords rest s e c := by
          simp [categoryRecords, List.filter_cons, hw2, hcat]
        have hstep : (categoryStep s e d tx).get c =
            some (Cell.number (numberOrZero (d.get c) + tx.amount)) := by
          have := categoryStep_get_self s e d tx hw (by rw [hcat]; exact hc)
            (by rw [hcat]; exact hd)
          rw [hcat] at this
          exact this
        rw [ih _ (Or.inr ⟨_, hstep⟩), hhead, hstep]
        by_cases hr : categoryRecords rest s e c = []
        · simp [hr, numberOrZero]
        · simp [hr, numberOrZero, add_assoc]
      · have hhead : categoryRecords (tx :: rest) s e c = categoryRecords rest s e c := by
          simp [categoryRecords, List.filter_cons, hcat]
        have hstep := categoryStep_get_other s e d tx c hcat
        rw [ih _ (by rw [hstep]; exact hd), hhead, hstep]
    · have hhead : categoryRecords (tx :: rest) s e c = categoryRecords rest s e c := by
        have : ¬ (s ≤ tx.createdAt.iso ∧ tx.createdAt.iso ≤ e ∧ tx.type = "outflow") := by
          simpa [inCategoryWindow, and_assoc] using hw
        simp only [categoryRecords, List.filter_cons]
        rw [if_neg]
        simp only [decide_eq_true_eq]
        tauto
      have hstep : categoryStep s e d tx = d := by
        simp [categoryStep, hw]
      rw [hstep, ih _ hd, hhead]

theorem foldl_categoryStep_nodup (txs : List Transaction) (s e : Int) (d : Dict Cell)
    (h : d.keys.Nodup) : (txs.foldl (categoryStep s e) d).keys.Nodup := by
  induction txs generalizing d with
  | nil => simpa using h
  | cons tx rest ih =>
    rw [List.foldl_cons]
    apply ih
    unfold categoryStep
    split
    · simp only
      split
      · exact Dict.nodup_keys_set _ _ _ h
      · exact Dict.nodup_keys_set _ _ _ h
      · exact Dict.nodup_keys_set _ _ _ h
      · split
        · exact h
        · exact Dict.nodup_keys_set _ _ _ h
    · exact h

/-- C4 (failing input): `getSpendingByCategory` reads `spendingByCategory[category]` on an
object literal, which inherits the members of `Object.prototype`. For one outflow of 50
with category `constructor` the value read is the inherited function, so the mapping
holds a string under `constructor` where the sum of the records is 50, and with category
`__proto__` the assignment is ignored and the outflow is lost. For every category that is
not the name of a member of `Object.prototype` the mapping has the key exactly when some
outflow record of the window has that category, with the sum of their amounts as value;
no key occurs twice, an empty record set gives the empty mapping, and outflows Food 40,
Food 10, Transport 5 give Food 50, Transport 5. -/
theorem C4_category_totals_prototype_members :
    (getSpendingByCategory
        [{ newTransaction (nowTimestamp 0 1735718400000) "tx_a" "outflow" 50 "fee" "a@b.c" with
            category := some "constructor" }] 1735689600000 1735862400000 =
        [("constructor", Cell.text "constructor" [50])] ∧
      ((categoryRecords
        [{ newTransaction (nowTimestamp 0 1735718400000) "tx_a" "outflow" 50 "fee" "a@b.c" with
            category := some "constructor" }] 1735689600000 1735862400000
        "constructor").map (·.amount)).sum = 50 ∧
      getSpendingByCategory
        [{ newTransaction (nowTimestamp 0 1735718400000) "tx_a" "outflow" 50 "fee" "a@b.c" with
            category := some "__proto__" }] 1735689600000 1735862400000 = []) ∧
    (∀ (txs : List Transaction) (startDate endDate : Int) (c : String),
      c ∉ objectPrototypeKeys →
      (getSpendingByCategory txs startDate endDate).get c =
        if (∃ tx ∈ txs, startDate ≤ tx.createdAt.iso ∧ tx.createdAt.iso ≤ endDate ∧
            tx.type = "outflow" ∧ categoryOf tx = c)
        then some (Cell.number (((categoryRecords txs startDate endDate c).map (·.amount)).sum))
        else none) ∧
    (∀ (txs : List Transaction) (startDate endDate : Int),
      (getSpendingByCategory txs startDate endDate).keys.Nodup) ∧
    (∀ startDate endDate : Int, getSpendingByCategory [] startDate endDate = []) ∧
    getSpendingByCategory scenarioCategories 1735689600000 1735862400000 =
      [("Food", Cell.number 50), ("Transport", Cell.number 5)] := by
  refine ⟨⟨by decide!, by decide!, by decide!⟩, ?_, ?_, fun _ _ => rfl, by decide!⟩
  · intro txs startDate endDate c hc
    unfold getSpendingByCategory
    rw [foldl_categoryStep txs startDate endDate [] c hc (Or.inl rfl)]
    by_cases hr : categoryRecords txs startDate endDate c = []
    · have hne : ¬ ∃ tx ∈ txs, startDate ≤ tx.createdAt.iso ∧ tx.createdAt.iso ≤ endDate ∧
          tx.type = "outflow" ∧ categoryOf tx = c := by
        rintro ⟨tx, hmem, hp⟩
        have : tx ∈ categoryRecords txs startDate endDate c := by
          simp only [categoryRecords, List.mem_filter, decide_eq_true_eq]
          exact ⟨hmem, hp⟩
        rw [hr] at this
        simp at this
      simp [hr, hne, Dict.get]
    · have hex : ∃ tx ∈ txs, startDate ≤ tx.createdAt.iso ∧ tx.createdAt.iso ≤ endDate ∧
          tx.type = "outflow" ∧ categoryOf tx = c := by
        obtain ⟨tx, htx⟩ := List.exists_mem_of_ne_nil _ hr
        simp only [categoryRecords, List.mem_filter, decide_eq_true_eq] at htx
        exact ⟨tx, htx.1, htx.2⟩
      rw [if_neg hr, if_pos hex]
      simp [Dict.get, numberOrZero]
  · intro txs startDate endDate
    unfold getSpendingByCategory
    exact foldl_categoryStep_nodup _ _ _ _ (by simp [Dict.keys])

theorem dayFromYear_succ (y : Int) :
    dayFromYear (y + 1) = dayFromYear y + 365 + (if inLeapYear y then 1 else 0) := by
  unfold dayFromYear inLeapYear
  by_cases h4 : y % 4 = 0 <;> by_cases h100 : y % 100 = 0 <;> by_cases h400 : y % 400 = 0 <;>
    simp [h4, h100, h400] <;> omega

theorem dayFromYear_mono (y z : Int) (h : y ≤ z) : dayFromYear y ≤ dayFromYear z := by
  unfold dayFromYear
  omega

theorem daysBeforeMonth_next (leap : Bool) (mm : Nat) (h1 : 1 ≤ mm) (h2 : mm ≤ 11) :
    daysBeforeMonth leap ((mm : Int) - 1) + daysInMonth leap mm =
      daysBeforeMonth leap (mm : Int) := by
  interval_cases mm <;> cases leap <;> decide

theorem daysBeforeMonth_mono (leap : Bool) (a b : Nat) (hab : a ≤ b) (hb : b ≤ 11) :
    daysBeforeMonth leap (a : Int) ≤ daysBeforeMonth leap (b : Int) := by
  interval_cases b <;> interval_cases a <;> cases leap <;> decide

theorem daysBeforeMonth_last (leap : Bool) (mm : Nat) (h1 : 1 ≤ mm) (h2 : mm ≤ 12) :
    0 ≤ daysBeforeMonth leap ((mm : Int) - 1) ∧
    daysBeforeMonth leap ((mm : Int) - 1) + daysInMonth leap mm ≤
      365 + (if leap then 1 else 0) := by
  interval_cases mm <;> cases leap <;> decide

theorem makeDay_eq (y : Int) (mm : Nat) (dd : Int) (h1 : 1 ≤ mm) (h2 : mm ≤ 12) :
    makeDay y ((mm : Int) - 1) dd =
      dayFromYear y + daysBeforeMonth (inLeapYear y) ((mm : Int) - 1) + dd - 1 := by
  have ha : ((mm : Int) - 1) / 12 = 0 := by omega
  have hb : ((mm : Int) - 1) % 12 = (mm : Int) - 1 := by omega
  simp only [makeDay, ha, hb, add_zero]

theorem fieldsDay_eq (f : Nat × Nat × Nat) (hf : ValidFields f) :
    fieldsDay f = dayFromYear (2000 + (f.1 : Int)) +
      daysBeforeMonth (inLeapYear (2000 + (f.1 : Int))) ((f.2.1 : Int) - 1) + (f.2.2 : Int) - 1 :=
  makeDay_eq _ _ _ hf.1 hf.2.1

theorem fieldsDay_lt (f g : Nat × Nat × Nat) (hf : ValidFields f) (hg : ValidFields g)
    (h : FieldsLT f g) : fieldsDay f < fieldsDay g := by
  rw [fieldsDay_eq f hf, fieldsDay_eq g hg]
  obtain ⟨y1, m1, d1⟩ := f
  obtain ⟨y2, m2, d2⟩ := g
  simp only [ValidFields, FieldsLT] at hf hg h ⊢
  obtain ⟨hf1, hf2, hf3, hf4⟩ := hf
  obtain ⟨hg1, hg2, hg3, hg4⟩ := hg
  have lf := daysBeforeMonth_last (inLeapYear (2000 + (y1 : Int))) m1 hf1 hf2
  have lg := daysBeforeMonth_last (inLeapYear (2000 + (y2 : Int))) m2 hg1 hg2
  have hf4' : (d1 : Int) ≤ (daysInMonth (inLeapYear (2000 + (y1 : Int))) m1 : Int) := by
    exact_mod_cast hf4
  rcases h with hy | ⟨hy, hm | ⟨hm, hd⟩⟩
  · have hs := dayFromYear_succ (2000 + (y1 : Int))
    have hmono := dayFromYear_mono (2000 + (y1 : Int) + 1) (2000 + (y2 : Int)) (by omega)
    have : (if inLeapYear (2000 + (y1 : Int)) = true then (1 : Int) else 0) =
        (if inLeapYear (2000 + (y1 : Int)) = true then 1 else 0) := rfl
    omega
  · subst hy
    have hn := daysBeforeMonth_next (inLeapYear (2000 + (y1 : Int))) m1 hf1 (by omega)
    have hmono := daysBeforeMonth_mono (inLeapYear (2000 + (y1 : Int))) m1 (m2 - 1)
      (by omega) (by omega)
    have hcast : ((m2 - 1 : Nat) : Int) = (m2 : Int) - 1 := by omega
    rw [hcast] at hmono
    omega
  · subst hy
    subst hm
    omega

theorem fieldsLT_trichotomy (f g : Nat × Nat × Nat) : FieldsLT f g ∨ f = g ∨ FieldsLT g f := by
  obtain ⟨y1, m1, d1⟩ := f
  obtain ⟨y2, m2, d2⟩ := g
  simp only [FieldsLT, Prod.mk.injEq]
  omega

theorem fieldsDay_inj (f g : Nat × Nat × Nat) (hf : ValidFields f) (hg : ValidFields g)
    (h : fieldsDay f = fieldsDay g) : f = g := by
  rcases fieldsLT_trichotomy f g with hlt | heq | hgt
  · have := fieldsDay_lt f g hf hg hlt
    omega
  · exact heq
  · have := fieldsDay_lt g f hg hf hgt
    omega

theorem fieldsDay_le_iff (f g : Nat × Nat × Nat) (hf : ValidFields f) (hg : ValidFields g) :
    fieldsDay f ≤ fieldsDay g ↔
      (f.1 < g.1 ∨ (f.1 = g.1 ∧ (f.2.1 < g.2.1 ∨ (f.2.1 = g.2.1 ∧ f.2.2 ≤ g.2.2)))) := by
  rcases fieldsLT_trichotomy f g with hlt | heq | hgt
  · have h1 := fieldsDay_lt f g hf hg hlt
    simp only [FieldsLT] at hlt
    constructor
    · intro _; omega
    · intro _; omega
  · subst heq
    simp
  · have h1 := fieldsDay_lt g f hg hf hgt
    simp only [FieldsLT] at hgt
    constructor
    · intro _; omega
    · intro _; omega

theorem fieldsDay_bounds (f : Nat × Nat × Nat) (hf : ValidFields f) (hy : f.1 < 100) :
    10957 ≤ fieldsDay f ∧ fieldsDay f ≤ 47846 + 366 := by
  rw [fieldsDay_eq f hf]
  obtain ⟨y1, m1, d1⟩ := f
  simp only [ValidFields] at hf hy ⊢
  obtain ⟨hf1, hf2, hf3, hf4⟩ := hf
  have lf := daysBeforeMonth_last (inLeapYear (2000 + (y1 : Int))) m1 hf1 hf2
  have hf4' : (d1 : Int) ≤ (daysInMonth (inLeapYear (2000 + (y1 : Int))) m1 : Int) := by
    exact_mod_cast hf4
  have h0 := dayFromYear_mono 2000 (2000 + (y1 : Int)) (by omega)
  have h1 := dayFromYear_mono (2000 + (y1 : Int)) 2099 (by omega)
  have e0 : dayFromYear 2000 = 10957 := by decide
  have e1 : dayFromYear 2099 = 47117 := by decide
  split at lf <;> omega

theorem digitVal_some (c : Char) (n : Nat) (h : digitVal c = some n) :
    n ≤ 9 ∧ c = Char.ofNat (n + 48) ∧ c ≠ '/' := by
  unfold digitVal at h
  split at h
  · rename_i hc
    obtain ⟨h0, h9⟩ := hc
    have h0' : 48 ≤ c.toNat := h0
    have h9' : c.toNat ≤ 57 := h9
    simp only [Option.some.injEq] at h
    refine ⟨by omega, ?_, ?_⟩
    · have : n + 48 = c.toNat := by omega
      rw [this]
      exact (Char.ofNat_toNat c).symm
    · intro hs
      rw [hs] at h0'
      exact absurd h0' (by decide)
  · simp at h

theorem calendarFields_some (s : String) (f : Nat × Nat × Nat) (h : calendarFields s = some f) :
    ∃ m1 m2 d1 d2 y1 y2 a b c d e g,
      s.data = [m1, m2, '/', d1, d2, '/', y1, y2] ∧
      digitVal m1 = some a ∧ digitVal m2 = some b ∧ digitVal d1 = some c ∧
      digitVal d2 = some d ∧ digitVal y1 = some e ∧ digitVal y2 = some g ∧
      f = (10 * e + g, 10 * a + b, 10 * c + d) := by
  unfold calendarFields at h
  split at h
  · rename_i m1 m2 s1 d1 d2 s2 y1 y2 hdata
    split at h
    · rename_i hsep
      obtain ⟨hs1, hs2⟩ := hsep
      subst hs1 hs2
      split at h
      · rename_i a b c d e g ha hb hc hd he hg
        simp only [Option.some.injEq] at h
        exact ⟨m1, m2, d1, d2, y1, y2, a, b, c, d, e, g, hdata, ha, hb, hc, hd, he, hg, h.symm⟩
      · simp at h
    · simp at h
  · simp at h

theorem calendarFields_year_lt (s : String) (f : Nat × Nat × Nat)
    (h : calendarFields s = some f) : f.1 < 100 := by
  obtain ⟨m1, m2, d1, d2, y1, y2, a, b, c, d, e, g, -, -, -, -, -, he, hg, rfl⟩ :=
    calendarFields_some s f h
  have := (digitVal_some _ _ he).1
  have := (digitVal_some _ _ hg).1
  simp only
  omega

theorem calendarFields_inj (s t : String) (f : Nat × Nat × Nat)
    (hs : calendarFields s = some f) (ht : calendarFields t = some f) : s = t := by
  obtain ⟨m1, m2, d1, d2, y1, y2, a, b, c, d, e, g, hsd, ha, hb, hc, hd, he, hg, hf⟩ :=
    calendarFields_some s f hs
  obtain ⟨m1', m2', d1', d2', y1', y2', a', b', c', d', e', g', htd, ha', hb', hc', hd', he',
    hg', hf'⟩ := calendarFields_some t f ht
  have A := digitVal_some _ _ ha
  have B := digitVal_some _ _ hb
  have C := digitVal_some _ _ hc
  have D := digitVal_some _ _ hd
  have E := digitVal_some _ _ he
  have G := digitVal_some _ _ hg
  have A' := digitVal_some _ _ ha'
  have B' := digitVal_some _ _ hb'
  have C' := digitVal_some _ _ hc'
  have D' := digitVal_some _ _ hd'
  have E' := digitVal_some _ _ he'
  have G' := digitVal_some _ _ hg'
  rw [hf] at hf'
  simp only [Prod.mk.injEq] at hf'
  obtain ⟨h1, h2, h3⟩ := hf'
  have ea : a = a' := by omega
  have eb : b = b' := by omega
  have ec : c = c' := by omega
  have ed : d = d' := by omega
  have ee : e = e' := by omega
  have eg : g = g' := by omega
  apply String.ext
  rw [hsd, htd, A.2.1, B.2.1, C.2.1, D.2.1, E.2.1, G.2.1, A'.2.1, B'.2.1, C'.2.1, D'.2.1,
    E'.2.1, G'.2.1, ea, eb, ec, ed, ee, eg]

theorem wellFormedDate_iff (s : String) :
    wellFormedDate s = true ↔ ∃ f, calendarFields s = some f ∧
      1 ≤ f.2.1 ∧ f.2.1 ≤ 12 ∧ 1 ≤ f.2.2 ∧
      f.2.2 ≤ daysInMonth (inLeapYear (2000 + (f.1 : Int))) f.2.1 := by
  unfold wellFormedDate
  cases hcf : calendarFields s with
  | none => simp
  | some f =>
    obtain ⟨yy, mm, dd⟩ := f
    simp

theorem parseDate_wellFormed (tz : Int) (htz : tz.natAbs ≤ 86400000) (s : String)
    (f : Nat × Nat × Nat) (hs : calendarFields s = some f)
    (hv : 1 ≤ f.2.1 ∧ f.2.1 ≤ 12 ∧ 1 ≤ f.2.2 ∧
      f.2.2 ≤ daysInMonth (inLeapYear (2000 + (f.1 : Int))) f.2.1) :
    parseDate tz s = JsDate.valid (fieldsDay f * msPerDay - tz) := by
  have hy := calendarFields_year_lt s f hs
  obtain ⟨m1, m2, d1, d2, y1, y2, a, b, c, d, e, g, hsd, ha, hb, hc, hd, he, hg, hf⟩ :=
    calendarFields_some s f hs
  have hne : s ≠ "" := by
    intro h0
    rw [h0] at hsd
    simp at hsd
  have A := (digitVal_some _ _ ha).2.2
  have B := (digitVal_some _ _ hb).2.2
  have C := (digitVal_some _ _ hc).2.2
  have D := (digitVal_some _ _ hd).2.2
  have E := (digitVal_some _ _ he).2.2
  have G := (digitVal_some _ _ hg).2.2
  have hsplit : splitOn '/' s.data = [[m1, m2], [d1, d2], [y1, y2]] := by
    rw [hsd]
    simp [splitOn, A, B, C, D, E, G]
  have hb1 := fieldsDay_bounds f hv hy
  have hclip : timeClip (fieldsDay f * msPerDay - tz) = some (fieldsDay f * msPerDay - tz) := by
    unfold timeClip
    rw [if_pos]
    simp only [msPerDay]
    omega
  unfold parseDate
  rw [if_neg hne, hsplit]
  simp only [List.map_cons, List.map_nil, jsNumber, List.foldl_cons, List.foldl_nil, ha, hb, hc,
    hd, he, hg, Nat.mul_zero, Nat.zero_add, newDateLocal]
  have hday : makeDay (2000 + ((10 * e + g : Nat) : Int)) (((10 * a + b : Nat) : Int) - 1)
      ((10 * c + d : Nat) : Int) = fieldsDay f := by
    rw [hf]
    rfl
  rw [hday, hclip]

theorem wellFormed_fields (s : String) (h : wellFormedDate s = true) :
    ∃ f, calendarFields s = some f ∧ ValidFields f ∧ dayKey s = fieldsDay f := by
  obtain ⟨f, hf, hv⟩ := (wellFormedDate_iff s).1 h
  exact ⟨f, hf, hv, by simp [dayKey, hf]⟩

theorem parseDate_of_wellFormed (tz : Int) (htz : tz.natAbs ≤ 86400000) (s : String)
    (h : wellFormedDate s = true) :
    parseDate tz s = JsDate.valid (dayKey s * msPerDay - tz) := by
  obtain ⟨f, hf, hv, hk⟩ := wellFormed_fields s h
  rw [hk]
  exact parseDate_wellFormed tz htz s f hf hv

theorem compareAsc_of_wellFormed (tz : Int) (htz : tz.natAbs ≤ 86400000) (a b : String)
    (ha : wellFormedDate a = true) (hb : wellFormedDate b = true) :
    compareAsc tz a b = some ((dayKey a - dayKey b) * msPerDay) := by
  simp only [compareAsc, parseDate_of_wellFormed tz htz a ha, parseDate_of_wellFormed tz htz b hb,
    JsDate.toNumber, Option.some.injEq]
  ring

theorem compareDesc_of_wellFormed (tz : Int) (htz : tz.natAbs ≤ 86400000) (a b : String)
    (ha : wellFormedDate a = true) (hb : wellFormedDate b = true) :
    compareDesc tz a b = some ((dayKey b - dayKey a) * msPerDay) := by
  simp only [compareDesc, parseDate_of_wellFormed tz htz a ha, parseDate_of_wellFormed tz htz b hb,
    JsDate.toNumber, Option.some.injEq]
  ring

theorem dayKey_inj (a b : String) (ha : wellFormedDate a = true) (hb : wellFormedDate b = true)
    (h : dayKey a = dayKey b) : a = b := by
  obtain ⟨f, hf, hfv, hfk⟩ := wellFormed_fields a ha
  obtain ⟨g, hg, hgv, hgk⟩ := wellFormed_fields b hb
  rw [hfk, hgk] at h
  have := fieldsDay_inj f g hfv hgv h
  subst this
  exact calendarFields_inj a b f hf hg

theorem calendarLE_iff (a b : String) (ha : wellFormedDate a = true)
    (hb : wellFormedDate b = true) : calendarLE a b = true ↔ dayKey a ≤ dayKey b := by
  obtain ⟨f, hf, hfv, hfk⟩ := wellFormed_fields a ha
  obtain ⟨g, hg, hgv, hgk⟩ := wellFormed_fields b hb
  rw [hfk, hgk, fieldsDay_le_iff f g hfv hgv]
  obtain ⟨y1, m1, d1⟩ := f
  obtain ⟨y2, m2, d2⟩ := g
  simp [calendarLE, hf, hg]

/-! ### Sorting -/

theorem orderedInsert_congr {α : Type} (r s : α → α → Prop) [DecidableRel r] [DecidableRel s]
    (a : α) (l : List α) (h : ∀ b ∈ l, (r a b ↔ s a b)) :
    l.orderedInsert r a = l.orderedInsert s a := by
  induction l with
  | nil => rfl
  | cons b rest ih =>
    have hb := h b (List.mem_cons_self _ _)
    have ih2 := ih (fun c hc => h c (List.mem_cons_of_mem _ hc))
    by_cases hr : r a b
    · simp [List.orderedInsert, hr, hb.1 hr]
    · have hs : ¬ s a b := fun hs => hr (hb.2 hs)
      simp [List.orderedInsert, hr, hs, ih2]

theorem insertionSort_congr {α : Type} (r s : α → α → Prop) [DecidableRel r] [DecidableRel s]
    (l : List α) (h : ∀ a ∈ l, ∀ b ∈ l, (r a b ↔ s a b)) :
    l.insertionSort r = l.insertionSort s := by
  induction l with
  | nil => rfl
  | cons a rest ih =>
    have ih2 := ih (fun x hx y hy => h x (List.mem_cons_of_mem _ hx) y (List.mem_cons_of_mem _ hy))
    simp only [List.insertionSort]
    rw [ih2]
    apply orderedInsert_congr
    intro b hb
    have hb2 : b ∈ rest := (List.mem_insertionSort s).1 hb
    exact h a (List.mem_cons_self _ _) b (List.mem_cons_of_mem _ hb2)

theorem jsSort_asc_eq (tz : Int) (htz : tz.natAbs ≤ 86400000) (l : List String)
    (hwf : ∀ s ∈ l, wellFormedDate s = true) :
    jsSort (compareAsc tz) l = l.insertionSort (fun a b => dayKey a ≤ dayKey b) := by
  unfold jsSort
  apply insertionSort_congr
  intro a ha b hb
  rw [compareAsc_of_wellFormed tz htz a b (hwf a ha) (hwf b hb)]
  simp only [Option.getD_some, msPerDay]
  constructor
  · intro h; omega
  · intro h; omega

theorem jsSort_desc_eq (tz : Int) (htz : tz.natAbs ≤ 86400000) (l : List String)
    (hwf : ∀ s ∈ l, wellFormedDate s = true) :
    jsSort (compareDesc tz) l = l.insertionSort (fun a b => dayKey b ≤ dayKey a) := by
  unfold jsSort
  apply insertionSort_congr
  intro a ha b hb
  rw [compareDesc_of_wellFormed tz htz a b (hwf a ha) (hwf b hb)]
  simp only [Option.getD_some, msPerDay]
  constructor
  · intro h; omega
  · intro h; omega

theorem map_injOn_eq {α β : Type} (f : α → β) :
    ∀ (l1 l2 : List α), (∀ x ∈ l1, ∀ y ∈ l2, f x = f y → x = y) → l1.map f = l2.map f → l1 = l2
  | [], [], _, _ => rfl
  | [], _ :: _, _, h => by simp at h
  | _ :: _, [], _, h => by simp at h
  | a :: l1, b :: l2, hinj, h => by
    simp only [List.map_cons, List.cons.injEq] at h
    have hab := hinj a (List.mem_cons_self _ _) b (List.mem_cons_self _ _) h.1
    have := map_injOn_eq f l1 l2
      (fun x hx y hy => hinj x (List.mem_cons_of_mem _ hx) y (List.mem_cons_of_mem _ hy)) h.2
    rw [hab, this]

theorem sort_asc_props (key : String → Int) (l : List String) :
    (l.insertionSort (fun a b => key a ≤ key b)).Perm l ∧
      (l.insertionSort (fun a b => key a ≤ key b)).Pairwise (fun a b => key a ≤ key b) := by
  haveI : IsTotal String (fun a b => key a ≤ key b) := ⟨fun a b => le_total (key a) (key b)⟩
  haveI : IsTrans String (fun a b => key a ≤ key b) := ⟨fun a b c h1 h2 => le_trans h1 h2⟩
  exact ⟨List.perm_insertionSort _ l, List.sorted_insertionSort _ l⟩

theorem sort_desc_props (key : String → Int) (l : List String) :
    (l.insertionSort (fun a b => key b ≤ key a)).Perm l ∧
      (l.insertionSort (fun a b => key b ≤ key a)).Pairwise (fun a b => key b ≤ key a) := by
  haveI : IsTotal String (fun a b => key b ≤ key a) := ⟨fun a b => le_total (key b) (key a)⟩
  haveI : IsTrans String (fun a b => key b ≤ key a) := ⟨fun a b c h1 h2 => le_trans h2 h1⟩
  exact ⟨List.perm_insertionSort _ l, List.sorted_insertionSort _ l⟩

theorem sort_desc_eq_reverse (key : String → Int) (l : List String)
    (hinj : ∀ a ∈ l, ∀ b ∈ l, key a = key b → a = b) :
    l.insertionSort (fun a b => key b ≤ key a) =
      (l.insertionSort (fun a b => key a ≤ key b)).reverse := by
  obtain ⟨pa, sa⟩ := sort_asc_props key l
  obtain ⟨pd, sd⟩ := sort_desc_props key l
  apply map_injOn_eq key
  · intro x hx y hy hxy
    exact hinj x (pd.mem_iff.1 hx) y (pa.mem_iff.1 (List.mem_reverse.1 hy)) hxy
  · have hperm : ((l.insertionSort (fun a b => key b ≤ key a)).map key).Perm
        ((l.insertionSort (fun a b => key a ≤ key b)).reverse.map key) :=
      (pd.trans (pa.symm.trans (List.reverse_perm _).symm)).map key
    have hs1 : List.Sorted (fun (x y : Int) => y ≤ x)
        ((l.insertionSort (fun a b => key b ≤ key a)).map key) :=
      (List.pairwise_map).2 sd
    have hs2 : List.Sorted (fun (x y : Int) => y ≤ x)
        ((l.insertionSort (fun a b => key a ≤ key b)).reverse.map key) := by
      unfold List.Sorted
      rw [List.pairwise_map, List.pairwise_reverse]
      exact sa
    exact List.eq_of_perm_of_sorted hperm hs1 hs2

theorem sorted_split (tz : Int) (htz : tz.natAbs ≤ 86400000) (ks : List String)
    (hnd : ks.Nodup) (hwf : ∀ s ∈ ks, wellFormedDate s = true) (d : String) (hd : d ∈ ks) :
    ∃ pre post, jsSort (compareAsc tz) ks = pre ++ d :: post ∧
      jsSort (compareDesc tz) ks = post.reverse ++ d :: pre.reverse ∧
      d ∉ pre ∧ d ∉ post ∧
      (∀ x ∈ pre, x ∈ ks ∧ dayKey x < dayKey d) ∧ (∀ y ∈ post, y ∈ ks ∧ dayKey d < dayKey y) := by
  have hinj : ∀ a ∈ ks, ∀ b ∈ ks, dayKey a = dayKey b → a = b :=
    fun a ha b hb h => dayKey_inj a b (hwf a ha) (hwf b hb) h
  obtain ⟨pa, sa⟩ := sort_asc_props dayKey ks
  have hmem : d ∈ ks.insertionSort (fun a b => dayKey a ≤ dayKey b) := pa.mem_iff.2 hd
  obtain ⟨pre, post, hsplit⟩ := List.append_of_mem hmem
  have hnd2 : (pre ++ d :: post).Nodup := by
    rw [← hsplit]
    exact pa.nodup_iff.2 hnd
  have hsub : ∀ x ∈ pre ++ d :: post, x ∈ ks := by
    intro x hx
    rw [← hsplit] at hx
    exact pa.mem_iff.1 hx
  rw [hsplit] at sa
  have hdpre : d ∉ pre := by
    intro h
    have := (List.nodup_append.1 hnd2).2.2
    exact this h (List.mem_cons_self _ _)
  have hdpost : d ∉ post := by
    have := (List.nodup_append.1 hnd2).2.1
    exact (List.nodup_cons.1 this).1
  refine ⟨pre, post, ?_, ?_, hdpre, hdpost, ?_, ?_⟩
  · rw [jsSort_asc_eq tz htz ks hwf, hsplit]
  · rw [jsSort_desc_eq tz htz ks hwf, sort_desc_eq_reverse dayKey ks hinj, hsplit]
    simp
  · intro x hx
    have hxk : x ∈ ks := hsub x (List.mem_append_left _ hx)
    refine ⟨hxk, ?_⟩
    have hle : dayKey x ≤ dayKey d :=
      (List.pairwise_append.1 sa).2.2 x hx d (List.mem_cons_self _ _)
    have hne : dayKey x ≠ dayKey d := by
      intro h
      have := hinj x hxk d hd h
      exact hdpre (this ▸ hx)
    omega
  · intro y hy
    have hyk : y ∈ ks := hsub y (List.mem_append_right _ (List.mem_cons_of_mem _ hy))
    refine ⟨hyk, ?_⟩
    have hle : dayKey d ≤ dayKey y :=
      (List.pairwise_cons.1 (List.pairwise_append.1 sa).2.1).1 y hy
    have hne : dayKey d ≠ dayKey y := by
      intro h
      have := hinj d hd y hyk h
      exact hdpost (this ▸ hy)
    omega

/-! ### Accumulation loops -/

theorem accumulate_get_not_mem (byDate : Dict DayTotals) (l : List String) (d : String)
    (r : ℚ) (S : Dict ℚ) (h : d ∉ l) : (accumulate byDate l (r, S)).2.get d = S.get d := by
  induction l generalizing r S with
  | nil => rfl
  | cons a rest ih =>
    simp only [accumulate]
    rw [ih _ _ (fun hm => h (List.mem_cons_of_mem _ hm)), Dict.get_set]
    have : a ≠ d := fun e => h (e ▸ List.mem_cons_self _ _)
    simp [this]

theorem accumulate_get (byDate : Dict DayTotals) (pre post : List String) (d : String)
    (r : ℚ) (S : Dict ℚ) (hpost : d ∉ post) :
    (accumulate byDate (pre ++ d :: post) (r, S)).2.get d =
      some (r + ((pre ++ [d]).map (dailySavings byDate)).sum) := by
  induction pre generalizing r S with
  | nil =>
    simp only [List.nil_append, accumulate]
    rw [accumulate_get_not_mem _ _ _ _ _ hpost, Dict.get_set]
    simp
  | cons a rest ih =>
    show (accumulate byDate (rest ++ d :: post)
      (r + dailySavings byDate a, S.set a (r + dailySavings byDate a))).2.get d = _
    rw [ih]
    simp [add_assoc]

theorem descendingLoop_get_not_mem (byDate : Dict DayTotals) (l : List String) (d : String)
    (r : ℚ) (S : Dict ℚ) (h : d ∉ l) : (descendingLoop byDate l (r, S)).2.get d = S.get d := by
  induction l generalizing r S with
  | nil => rfl
  | cons a rest ih =>
    simp only [descendingLoop]
    rw [ih _ _ (fun hm => h (List.mem_cons_of_mem _ hm)), Dict.get_set]
    have : a ≠ d := fun e => h (e ▸ List.mem_cons_self _ _)
    simp [this]

theorem descendingLoop_get (byDate : Dict DayTotals) (pre post : List String) (d : String)
    (r : ℚ) (S : Dict ℚ) (hpost : d ∉ post) :
    (descendingLoop byDate (pre ++ d :: post) (r, S)).2.get d =
      some (r - (pre.map (dailySavings byDate)).sum) := by
  induction pre generalizing r S with
  | nil =>
    simp only [List.nil_append, descendingLoop]
    rw [descendingLoop_get_not_mem _ _ _ _ _ hpost, Dict.get_set]
    simp
  | cons a rest ih =>
    show (descendingLoop byDate (rest ++ d :: post)
      (r - dailySavings byDate a, S.set a r)).2.get d = _
    rw [ih]
    simp [sub_sub]

/-! ### Grouping by display date -/

theorem sum_filter_cons (p : Transaction → Bool) (a : Transaction) (l : List Transaction) :
    (((a :: l).filter p).map (·.amount)).sum =
      (if p a = true then a.amount else 0) + ((l.filter p).map (·.amount)).sum := by
  by_cases h : p a = true
  · simp [List.filter_cons, h]
  · simp [List.filter_cons, h]

theorem byDateStep_eq (D : Dict DayTotals) (tx : Transaction) :
    byDateStep D tx = D.set tx.date
      (if tx.type = "inflow" then
        ⟨((D.get tx.date).getD ⟨0, 0⟩).inflow + tx.amount, ((D.get tx.date).getD ⟨0, 0⟩).outflow⟩
      else
        ⟨((D.get tx.date).getD ⟨0, 0⟩).inflow, ((D.get tx.date).getD ⟨0, 0⟩).outflow + tx.amount⟩) := by
  unfold byDateStep
  cases D.get tx.date <;> by_cases ht : tx.type = "inflow" <;> simp [ht]

theorem foldl_byDateStep_getD (txs : List Transaction) (D : Dict DayTotals) (d : String) :
    ((txs.foldl byDateStep D).get d).getD ⟨0, 0⟩ =
      ⟨((D.get d).getD ⟨0, 0⟩).inflow +
          ((txs.filter (fun tx => decide (tx.date = d ∧ tx.type = "inflow"))).map (·.amount)).sum,
        ((D.get d).getD ⟨0, 0⟩).outflow +
          ((txs.filter (fun tx => decide (tx.date = d ∧ ¬ tx.type = "inflow"))).map
            (·.amount)).sum⟩ := by
  induction txs generalizing D with
  | nil => simp
  | cons tx rest ih =>
    rw [List.foldl_cons, ih, sum_filter_cons, sum_filter_cons, byDateStep_eq, Dict.get_set]
    by_cases hd : tx.date = d
    · subst hd
      by_cases ht : tx.type = "inflow"
      · simp [ht, add_assoc]
      · simp [ht, add_assoc]
    · simp [hd]

theorem foldl_byDateStep_keys (txs : List Transaction) (D : Dict DayTotals) (d : String) :
    d ∈ (txs.foldl byDateStep D).keys ↔ d ∈ D.keys ∨ d ∈ txs.map (·.date) := by
  induction txs generalizing D with
  | nil => simp
  | cons tx rest ih =>
    rw [List.foldl_cons, ih, byDateStep_eq, Dict.keys_set]
    by_cases hm : tx.date ∈ D.keys
    · simp only [hm, if_true, List.map_cons, List.mem_cons]
      constructor
      · rintro (h | h)
        · exact Or.inl h
        · exact Or.inr (Or.inr h)
      · rintro (h | h | h)
        · exact Or.inl h
        · exact Or.inl (h ▸ hm)
        · exact Or.inr h
    · simp only [hm, if_false, List.mem_append, List.mem_singleton, List.map_cons, List.mem_cons]
      tauto

theorem foldl_byDateStep_nodup (txs : List Transaction) (D : Dict DayTotals)
    (h : D.keys.Nodup) : (txs.foldl byDateStep D).keys.Nodup := by
  induction txs generalizing D with
  | nil => simpa using h
  | cons tx rest ih =>
    rw [List.foldl_cons]
    apply ih
    rw [byDateStep_eq]
    exact Dict.nodup_keys_set _ _ _ h

theorem groupByDate_keys_nodup (txs : List Transaction) : (groupByDate txs).keys.Nodup :=
  foldl_byDateStep_nodup txs [] (by simp [Dict.keys])

theorem groupByDate_mem_keys (txs : List Transaction) (d : String) :
    d ∈ (groupByDate txs).keys ↔ d ∈ txs.map (·.date) := by
  unfold groupByDate
  rw [foldl_byDateStep_keys]
  simp [Dict.keys]

theorem dailySavings_eq_getD (byDate : Dict DayTotals) (d : String) :
    dailySavings byDate d =
      ((byDate.get d).getD ⟨0, 0⟩).inflow - ((byDate.get d).getD ⟨0, 0⟩).outflow := by
  unfold dailySavings
  cases byDate.get d <;> simp

theorem dailySavings_groupByDate (txs : List Transaction)
    (htype : ∀ tx ∈ txs, tx.type = "inflow" ∨ tx.type = "outflow") (d : String) :
    dailySavings (groupByDate txs) d = netOn txs d := by
  have hother : txs.filter (fun tx => decide (tx.date = d ∧ ¬ tx.type = "inflow")) =
      txs.filter (fun tx => decide (tx.date = d ∧ tx.type = "outflow")) := by
    apply List.filter_congr
    intro tx htx
    rcases htype tx htx with h | h <;> simp [h]
  rw [dailySavings_eq_getD]
  unfold groupByDate
  rw [foldl_byDateStep_getD, hother]
  simp [Dict.get, netOn, inflowOn, outflowOn]

theorem datesOf_perm_keys (txs : List Transaction) :
    (datesOf txs).Perm (groupByDate txs).keys := by
  unfold datesOf
  rw [List.perm_ext_iff_of_nodup (List.nodup_dedup _) (groupByDate_keys_nodup txs)]
  intro d
  rw [groupByDate_mem_keys, List.mem_dedup]

/-! ### Running balance -/

theorem jsSort_perm {α : Type} (cmp : α → α → Option Int) (l : List α) :
    (jsSort cmp l).Perm l := by
  unfold jsSort
  exact List.perm_insertionSort _ l

theorem savingsByDate_get_none (tz : Int) (byDate : Dict DayTotals) (d : String)
    (h : d ∉ byDate.keys) : (savingsByDate tz byDate).get d = none := by
  unfold savingsByDate datesAsc
  rw [accumulate_get_not_mem]
  · rfl
  · intro hm
    exact h ((jsSort_perm _ _).mem_iff.1 hm)

theorem savingsDirectDesc_get_none (tz : Int) (byDate : Dict DayTotals) (d : String)
    (h : d ∉ byDate.keys) : (savingsDirectDesc tz byDate).get d = none := by
  unfold savingsDirectDesc datesDesc
  rw [descendingLoop_get_not_mem]
  · rfl
  · intro hm
    exact h ((jsSort_perm _ _).mem_iff.1 hm)

/-- The shape of the two sorted date lists around a date `d` of a well-formed record set,
with the values that the two loops store for `d`. -/
theorem savings_core (tz : Int) (htz : tz.natAbs ≤ 86400000) (txs : List Transaction)
    (hwf : ∀ tx ∈ txs, wellFormedDate tx.date = true) (d : String)
    (hd : d ∈ txs.map (·.date)) :
    ∃ pre post, (groupByDate txs).keys.Perm (pre ++ d :: post) ∧
      (∀ x ∈ pre, calendarLE x d = true) ∧ calendarLE d d = true ∧
      (∀ y ∈ post, calendarLE y d = false) ∧
      (savingsByDate tz (groupByDate txs)).get d =
        some (((pre ++ [d]).map (dailySavings (groupByDate txs))).sum) ∧
      (savingsDirectDesc tz (groupByDate txs)).get d =
        some (((pre ++ [d]).map (dailySavings (groupByDate txs))).sum) := by
  have hnd := groupByDate_keys_nodup txs
  have hwfk : ∀ s ∈ (groupByDate txs).keys, wellFormedDate s = true := by
    intro s hs
    rw [groupByDate_mem_keys] at hs
    obtain ⟨tx, htx, rfl⟩ := List.mem_map.1 hs
    exact hwf tx htx
  have hdk : d ∈ (groupByDate txs).keys := (groupByDate_mem_keys txs d).2 hd
  have hwd := hwfk d hdk
  obtain ⟨pre, post, hasc, hdesc, hdpre, hdpost, hpre, hpost⟩ :=
    sorted_split tz htz _ hnd hwfk d hdk
  have hperm : (groupByDate txs).keys.Perm (pre ++ d :: post) := by
    rw [← hasc]
    exact (jsSort_perm _ _).symm
  refine ⟨pre, post, hperm, ?_, ?_, ?_, ?_, ?_⟩
  · intro x hx
    rw [calendarLE_iff x d (hwfk x (hpre x hx).1) hwd]
    exact le_of_lt (hpre x hx).2
  · rw [calendarLE_iff d d hwd hwd]
  · intro y hy
    have := (hpost y hy).2
    rw [Bool.eq_false_iff, Ne, calendarLE_iff y d (hwfk y (hpost y hy).1) hwd]
    omega
  · unfold savingsByDate datesAsc
    rw [hasc, accumulate_get _ _ _ _ _ _ hdpost]
    simp
  · unfold savingsDirectDesc datesDesc
    rw [hdesc, descendingLoop_get _ _ _ _ _ _ (by simpa using hdpre), hperm.map _ |>.sum_eq]
    simp only [List.map_append, List.map_cons, List.sum_append, List.sum_cons, List.map_reverse,
      List.sum_reverse, List.map_nil, List.sum_nil, add_zero]
    congr 1
    ring

theorem filter_split (p : String → Bool) (pre post : List String) (d : String)
    (hpre : ∀ x ∈ pre, p x = true) (hd : p d = true) (hpost : ∀ y ∈ post, p y = false) :
    (pre ++ d :: post).filter p = pre ++ [d] ∧
      (pre ++ d :: post).filter (fun x => !p x) = post := by
  have h1 : pre.filter p = pre := List.filter_eq_self.2 hpre
  have h2 : post.filter p = [] := List.filter_eq_nil_iff.2 (fun y hy => by simp [hpost y hy])
  have h3 : pre.filter (fun x => !p x) = [] :=
    List.filter_eq_nil_iff.2 (fun x hx => by simp [hpre x hx])
  have h4 : post.filter (fun x => !p x) = post :=
    List.filter_eq_self.2 (fun y hy => by simp [hpost y hy])
  constructor
  · rw [List.filter_append, List.filter_cons, h1, h2, if_pos hd]
  · rw [List.filter_append, List.filter_cons, h3, h4]
    simp [hd]

/-- The value stored for a date of a well-formed record set is the glossary's running
balance, by both computations, and is the total net minus the later daily nets. -/
theorem savings_spec (tz : Int) (htz : tz.natAbs ≤ 86400000) (txs : List Transaction)
    (hwf : ∀ tx ∈ txs, wellFormedDate tx.date = true)
    (htype : ∀ tx ∈ txs, tx.type = "inflow" ∨ tx.type = "outflow") (d : String)
    (hd : d ∈ txs.map (·.date)) :
    (savingsByDate tz (groupByDate txs)).get d = some (runningBalanceSpec txs d) ∧
      runningBalanceSpec txs d = totalNetSpec txs - laterNetSpec txs d := by
  obtain ⟨pre, post, hperm, hpre, hdd, hpost, hasc, -⟩ := savings_core tz htz txs hwf d hd
  have hfun : netOn txs = dailySavings (groupByDate txs) := by
    funext x
    exact (dailySavings_groupByDate txs htype x).symm
  have hp : (datesOf txs).Perm (pre ++ d :: post) := (datesOf_perm_keys txs).trans hperm
  obtain ⟨f1, f2⟩ := filter_split (fun x => calendarLE x d) pre post d hpre hdd hpost
  have hrun : runningBalanceSpec txs d =
      ((pre ++ [d]).map (dailySavings (groupByDate txs))).sum := by
    unfold runningBalanceSpec
    rw [((hp.filter _).map _).sum_eq, f1, hfun]
  have hlater : laterNetSpec txs d = (post.map (dailySavings (groupByDate txs))).sum := by
    unfold laterNetSpec
    rw [((hp.filter _).map _).sum_eq, f2, hfun]
  have htotal : totalNetSpec txs =
      ((pre ++ d :: post).map (dailySavings (groupByDate txs))).sum := by
    unfold totalNetSpec
    rw [(hp.map _).sum_eq, hfun]
  refine ⟨by rw [hasc, hrun], ?_⟩
  rw [hrun, hlater, htotal]
  simp only [List.map_append, List.map_cons, List.sum_append, List.sum_cons, List.map_nil,
    List.sum_nil]
  ring

theorem renderDailySummary_rows (tz : Int) (allTransactions : List Transaction)
    (start stop : Option Int) (arg : List Transaction)
    (hne : periodTransactions start stop allTransactions ≠ []) :
    ∃ rows, renderDailySummary tz allTransactions start stop arg = some rows ∧
      (rows.map (·.date)).Perm (datesOf (periodTransactions start stop allTransactions)) ∧
      ∀ row ∈ rows, row.date ∈ (periodTransactions start stop allTransactions).map (·.date) ∧
        row.savings = (savingsByDate tz
          (groupByDate (periodTransactions start stop allTransactions))).get row.date := by
  have hlen : ¬ (periodTransactions start stop allTransactions).length = 0 := by
    simpa [List.length_eq_zero] using hne
  have hdef : renderDailySummary tz allTransactions start stop arg =
      some ((datesDesc tz (groupByDate (periodTransactions start stop allTransactions))).map
        (summaryRow (groupByDate (periodTransactions start stop allTransactions))
          (savingsByDate tz (groupByDate (periodTransactions start stop allTransactions))))) := by
    simp only [renderDailySummary, hlen, if_false]
  refine ⟨_, hdef, ?_, ?_⟩
  · rw [List.map_map]
    have : ((fun r : SummaryRow => r.date) ∘
        summaryRow (groupByDate (periodTransactions start stop allTransactions))
          (savingsByDate tz (groupByDate (periodTransactions start stop allTransactions)))) =
        id := rfl
    rw [this, List.map_id]
    exact (jsSort_perm _ _).trans (datesOf_perm_keys _).symm
  · intro row hrow
    obtain ⟨date, hdate, rfl⟩ := List.mem_map.1 hrow
    refine ⟨?_, rfl⟩
    have : date ∈ (groupByDate (periodTransactions start stop allTransactions)).keys :=
      (jsSort_perm _ _).mem_iff.1 hdate
    exact (groupByDate_mem_keys _ _).1 this

/-- C5: for a non-empty period whose records carry well-formed display dates and the
types inflow / outflow, `renderDailySummary` writes one row per date of the period, and the
savings of the row of date `d` is the sum of the daily nets (inflow - outflow) of all
dates of the period on or before `d` in calendar order. -/
theorem C5_running_balance (tz : Int) (htz : tz.natAbs ≤ 86400000)
    (allTransactions : List Transaction) (start stop : Option Int) (arg : List Transaction)
    (hne : periodTransactions start stop allTransactions ≠ [])
    (hwf : ∀ tx ∈ periodTransactions start stop allTransactions, wellFormedDate tx.date = true)
    (htype : ∀ tx ∈ periodTransactions start stop allTransactions,
      tx.type = "inflow" ∨ tx.type = "outflow") :
    ∃ rows, renderDailySummary tz allTransactions start stop arg = some rows ∧
      (rows.map (·.date)).Perm (datesOf (periodTransactions start stop allTransactions)) ∧
      ∀ row ∈ rows, row.savings =
        some (runningBalanceSpec (periodTransactions start stop allTransactions) row.date) := by
  obtain ⟨rows, hrows, hperm, hall⟩ :=
    renderDailySummary_rows tz allTransactions start stop arg hne
  refine ⟨rows, hrows, hperm, ?_⟩
  intro row hrow
  obtain ⟨hmem, hsav⟩ := hall row hrow
  rw [hsav]
  exact (savings_spec tz htz _ hwf htype row.date hmem).1

/-- C5 (witness): the scenario ledger gives daily nets +70 and -20 and cumulative savings
70 and 50. -/
theorem C5_running_balance_witness :
    renderDailySummary 0 scenarioLedger none none [] =
        some [⟨"01/02/25", 0, 20, some 50⟩, ⟨"01/01/25", 100, 30, some 70⟩] ∧
      netOn scenarioLedger "01/01/25" = 70 ∧ netOn scenarioLedger "01/02/25" = -20 ∧
      runningBalanceSpec scenarioLedger "01/01/25" = 70 ∧
      runningBalanceSpec scenarioLedger "01/02/25" = 50 ∧
      ∃ rows, renderDailySummary 0 scenarioLedger none none [] = some rows ∧
        (rows.map (·.date)).Perm (datesOf (periodTransactions none none scenarioLedger)) ∧
        ∀ row ∈ rows, row.savings =
          some (runningBalanceSpec (periodTransactions none none scenarioLedger) row.date) :=
  ⟨by decide!, by decide!, by decide!, by decide!, by decide!,
    C5_running_balance 0 (by decide) scenarioLedger none none [] (by decide) (by decide)
      (by decide)⟩

theorem renderHistory_rows (tz : Int) (txs : List Transaction) (hne : txs ≠ []) :
    renderHistory tz txs = some ((datesDesc tz (groupByDate txs)).map
      (summaryRow (groupByDate txs) (savingsByDate tz (groupByDate txs)))) := by
  have hlen : ¬ txs.length = 0 := by simpa [List.length_eq_zero] using hne
  simp only [renderHistory, hlen, if_false]

/-- With exact sums, the value looked up from the ascending accumulation equals, for every
date, the value of the direct descending computation (a running value that starts at the
total net and loses each date's net after that date is read); with types inflow / outflow
it is the total net of all dates minus the daily nets of the dates strictly after `d`.
Both `renderDailySummary` (on the period) and `renderHistory` show these values. -/
theorem savings_order_independent (tz : Int) (htz : tz.natAbs ≤ 86400000)
    (txs : List Transaction) (hwf : ∀ tx ∈ txs, wellFormedDate tx.date = true) :
    (∀ d, (savingsByDate tz (groupByDate txs)).get d =
        (savingsDirectDesc tz (groupByDate txs)).get d) ∧
      ((∀ tx ∈ txs, tx.type = "inflow" ∨ tx.type = "outflow") →
        ∀ d ∈ txs.map (·.date), (savingsByDate tz (groupByDate txs)).get d =
          some (totalNetSpec txs - laterNetSpec txs d)) ∧
      (txs ≠ [] → ∃ rows, renderHistory tz txs = some rows ∧
        (rows.map (·.date)).Perm (datesOf txs) ∧
        ∀ row ∈ rows, row.savings = (savingsDirectDesc tz (groupByDate txs)).get row.date) ∧
      (∀ (allTransactions : List Transaction) (start stop : Option Int) (arg : List Transaction),
        periodTransactions start stop allTransactions = txs → txs ≠ [] →
        ∃ rows, renderDailySummary tz allTransactions start stop arg = some rows ∧
          ∀ row ∈ rows, row.savings = (savingsDirectDesc tz (groupByDate txs)).get row.date) := by
  have hall : ∀ d, (savingsByDate tz (groupByDate txs)).get d =
      (savingsDirectDesc tz (groupByDate txs)).get d := by
    intro d
    by_cases hd : d ∈ txs.map (·.date)
    · obtain ⟨pre, post, -, -, -, -, hasc, hdesc⟩ := savings_core tz htz txs hwf d hd
      rw [hasc, hdesc]
    · have hk : d ∉ (groupByDate txs).keys := fun h => hd ((groupByDate_mem_keys txs d).1 h)
      rw [savingsByDate_get_none tz _ d hk, savingsDirectDesc_get_none tz _ d hk]
  refine ⟨hall, ?_, ?_, ?_⟩
  · intro htype d hd
    obtain ⟨h1, h2⟩ := savings_spec tz htz txs hwf htype d hd
    rw [h1, h2]
  · intro hne
    refine ⟨_, renderHistory_rows tz txs hne, ?_, ?_⟩
    · rw [List.map_map]
      have : ((fun r : SummaryRow => r.date) ∘
          summaryRow (groupByDate txs) (savingsByDate tz (groupByDate txs))) = id := rfl
      rw [this, List.map_id]
      exact (jsSort_perm _ _).trans (datesOf_perm_keys _).symm
    · intro row hrow
      obtain ⟨date, -, rfl⟩ := List.mem_map.1 hrow
      exact hall date
  · intro allTransactions start stop arg hP hne
    subst hP
    obtain ⟨rows, hrows, -, hr⟩ := renderDailySummary_rows tz allTransactions start stop arg hne
    refine ⟨rows, hrows, ?_⟩
    intro row hrow
    rw [(hr row hrow).2]
    exact hall row.date

theorem accumulateWith_id (byDate : Dict DayTotals) (ds : List String) (st : ℚ × Dict ℚ) :
    accumulateWith id byDate ds st = accumulate byDate ds st := by
  induction ds generalizing st with
  | nil => rfl
  | cons d rest ih =>
    obtain ⟨rb, s⟩ := st
    simp only [accumulateWith, accumulate]
    rw [ih]
    rfl

theorem groupByDateWith_id (txs : List Transaction) :
    groupByDateWith id txs = groupByDate txs := rfl

theorem savingsByDateWith_id (tz : Int) (byDate : Dict DayTotals) :
    savingsByDateWith id tz byDate = savingsByDate tz byDate := by
  simp only [savingsByDateWith, savingsByDate, accumulateWith_id]

theorem renderHistoryWith_id (tz : Int) (txs : List Transaction) :
    renderHistoryWith id tz txs = renderHistory tz txs := by
  simp only [renderHistoryWith, renderHistory, groupByDateWith_id, savingsByDateWith_id]

theorem renderHistoryWith_rows (rnd : ℚ → ℚ) (tz : Int) (txs : List Transaction)
    (hne : txs ≠ []) :
    renderHistoryWith rnd tz txs = some ((datesDesc tz (groupByDateWith rnd txs)).map
      (summaryRow (groupByDateWith rnd txs)
        (savingsByDateWith rnd tz (groupByDateWith rnd txs)))) := by
  have hlen : ¬ txs.length = 0 := by simpa [List.length_eq_zero] using hne
  simp only [renderHistoryWith, hlen, if_false]

/-- C6 (counterexample): with inflows of 0.1, 0.2 and 0.3 on three consecutive days and the
sums computed in doubles, the values looked up from the ascending accumulation are 0.1,
0.30000000000000004 and 0.6000000000000001, and `renderHistory` shows them; the direct
descending computation gives 0.10000000000000009, 0.3000000000000001 and
0.6000000000000001 when the total is summed in ascending order, and
0.09999999999999998, 0.3 and 0.6 when it is summed in descending order, so in either
case a date carries another value than the one looked up. -/
theorem C6_doubles_depend_on_order :
    savingsByDateWith roundDouble 0 (groupByDateWith roundDouble scenarioTenths) =
      [("01/01/25", 3602879701896397 / 36028797018963968),
       ("01/02/25", 1351079888211149 / 4503599627370496),
       ("01/03/25", 1351079888211149 / 2251799813685248)] ∧
    (renderHistoryWith roundDouble 0 scenarioTenths).map (fun rows => rows.map (·.savings)) =
      some [some (1351079888211149 / 2251799813685248),
            some (1351079888211149 / 4503599627370496),
            some (3602879701896397 / 36028797018963968)] ∧
    savingsDirectDescWith roundDouble 0 (groupByDateWith roundDouble scenarioTenths)
        (datesAsc 0 (groupByDateWith roundDouble scenarioTenths)) =
      [("01/03/25", 1351079888211149 / 2251799813685248),
       ("01/02/25", 5404319552844597 / 18014398509481984),
       ("01/01/25", 225179981368525 / 2251799813685248)] ∧
    savingsDirectDescWith roundDouble 0 (groupByDateWith roundDouble scenarioTenths)
        (datesDesc 0 (groupByDateWith roundDouble scenarioTenths)) =
      [("01/03/25", 5404319552844595 / 9007199254740992),
       ("01/02/25", 5404319552844595 / 18014398509481984),
       ("01/01/25", 900719925474099 / 9007199254740992)] ∧
    (savingsByDateWith roundDouble 0 (groupByDateWith roundDouble scenarioTenths)).get
        "01/02/25" ≠
      (savingsDirectDescWith roundDouble 0 (groupByDateWith roundDouble scenarioTenths)
        (datesAsc 0 (groupByDateWith roundDouble scenarioTenths))).get "01/02/25" ∧
    (savingsByDateWith roundDouble 0 (groupByDateWith roundDouble scenarioTenths)).get
        "01/03/25" ≠
      (savingsDirectDescWith roundDouble 0 (groupByDateWith roundDouble scenarioTenths)
        (datesDesc 0 (groupByDateWith roundDouble scenarioTenths))).get "01/03/25" := by
  refine ⟨by decide!, by decide!, by decide!, by decide!, by decide!, by decide!⟩

/-- C6 (amended): each row that `renderHistory` displays carries the value looked up under
its date from the ascending accumulation, whatever rounding the sums have; for a record
set with well-formed display dates whose sums are exact, that value equals, for every
date, the value of the direct descending computation, which with types inflow / outflow
is the total net of all dates minus the daily nets of the dates strictly after `d`, in
`renderHistory` and in `renderDailySummary` (on the period) alike. -/
theorem C6_order_independent_when_exact (tz : Int) (htz : tz.natAbs ≤ 86400000)
    (txs : List Transaction) (hwf : ∀ tx ∈ txs, wellFormedDate tx.date = true) :
    (∀ rnd : ℚ → ℚ, txs ≠ [] → ∃ rows, renderHistoryWith rnd tz txs = some rows ∧
      rows.map (·.date) = datesDesc tz (groupByDateWith rnd txs) ∧
      ∀ row ∈ rows, row.savings =
        (savingsByDateWith rnd tz (groupByDateWith rnd txs)).get row.date) ∧
    (savingsByDateWith id tz (groupByDateWith id txs) = savingsByDate tz (groupByDate txs) ∧
      renderHistoryWith id tz txs = renderHistory tz txs) ∧
    (∀ d, (savingsByDateWith id tz (groupByDateWith id txs)).get d =
      (savingsDirectDesc tz (groupByDate txs)).get d) ∧
    ((∀ tx ∈ txs, tx.type = "inflow" ∨ tx.type = "outflow") →
      ∀ d ∈ txs.map (·.date), (savingsByDateWith id tz (groupByDateWith id txs)).get d =
        some (totalNetSpec txs - laterNetSpec txs d)) ∧
    (txs ≠ [] → ∃ rows, renderHistoryWith id tz txs = some rows ∧
      (rows.map (·.date)).Perm (datesOf txs) ∧
      ∀ row ∈ rows, row.savings = (savingsDirectDesc tz (groupByDate txs)).get row.date) ∧
    (∀ (allTransactions : List Transaction) (start stop : Option Int) (arg : List Transaction),
      periodTransactions start stop allTransactions = txs → txs ≠ [] →
      ∃ rows, renderDailySummary tz allTransactions start stop arg = some rows ∧
        ∀ row ∈ rows, row.savings = (savingsDirectDesc tz (groupByDate txs)).get row.date) := by
  obtain ⟨h1, h2, h3, h4⟩ := savings_order_independent tz htz txs hwf
  refine ⟨?_, ⟨?_, renderHistoryWith_id tz txs⟩, ?_, ?_, ?_, h4⟩
  · intro rnd hne
    refine ⟨_, renderHistoryWith_rows rnd tz txs hne, ?_, ?_⟩
    · rw [List.map_map]
      have : ((fun r : SummaryRow => r.date) ∘
          summaryRow (groupByDateWith rnd txs)
            (savingsByDateWith rnd tz (groupByDateWith rnd txs))) = id := rfl
      rw [this, List.map_id]
    · intro row hrow
      obtain ⟨date, -, rfl⟩ := List.mem_map.1 hrow
      rfl
  · rw [groupByDateWith_id, savingsByDateWith_id]
  · intro d
    rw [groupByDateWith_id, savingsByDateWith_id]
    exact h1 d
  · intro htype d hd
    rw [groupByDateWith_id, savingsByDateWith_id]
    exact h2 htype d hd
  · intro hne
    rw [renderHistoryWith_id]
    exact h3 hne

/-- C6 (witness): on the scenario ledger the descending computation gives 50 for day 2 and
70 for day 1, the values of the ascending accumulation. -/
theorem C6_order_independent_when_exact_witness :
    savingsDirectDesc 0 (groupByDate scenarioLedger) = [("01/02/25", 50), ("01/01/25", 70)] ∧
      savingsByDateWith id 0 (groupByDateWith id scenarioLedger) =
        [("01/01/25", 70), ("01/02/25", 50)] ∧
      (∀ d, (savingsByDateWith id 0 (groupByDateWith id scenarioLedger)).get d =
        (savingsDirectDesc 0 (groupByDate scenarioLedger)).get d) :=
  ⟨by decide!, by decide!,
    (C6_order_independent_when_exact 0 (by decide) scenarioLedger (by decide)).2.2.1⟩

/-- C7: the comparator built on `parseDate` puts the calendar-earlier of two distinct
well-formed dates first (its result is negative and a two-element list is sorted with the
earlier date in front, whatever the input order), `datesAsc` is a permutation of the keys
sorted by (year, month, day), and `12/31/24` is placed before `01/01/25` although it is the
greater string. -/
theorem C7_calendar_order (tz : Int) (htz : tz.natAbs ≤ 86400000) :
    (∀ a b, wellFormedDate a = true → wellFormedDate b = true → a ≠ b →
        calendarLE a b = true →
        (∃ v, compareAsc tz a b = some v ∧ v < 0) ∧
          jsSort (compareAsc tz) [b, a] = [a, b] ∧ jsSort (compareAsc tz) [a, b] = [a, b]) ∧
      (∀ byDate : Dict DayTotals, (∀ s ∈ byDate.keys, wellFormedDate s = true) →
        (datesAsc tz byDate).Perm byDate.keys ∧
          (datesAsc tz byDate).Pairwise (fun a b => calendarLE a b = true)) ∧
      ("01/01/25" < "12/31/24" ∧ calendarLE "12/31/24" "01/01/25" = true ∧
        jsSort (compareAsc tz) ["01/01/25", "12/31/24"] = ["12/31/24", "01/01/25"]) := by
  have hpair : ∀ a b, wellFormedDate a = true → wellFormedDate b = true → a ≠ b →
      calendarLE a b = true →
      (∃ v, compareAsc tz a b = some v ∧ v < 0) ∧
        jsSort (compareAsc tz) [b, a] = [a, b] ∧ jsSort (compareAsc tz) [a, b] = [a, b] := by
    intro a b ha hb hab hle
    have hle2 : dayKey a ≤ dayKey b := (calendarLE_iff a b ha hb).1 hle
    have hne : dayKey a ≠ dayKey b := fun h => hab (dayKey_inj a b ha hb h)
    have hlt : dayKey a < dayKey b := lt_of_le_of_ne hle2 hne
    refine ⟨⟨_, compareAsc_of_wellFormed tz htz a b ha hb, ?_⟩, ?_, ?_⟩
    · simp only [msPerDay]
      omega
    · rw [jsSort_asc_eq tz htz [b, a] (by
        intro s hs
        simp only [List.mem_cons, List.mem_singleton, List.not_mem_nil, or_false] at hs
        rcases hs with rfl | rfl
        · exact hb
        · exact ha)]
      have : ¬ dayKey b ≤ dayKey a := by omega
      simp [List.insertionSort, List.orderedInsert, this]
    · rw [jsSort_asc_eq tz htz [a, b] (by
        intro s hs
        simp only [List.mem_cons, List.mem_singleton, List.not_mem_nil, or_false] at hs
        rcases hs with rfl | rfl
        · exact ha
        · exact hb)]
      simp [List.insertionSort, List.orderedInsert, hle2]
  refine ⟨hpair, ?_, ?_⟩
  · intro byDate hwf
    refine ⟨jsSort_perm _ _, ?_⟩
    unfold datesAsc
    rw [jsSort_asc_eq tz htz _ hwf]
    obtain ⟨pa, sa⟩ := sort_asc_props dayKey byDate.keys
    refine (List.Pairwise.and_mem.1 sa).imp ?_ |>.imp (fun h => h)
    intro a b h
    exact (calendarLE_iff a b (hwf a (pa.mem_iff.1 h.1)) (hwf b (pa.mem_iff.1 h.2.1))).2 h.2.2
  · refine ⟨by decide!, by decide, ?_⟩
    exact (hpair "12/31/24" "01/01/25" (by decide) (by decide) (by decide) (by decide)).2.1

/-- C7 (witness): in a UTC zone three dates of two years are put in calendar order. -/
theorem C7_calendar_order_witness :
    jsSort (compareAsc 0) ["01/01/25", "12/31/24", "02/01/24"] =
        ["02/01/24", "12/31/24", "01/01/25"] ∧
      compareAsc 0 "12/31/24" "01/01/25" = some (-86400000) ∧
      (∃ v, compareAsc 0 "12/31/24" "01/01/25" = some v ∧ v < 0) :=
  ⟨by decide, by decide,
    ((C7_calendar_order 0 (by decide)).1 "12/31/24" "01/01/25" (by decide) (by decide)
      (by decide) (by decide)).1⟩

/-! ### The transaction list -/

theorem periodTransactions_none (txs : List Transaction) :
    periodTransactions none none txs = txs := by
  simp [periodTransactions, periodKeep]

theorem groupForDisplay_keys (txs : List Transaction) (D : Dict (List Transaction))
    (d : String) :
    d ∈ (txs.foldl (fun byDate tx =>
      byDate.set tx.date (((byDate.get tx.date).getD []) ++ [tx])) D).keys →
      d ∈ D.keys ∨ d ∈ txs.map (·.date) := by
  induction txs generalizing D with
  | nil => intro h; exact Or.inl h
  | cons tx rest ih =>
    intro h
    rw [List.foldl_cons] at h
    rcases ih _ h with h1 | h1
    · rw [Dict.keys_set] at h1
      by_cases hm : tx.date ∈ D.keys
      · rw [if_pos hm] at h1
        exact Or.inl h1
      · rw [if_neg hm] at h1
        rcases List.mem_append.1 h1 with h2 | h2
        · exact Or.inl h2
        · right
          rw [List.mem_singleton.1 h2]
          simp
    · right
      simp only [List.map_cons, List.mem_cons]
      exact Or.inr h1

theorem renderTransactions_headers (tz : Int) (allTransactions transactions : List Transaction)
    (hne : transactions ≠ []) :
    ∃ headers, renderTransactions tz allTransactions transactions = some headers ∧
      ∀ h ∈ headers, h.date ∈ transactions.map (·.date) ∧
        h.savings = orZero ((savingsByDate tz (groupByDate allTransactions)).get h.date) := by
  have hlen : ¬ transactions.length = 0 := by simpa [List.length_eq_zero] using hne
  have hdef : renderTransactions tz allTransactions transactions =
      some ((jsSort (compareDesc tz) (groupForDisplay transactions).keys).map
        (dateHeader allTransactions (savingsByDate tz (groupByDate allTransactions)))) := by
    simp only [renderTransactions, hlen, if_false]
  refine ⟨_, hdef, ?_⟩
  intro h hh
  obtain ⟨date, hdate, rfl⟩ := List.mem_map.1 hh
  refine ⟨?_, rfl⟩
  have hk : date ∈ (groupForDisplay transactions).keys := (jsSort_perm _ _).mem_iff.1 hdate
  rcases groupForDisplay_keys transactions [] date hk with h1 | h1
  · simp [Dict.keys] at h1
  · exact h1

/-- C8 (counterexample): with the period set to 2 January 2025 alone, the transaction list
shows savings 50 for `01/02/25` (accumulated over the whole ledger, 1 January included)
while the daily summary shows -20 for the same date. -/
theorem C8_period_not_respected :
    renderTransactions 0 scenarioLedger
        (loadAndRenderFiltered (fun _ _ => false) (filterBound (some ⟨2025, 1, 2⟩))
          (filterBound (some ⟨2025, 1, 2⟩)) "all" "" scenarioLedger) =
        some [⟨"01/02/25", 0, 20, 50⟩] ∧
      renderDailySummary 0 scenarioLedger (filterBound (some ⟨2025, 1, 2⟩))
        (filterBound (some ⟨2025, 1, 2⟩)) [] = some [⟨"01/02/25", 0, 20, some (-20)⟩] ∧
      (some (-20 : ℚ) ≠ some 50) := by
  refine ⟨by decide!, by decide!, by decide!⟩

/-- C8 (amended): the savings that `renderTransactions` shows for a date is accumulated
over the whole stored ledger, whatever list of records is displayed: it is the running
balance of that date over all records; it equals the value `renderDailySummary` shows for
the same date when no period bound is set. -/
theorem C8_running_balance_whole_ledger (tz : Int) (htz : tz.natAbs ≤ 86400000)
    (allTransactions transactions : List Transaction)
    (hwf : ∀ tx ∈ allTransactions, wellFormedDate tx.date = true)
    (htype : ∀ tx ∈ allTransactions, tx.type = "inflow" ∨ tx.type = "outflow")
    (hsub : ∀ tx ∈ transactions, tx ∈ allTransactions) (hne : transactions ≠ []) :
    ∃ headers, renderTransactions tz allTransactions transactions = some headers ∧
      (∀ h ∈ headers, h.date ∈ transactions.map (·.date) ∧
        h.savings = runningBalanceSpec allTransactions h.date) ∧
      ∃ rows, renderDailySummary tz allTransactions none none transactions = some rows ∧
        ∀ h ∈ headers, ∀ row ∈ rows, row.date = h.date → row.savings = some h.savings := by
  obtain ⟨headers, hh, hall⟩ := renderTransactions_headers tz allTransactions transactions hne
  have hval : ∀ h ∈ headers, h.date ∈ transactions.map (·.date) ∧
      h.savings = runningBalanceSpec allTransactions h.date := by
    intro h hmem
    obtain ⟨hd, hs⟩ := hall h hmem
    refine ⟨hd, ?_⟩
    obtain ⟨tx, htx, hdate⟩ := List.mem_map.1 hd
    have hd2 : h.date ∈ allTransactions.map (·.date) :=
      List.mem_map.2 ⟨tx, hsub tx htx, hdate⟩
    rw [hs, (savings_spec tz htz allTransactions hwf htype h.date hd2).1, orZero_some]
  have hall_ne : periodTransactions none none allTransactions ≠ [] := by
    rw [periodTransactions_none]
    obtain ⟨tx, htx⟩ := List.exists_mem_of_ne_nil _ hne
    exact List.ne_nil_of_mem (hsub tx htx)
  obtain ⟨rows, hrows, -, hr⟩ :=
    renderDailySummary_rows tz allTransactions none none transactions hall_ne
  refine ⟨headers, hh, hval, rows, hrows, ?_⟩
  intro h hmem row hrow hdate
  obtain ⟨hrd, hrs⟩ := hr row hrow
  rw [periodTransactions_none] at hrd hrs
  rw [hrs, (savings_spec tz htz allTransactions hwf htype row.date hrd).1, (hval h hmem).2, hdate]

/-- C8 (witness): the scenario ledger with the period set to 2 January 2025. -/
theorem C8_running_balance_whole_ledger_witness :
    runningBalanceSpec scenarioLedger "01/02/25" = 50 ∧
      ∃ headers, renderTransactions 0 scenarioLedger
          (loadAndRenderFiltered (fun _ _ => false) (filterBound (some ⟨2025, 1, 2⟩))
            (filterBound (some ⟨2025, 1, 2⟩)) "all" "" scenarioLedger) = some headers ∧
        (∀ h ∈ headers, h.date ∈ (loadAndRenderFiltered (fun _ _ => false)
            (filterBound (some ⟨2025, 1, 2⟩)) (filterBound (some ⟨2025, 1, 2⟩)) "all" ""
            scenarioLedger).map (·.date) ∧
          h.savings = runningBalanceSpec scenarioLedger h.date) ∧
        ∃ rows, renderDailySummary 0 scenarioLedger none none
            (loadAndRenderFiltered (fun _ _ => false) (filterBound (some ⟨2025, 1, 2⟩))
              (filterBound (some ⟨2025, 1, 2⟩)) "all" "" scenarioLedger) = some rows ∧
          ∀ h ∈ headers, ∀ row ∈ rows, row.date = h.date → row.savings = some h.savings :=
  ⟨by decide!,
    C8_running_balance_whole_ledger 0 (by decide) scenarioLedger _ (by decide) (by decide)
      (by decide!) (by decide!)⟩

/-! ### Threshold evaluator -/

theorem isPositive_iff (limit : Option ℚ) :
    isPositive limit = true ↔ ∃ l, limit = some l ∧ 0 < l := by
  cases limit <;> simp [isPositive]

theorem isPositive_of_disabled (limit : Option ℚ) (h : Disabled limit) :
    isPositive limit = false := by
  rcases h with h | ⟨l, h, hl⟩
  · simp [h, isPositive]
  · simp [h, isPositive, hl]

theorem limitBlock_out (heading what : String) (limit : Option ℚ) (spent : ℚ)
    (t : Trace LimitWarning) :
    (limitBlock heading what limit spent t).out = t.out ++
      (if isPositive limit = true ∧
          roundDouble (roundDouble (spent / limit.getD 0) * 100) ≥ 80 then
        [⟨heading, spent, roundDouble (roundDouble (spent / limit.getD 0) * 100),
          limit.getD 0⟩] else []) := by
  unfold limitBlock
  by_cases hp : isPositive limit = true
  · by_cases hq : roundDouble (roundDouble (spent / limit.getD 0) * 100) ≥ 80
    · simp [hp, hq, Trace.emit, Trace.divide]
    · simp [hp, hq, Trace.emit, Trace.divide]
  · simp [hp]

theorem limitBlock_divisions (heading what : String) (limit : Option ℚ) (spent : ℚ)
    (t : Trace LimitWarning) :
    (limitBlock heading what limit spent t).divisions = t.divisions ++
      (if isPositive limit = true then [(what, spent, limit.getD 0)] else []) := by
  unfold limitBlock
  by_cases hp : isPositive limit = true
  · by_cases hq : roundDouble (roundDouble (spent / limit.getD 0) * 100) ≥ 80
    · simp [hp, hq, Trace.emit, Trace.divide]
    · simp [hp, hq, Trace.emit, Trace.divide]
  · simp [hp]

theorem percentage_iff (limit : Option ℚ) (spent : ℚ) :
    (isPositive limit = true ∧
        roundDouble (roundDouble (spent / limit.getD 0) * 100) ≥ 80) ↔
      ∃ l, limit = some l ∧ 0 < l ∧ roundDouble (roundDouble (spent / l) * 100) ≥ 80 := by
  rw [isPositive_iff]
  constructor
  · rintro ⟨⟨l, rfl, hl⟩, h⟩
    exact ⟨l, rfl, hl, h⟩
  · rintro ⟨l, rfl, hl, h⟩
    exact ⟨⟨l, rfl, hl⟩, h⟩

/-- C9 (counterexample): with a weekly limit of 150.75 and a weekly spend of 120.60 (the
double that `parseFloat` gives) `checkSpendingLimits` appends the weekly warning, showing
80 percent, although the spend divided by the limit is below 0.8, as an exact quotient and
as the double `spent / limit` against the double 0.8: the quotient 0.7999999999999999
times 100 rounds to 80. -/
theorem C9_warning_below_the_ratio :
    roundDouble (15075 / 100) = 15075 / 100 ∧
    (limitWarnings { weeklySpendingLimit := some (15075 / 100) } 0
        (roundDouble (1206 / 10))).out =
      [⟨"Weekly Spending Limit Warning", roundDouble (1206 / 10), 80, 15075 / 100⟩] ∧
    roundDouble (1206 / 10) / (15075 / 100) < 8 / 10 ∧
    roundDouble (roundDouble (1206 / 10) / (15075 / 100)) < roundDouble (8 / 10) ∧
    ¬ ∃ l, ({ weeklySpendingLimit := some (15075 / 100) } : Settings).weeklySpendingLimit =
        some l ∧ 0 < l ∧ roundDouble (1206 / 10) / l ≥ 8 / 10 := by
  refine ⟨by decide!, by decide!, by decide!, by decide!, ?_⟩
  rintro ⟨l, hl, -, h⟩
  have hl2 : l = 15075 / 100 := (Option.some.inj hl).symm
  subst hl2
  have hlt : roundDouble (1206 / 10) / (15075 / 100) < 8 / 10 := by decide!
  exact absurd h (not_le.2 hlt)

/-- C9 (amended): on every pair of spends and every settings object, `checkSpendingLimits`
appends the daily warning exactly when `dailySpendingLimit > 0` and the percentage
`(dailySpent / dailySpendingLimit) * 100`, computed in doubles, is at least 80, and the
weekly warning exactly when `weeklySpendingLimit > 0` and the percentage
`(weeklySpent / weeklySpendingLimit) * 100`, computed in doubles, is at least 80; each
decision reads only its own spend and limit; with the user logged in and the warnings
element present these are the warnings of the function; a weekly limit of 1000 warns at
spend 850, showing 85 percent, and not at 750; a daily limit of 20.10 does not warn at
spend 16.08, the doubles giving 79.99999999999999. -/
theorem C9_threshold_on_percentage (settings : Settings) (dailySpent weeklySpent : ℚ) :
    ((∃ w ∈ (limitWarnings settings dailySpent weeklySpent).out,
        w.heading = "Daily Spending Limit Warning") ↔
      ∃ l, settings.dailySpendingLimit = some l ∧ 0 < l ∧
        roundDouble (roundDouble (dailySpent / l) * 100) ≥ 80) ∧
    ((∃ w ∈ (limitWarnings settings dailySpent weeklySpent).out,
        w.heading = "Weekly Spending Limit Warning") ↔
      ∃ l, settings.weeklySpendingLimit = some l ∧ 0 < l ∧
        roundDouble (roundDouble (weeklySpent / l) * 100) ≥ 80) ∧
    (∀ (tz : Int) (u : User) (txs : List Transaction) (today : Int),
      u.settings = some settings →
      checkSpendingLimits tz (some u) txs today true =
        some (limitWarnings settings (calculateSpendingForPeriod tz txs today today)
          (calculateSpendingForPeriod tz txs (currentWeekStart tz today) today))) ∧
    (limitWarnings { weeklySpendingLimit := some 1000 } 0 850).out =
      [⟨"Weekly Spending Limit Warning", 850, 85, 1000⟩] ∧
    (limitWarnings { weeklySpendingLimit := some 1000 } 0 750).out = [] ∧
    (limitWarnings { dailySpendingLimit := some (roundDouble (201 / 10)) }
      (roundDouble (1608 / 100)) 0).out = [] := by
  have hout : (limitWarnings settings dailySpent weeklySpent).out =
      (if isPositive settings.dailySpendingLimit = true ∧
          roundDouble (roundDouble (dailySpent / settings.dailySpendingLimit.getD 0) * 100)
            ≥ 80 then
        [(⟨"Daily Spending Limit Warning", dailySpent,
          roundDouble (roundDouble (dailySpent / settings.dailySpendingLimit.getD 0) * 100),
          settings.dailySpendingLimit.getD 0⟩ : LimitWarning)] else []) ++
      (if isPositive settings.weeklySpendingLimit = true ∧
          roundDouble (roundDouble (weeklySpent / settings.weeklySpendingLimit.getD 0) * 100)
            ≥ 80 then
        [(⟨"Weekly Spending Limit Warning", weeklySpent,
          roundDouble (roundDouble (weeklySpent / settings.weeklySpendingLimit.getD 0) * 100),
          settings.weeklySpendingLimit.getD 0⟩ : LimitWarning)] else []) := by
    simp only [limitWarnings, limitBlock_out, List.nil_append]
  refine ⟨?_, ?_, ?_, by decide!, by decide!, by decide!⟩
  · rw [hout, ← percentage_iff]
    by_cases hd : isPositive settings.dailySpendingLimit = true ∧
        roundDouble (roundDouble (dailySpent / settings.dailySpendingLimit.getD 0) * 100) ≥ 80
    · refine iff_of_true ⟨⟨"Daily Spending Limit Warning", dailySpent,
        roundDouble (roundDouble (dailySpent / settings.dailySpendingLimit.getD 0) * 100),
        settings.dailySpendingLimit.getD 0⟩, ?_, rfl⟩ hd
      rw [if_pos hd]
      exact List.mem_append_left _ (List.mem_singleton_self _)
    · refine iff_of_false ?_ hd
      rintro ⟨w, hw, hh⟩
      rw [if_neg hd, List.nil_append] at hw
      split at hw
      · rw [List.mem_singleton.1 hw] at hh
        simp at hh
      · simp at hw
  · rw [hout, ← percentage_iff]
    by_cases hw : isPositive settings.weeklySpendingLimit = true ∧
        roundDouble (roundDouble (weeklySpent / settings.weeklySpendingLimit.getD 0) * 100)
          ≥ 80
    · refine iff_of_true ⟨⟨"Weekly Spending Limit Warning", weeklySpent,
        roundDouble (roundDouble (weeklySpent / settings.weeklySpendingLimit.getD 0) * 100),
        settings.weeklySpendingLimit.getD 0⟩, ?_, rfl⟩ hw
      rw [if_pos hw]
      exact List.mem_append_right _ (List.mem_singleton_self _)
    · refine iff_of_false ?_ hw
      rintro ⟨w, hmem, hh⟩
      rw [if_neg hw, List.append_nil] at hmem
      split at hmem
      · rw [List.mem_singleton.1 hmem] at hh
        simp at hh
      · simp at hmem
  · intro tz u txs today hu
    simp [checkSpendingLimits, hu]

theorem avoids_emit (title what : String) (t : Trace Notification) (n : Notification)
    (h : Avoids title what t) (hn : n.title ≠ title) : Avoids title what (t.emit n) := by
  refine ⟨?_, h.2⟩
  intro m hm
  simp only [Trace.emit, List.mem_append, List.mem_singleton] at hm
  rcases hm with hm | rfl
  · exact h.1 m hm
  · exact hn

theorem avoids_divide (title what lbl : String) (t : Trace Notification) (a b : ℚ)
    (h : Avoids title what t) (hl : lbl ≠ what) : Avoids title what (t.divide lbl a b) := by
  refine ⟨h.1, ?_⟩
  intro e he
  simp only [Trace.divide, List.mem_append, List.mem_singleton] at he
  rcases he with he | rfl
  · exact h.2 e he
  · exact hl

theorem alertBlock_disabled (title time what : String) (limit : Option ℚ) (spent : ℚ)
    (t : Trace Notification) (h : Disabled limit) :
    alertBlock title time what limit spent t = t := by
  unfold alertBlock
  rw [if_neg]
  rw [isPositive_of_disabled limit h]
  simp

theorem alertBlock_avoids (title time what T L : String) (limit : Option ℚ) (spent : ℚ)
    (t : Trace Notification) (h : Avoids T L t) (hT : title ≠ T) (hL : what ≠ L) :
    Avoids T L (alertBlock title time what limit spent t) := by
  unfold alertBlock
  split
  · exact avoids_emit _ _ _ _ (avoids_divide _ _ _ _ _ _ h hL) hT
  · exact h

theorem patternLoop_avoids (T L : String) (hT : "Spending Pattern Change" ≠ T)
    (hL : "lastWeekSpending[category]" ≠ L) (cur last : Dict Cell) (ks : List String)
    (t : Trace Notification) (h : Avoids T L t) : Avoids T L (patternLoop cur last ks t) := by
  induction ks generalizing t with
  | nil => exact h
  | cons k rest ih =>
    unfold patternLoop
    split
    · split
      · simp only
        split
        · exact ih _ (avoids_emit _ _ _ _ (avoids_divide _ _ _ _ _ _ h hL) hT)
        · exact ih _ (avoids_divide _ _ _ _ _ _ h hL)
      · exact ih t h
    · exact ih t h

theorem generateNotifications_avoids (T L : String) (tz : Int) (user : Option User)
    (txs : List Transaction) (today : Int)
    (hT1 : "Spending Pattern Change" ≠ T) (hT2 : "Daily Tracking Reminder" ≠ T)
    (hL : "lastWeekSpending[category]" ≠ L)
    (hblocks : ∀ settings, (user.bind (·.settings)) = some settings →
      ∀ ds ws, Avoids T L
        (alertBlock "Weekly Spending Alert" "This week" "weeklySpendingLimit"
          settings.weeklySpendingLimit ws
          (alertBlock "Daily Spending Alert" "Today" "dailySpendingLimit"
            settings.dailySpendingLimit ds ⟨[], []⟩))) :
    Avoids T L (generateNotifications tz user txs today) := by
  have hempty : Avoids T L (⟨[], []⟩ : Trace Notification) :=
    ⟨fun n hn => by simp at hn, fun e he => by simp at he⟩
  unfold generateNotifications
  cases user with
  | none => exact hempty
  | some u =>
    simp only
    split
    · exact hempty
    · have hn1 : Avoids T L (match u.settings with
          | some settings =>
            alertBlock "Weekly Spending Alert" "This week" "weeklySpendingLimit"
              settings.weeklySpendingLimit
              (calculateSpendingForPeriod tz txs (currentWeekStart tz today) today)
              (alertBlock "Daily Spending Alert" "Today" "dailySpendingLimit"
                settings.dailySpendingLimit (calculateSpendingForPeriod tz txs today today)
                ⟨[], []⟩)
          | none => ⟨[], []⟩) := by
        cases hs : u.settings with
        | none => exact hempty
        | some settings => exact hblocks settings (by simp [hs]) _ _
      have hn2 := patternLoop_avoids T L hT1 hL
        (getSpendingByCategory txs (currentWeekStart tz today) today)
        (getSpendingByCategory txs (addDays (currentWeekStart tz today) (-7))
          (addDays (currentWeekStart tz today) (-7) + 6 * 24 * 60 * 60 * 1000))
        (getSpendingByCategory txs (currentWeekStart tz today) today).keys _ hn1
      split
      · split
        · exact avoids_emit _ _ _ _ hn2 hT2
        · exact hn2
      · exact hn2

/-- C10: when a spending limit is unset, zero or negative, `checkSpendingLimits` appends no
warning for it and `generateNotifications` pushes no alert for it, whatever the spends,
the ledger and the clock, and neither evaluates a division by that limit; every division
that `checkSpendingLimits` does evaluate has a positive denominator; a daily limit of 0
with a spend of 500 gives no warning and no division. -/
theorem C10_disabled_limits (settings : Settings) (dailySpent weeklySpent : ℚ) :
    (Disabled settings.dailySpendingLimit →
      (∀ w ∈ (limitWarnings settings dailySpent weeklySpent).out,
        w.heading ≠ "Daily Spending Limit Warning") ∧
      (∀ e ∈ (limitWarnings settings dailySpent weeklySpent).divisions,
        e.1 ≠ "dailySpendingLimit")) ∧
    (Disabled settings.weeklySpendingLimit →
      (∀ w ∈ (limitWarnings settings dailySpent weeklySpent).out,
        w.heading ≠ "Weekly Spending Limit Warning") ∧
      (∀ e ∈ (limitWarnings settings dailySpent weeklySpent).divisions,
        e.1 ≠ "weeklySpendingLimit")) ∧
    (∀ e ∈ (limitWarnings settings dailySpent weeklySpent).divisions, 0 < e.2.2) ∧
    (∀ (tz : Int) (u : User) (txs : List Transaction) (today : Int),
      u.settings = some settings →
      (Disabled settings.dailySpendingLimit →
        Avoids "Daily Spending Alert" "dailySpendingLimit"
          (generateNotifications tz (some u) txs today)) ∧
      (Disabled settings.weeklySpendingLimit →
        Avoids "Weekly Spending Alert" "weeklySpendingLimit"
          (generateNotifications tz (some u) txs today))) ∧
    ((limitWarnings { dailySpendingLimit := some 0 } 500 0).out = [] ∧
      (limitWarnings { dailySpendingLimit := some 0 } 500 0).divisions = []) := by
  have hout : (limitWarnings settings dailySpent weeklySpent).out =
      (if isPositive settings.dailySpendingLimit = true ∧
          roundDouble (roundDouble (dailySpent / settings.dailySpendingLimit.getD 0) * 100)
            ≥ 80 then
        [(⟨"Daily Spending Limit Warning", dailySpent,
          roundDouble (roundDouble (dailySpent / settings.dailySpendingLimit.getD 0) * 100),
          settings.dailySpendingLimit.getD 0⟩ : LimitWarning)] else []) ++
      (if isPositive settings.weeklySpendingLimit = true ∧
          roundDouble (roundDouble (weeklySpent / settings.weeklySpendingLimit.getD 0) * 100)
            ≥ 80 then
        [(⟨"Weekly Spending Limit Warning", weeklySpent,
          roundDouble (roundDouble (weeklySpent / settings.weeklySpendingLimit.getD 0) * 100),
          settings.weeklySpendingLimit.getD 0⟩ : LimitWarning)] else []) := by
    simp only [limitWarnings, limitBlock_out, List.nil_append]
  have hdiv : (limitWarnings settings dailySpent weeklySpent).divisions =
      (if isPositive settings.dailySpendingLimit = true then
        [("dailySpendingLimit", dailySpent, settings.dailySpendingLimit.getD 0)] else []) ++
      (if isPositive settings.weeklySpendingLimit = true then
        [("weeklySpendingLimit", weeklySpent, settings.weeklySpendingLimit.getD 0)]
        else []) := by
    simp only [limitWarnings, limitBlock_divisions, List.nil_append]
  have hempty : ∀ T L, Avoids T L (⟨[], []⟩ : Trace Notification) :=
    fun T L => ⟨fun n hn => by simp at hn, fun e he => by simp at he⟩
  refine ⟨?_, ?_, ?_, ?_, by decide!, by decide!⟩
  · intro hd
    have hp := isPositive_of_disabled _ hd
    rw [hout, hdiv]
    simp only [hp, Bool.false_eq_true, false_and, if_false, List.nil_append]
    constructor
    · intro w hw
      split at hw
      · rw [List.mem_singleton.1 hw]
        simp
      · simp at hw
    · intro e he
      split at he
      · rw [List.mem_singleton.1 he]
        simp
      · simp at he
  · intro hd
    have hp := isPositive_of_disabled _ hd
    rw [hout, hdiv]
    simp only [hp, Bool.false_eq_true, false_and, if_false, List.append_nil]
    constructor
    · intro w hw
      split at hw
      · rw [List.mem_singleton.1 hw]
        simp
      · simp at hw
    · intro e he
      split at he
      · rw [List.mem_singleton.1 he]
        simp
      · simp at he
  · intro e he
    rw [hdiv] at he
    rcases List.mem_append.1 he with h | h
    · split at h
      · rename_i hp
        obtain ⟨l, hl, hpos⟩ := (isPositive_iff _).1 hp
        rw [List.mem_singleton.1 h, hl]
        simpa using hpos
      · simp at h
    · split at h
      · rename_i hp
        obtain ⟨l, hl, hpos⟩ := (isPositive_iff _).1 hp
        rw [List.mem_singleton.1 h, hl]
        simpa using hpos
      · simp at h
  · intro tz u txs today hu
    constructor
    · intro hd
      apply generateNotifications_avoids _ _ _ _ _ _ (by decide) (by decide) (by decide)
      intro st hst ds ws
      have : st = settings := by
        have h2 : u.settings = some st := hst
        rw [hu] at h2
        exact (Option.some.inj h2).symm
      subst this
      rw [alertBlock_disabled _ _ _ _ _ _ hd]
      exact alertBlock_avoids _ _ _ _ _ _ _ _ (hempty _ _) (by decide) (by decide)
    · intro hd
      apply generateNotifications_avoids _ _ _ _ _ _ (by decide) (by decide) (by decide)
      intro st hst ds ws
      have : st = settings := by
        have h2 : u.settings = some st := hst
        rw [hu] at h2
        exact (Option.some.inj h2).symm
      subst this
      rw [alertBlock_disabled _ _ _ _ _ _ hd]
      exact alertBlock_avoids _ _ _ _ _ _ _ _ (hempty _ _) (by decide) (by decide)

/-- C10 (witness): a registered user whose daily limit is 0 and weekly limit is unset,
with an outflow of 500 recorded today and the `transactions` property present. -/
theorem C10_disabled_limits_witness :
    Disabled (({ dailySpendingLimit := some 0 } : Settings).dailySpendingLimit) ∧
      Disabled (({ dailySpendingLimit := some 0 } : Settings).weeklySpendingLimit) ∧
      (generateNotifications 0
        (some { email := "a@b.c", name := "A", pin := "1234",
                settings := some { dailySpendingLimit := some 0 }, transactions := some [] })
        [newTransaction (nowTimestamp 0 1735718400000) "tx_a" "outflow" 500 "phone" "a@b.c"]
        1735722000000).out = [] ∧
      Avoids "Daily Spending Alert" "dailySpendingLimit"
        (generateNotifications 0
          (some { email := "a@b.c", name := "A", pin := "1234",
                  settings := some { dailySpendingLimit := some 0 }, transactions := some [] })
          [newTransaction (nowTimestamp 0 1735718400000) "tx_a" "outflow" 500 "phone" "a@b.c"]
          1735722000000) :=
  ⟨Or.inr ⟨0, rfl, le_refl 0⟩, Or.inl rfl, by decide!,
    ((C10_disabled_limits { dailySpendingLimit := some 0 } 500 0).2.2.2.1 0
      { email := "a@b.c", name := "A", pin := "1234",
        settings := some { dailySpendingLimit := some 0 }, transactions := some [] }
      [newTransaction (nowTimestamp 0 1735718400000) "tx_a" "outflow" 500 "phone" "a@b.c"]
      1735722000000 rfl).1 (Or.inr ⟨0, rfl, le_refl 0⟩)⟩


theorem yoe_facts (n yoe doy : Int) (h0 : 0 ≤ n) (h1 : n < 36465)
    (hy : yoe = (n - n / 1460 + n / 36524 - n / 146096) / 365)
    (hd : doy = n - (365 * yoe + yoe / 4 - yoe / 100)) :
    0 ≤ yoe ∧ yoe ≤ 99 ∧ 0 ≤ doy ∧ doy ≤ 365 ∧ (doy = 365 → yoe % 4 = 3) ∧
      n = 365 * yoe + yoe / 4 + doy := by
  have e1 : n / 36524 = 0 := by omega
  have e2 : n / 146096 = 0 := by omega
  rw [e1, e2] at hy
  obtain ⟨c, hc⟩ : ∃ c, c = n / 1461 := ⟨_, rfl⟩
  obtain ⟨r, hr⟩ : ∃ r, r = n % 1461 := ⟨_, rfl⟩
  have hn : n = 1461 * c + r := by omega
  have hr0 : 0 ≤ r := by omega
  have hr1 : r ≤ 1460 := by omega
  have hc0 : 0 ≤ c := by omega
  have hc1 : c ≤ 24 := by omega
  have hb : n / 1460 = c + (c + r) / 1460 := by omega
  by_cases hs : c + r < 1460
  · have hs2 : (c + r) / 1460 = 0 := by omega
    have ha : yoe = 4 * c + r / 365 := by
      rw [hy, hb, hs2]
      omega
    have hk : r / 365 ≤ 3 := by omega
    have hk0 : 0 ≤ r / 365 := by omega
    have h4 : yoe / 4 = c := by omega
    have h100 : yoe / 100 = 0 := by omega
    rw [h4, h100] at hd
    omega
  · have hs2 : (c + r) / 1460 = 1 := by omega
    have ha : yoe = 4 * c + 3 := by
      rw [hy, hb, hs2]
      omega
    have h4 : yoe / 4 = c := by omega
    have h100 : yoe / 100 = 0 := by omega
    rw [h4, h100] at hd
    omega

theorem inLeapYear_century (y : Int) (h0 : 2000 ≤ y) (h1 : y ≤ 2099) :
    inLeapYear y = decide (y % 4 = 0) := by
  unfold inLeapYear
  by_cases h4 : y % 4 = 0
  · by_cases h100 : y % 100 = 0
    · have : y % 400 = 0 := by omega
      simp [h4, h100, this]
    · simp [h4, h100]
  · have h400 : ¬ y % 400 = 0 := by omega
    simp [h4, h400]

theorem makeDay_index (y mi d : Int) (h0 : 0 ≤ mi) (h1 : mi ≤ 11) :
    makeDay y mi d = dayFromYear y + daysBeforeMonth (inLeapYear y) mi + d - 1 := by
  have ha : mi / 12 = 0 := by omega
  have hb : mi % 12 = mi := by omega
  simp only [makeDay, ha, hb, add_zero]

theorem daysBeforeMonth_march (b : Bool) (mp : Int) (h0 : 0 ≤ mp) (h1 : mp ≤ 9) :
    daysBeforeMonth b (mp + 2) = 59 + (153 * mp + 2) / 5 + (if b then 1 else 0) := by
  interval_cases mp <;> cases b <;> decide

theorem daysBeforeMonth_janfeb (b : Bool) (mp : Int) (h0 : 10 ≤ mp) (h1 : mp ≤ 11) :
    daysBeforeMonth b (mp - 10) = (153 * mp + 2) / 5 - 306 := by
  interval_cases mp <;> cases b <;> decide

theorem dayFromYear_century (t : Int) (h0 : 0 ≤ t) (h1 : t ≤ 99) :
    dayFromYear (2000 + t) + (if inLeapYear (2000 + t) then 1 else 0) =
        10958 + 365 * t + t / 4 ∧
      dayFromYear (2000 + t + 1) = 11323 + 365 * t + t / 4 := by
  rw [inLeapYear_century (2000 + t) (by omega) (by omega)]
  unfold dayFromYear
  constructor
  · by_cases h4 : (2000 + t) % 4 = 0
    · simp only [h4, decide_True, if_true]
      omega
    · simp only [h4, decide_False, Bool.false_eq_true, if_false]
      omega
  · omega

theorem civil_aux (z era doe yoe doy mp : Int) (hz0 : 11017 ≤ z) (hz1 : z < 47482)
    (hera : era = (z + 719468) / 146097) (hdoe : doe = z + 719468 - era * 146097)
    (hy : yoe = (doe - doe / 1460 + doe / 36524 - doe / 146096) / 365)
    (hd : doy = doe - (365 * yoe + yoe / 4 - yoe / 100)) (hmp : mp = (5 * doy + 2) / 153) :
    2000 ≤ yoe + era * 400 + (if (if mp < 10 then mp + 3 else mp - 9) ≤ 2 then 1 else 0) ∧
      yoe + era * 400 + (if (if mp < 10 then mp + 3 else mp - 9) ≤ 2 then 1 else 0) ≤ 2099 ∧
      1 ≤ (if mp < 10 then mp + 3 else mp - 9) ∧ (if mp < 10 then mp + 3 else mp - 9) ≤ 12 ∧
      1 ≤ doy - (153 * mp + 2) / 5 + 1 ∧ doy - (153 * mp + 2) / 5 + 1 ≤ 31 ∧
      makeDay (yoe + era * 400 + (if (if mp < 10 then mp + 3 else mp - 9) ≤ 2 then 1 else 0))
        ((if mp < 10 then mp + 3 else mp - 9) - 1) (doy - (153 * mp + 2) / 5 + 1) = z := by
  have he : era = 5 := by omega
  subst he
  have hn : doe = z - 11017 := by omega
  obtain ⟨f0, f1, f2, f3, f4, f5⟩ := yoe_facts doe yoe doy (by omega) (by omega) hy hd
  have hmp0 : 0 ≤ mp := by omega
  have hmp1 : mp ≤ 11 := by omega
  have hz : z = 365 * yoe + yoe / 4 + doy + 11017 := by omega
  clear hy hd hdoe hn f5
  obtain ⟨hS1, hS2⟩ := dayFromYear_century yoe f0 f1
  have hd1 : 0 ≤ doy - (153 * mp + 2) / 5 ∧ doy - (153 * mp + 2) / 5 ≤ 30 := by
    interval_cases mp <;> omega
  by_cases hmp10 : mp < 10
  · have hm : ¬ (mp + 3 ≤ 2) := by omega
    simp only [hmp10, if_true, hm, if_false]
    refine ⟨by omega, by omega, by omega, by omega, by omega, by omega, ?_⟩
    have e1 : yoe + 5 * 400 + 0 = 2000 + yoe := by ring
    have e2 : mp + 3 - 1 = mp + 2 := by ring
    rw [e1, e2, makeDay_index _ _ _ (by omega) (by omega),
      daysBeforeMonth_march _ _ hmp0 (by omega)]
    omega
  · have hm : mp - 9 ≤ 2 := by omega
    have hy99 : yoe ≤ 98 := by omega
    simp only [hmp10, if_false, hm, if_true]
    refine ⟨by omega, by omega, by omega, by omega, by omega, by omega, ?_⟩
    have e1 : yoe + 5 * 400 + 1 = 2000 + yoe + 1 := by ring
    have e2 : mp - 9 - 1 = mp - 10 := by ring
    rw [e1, e2, makeDay_index _ _ _ (by omega) (by omega),
      daysBeforeMonth_janfeb _ _ (by omega) hmp1]
    omega

theorem civil_early :
    ∀ k : Fin 60,
      2000 ≤ (civilFromDays (10957 + (k.val : Int))).1 ∧
      (civilFromDays (10957 + (k.val : Int))).1 ≤ 2099 ∧
      1 ≤ (civilFromDays (10957 + (k.val : Int))).2.1 ∧
      (civilFromDays (10957 + (k.val : Int))).2.1 ≤ 12 ∧
      1 ≤ (civilFromDays (10957 + (k.val : Int))).2.2 ∧
      (civilFromDays (10957 + (k.val : Int))).2.2 ≤ 31 ∧
      makeDay (civilFromDays (10957 + (k.val : Int))).1
        ((civilFromDays (10957 + (k.val : Int))).2.1 - 1)
        (civilFromDays (10957 + (k.val : Int))).2.2 = 10957 + (k.val : Int) := by
  decide!

/-- On the days of the years 2000-2099 the civil date computed by the `Date` getters is a
date of those years and `MakeDay` takes it back to the day number. -/
theorem civilFromDays_century (z : Int) (h0 : 10957 ≤ z) (h1 : z < 47482) :
    2000 ≤ (civilFromDays z).1 ∧ (civilFromDays z).1 ≤ 2099 ∧
      1 ≤ (civilFromDays z).2.1 ∧ (civilFromDays z).2.1 ≤ 12 ∧
      1 ≤ (civilFromDays z).2.2 ∧ (civilFromDays z).2.2 ≤ 31 ∧
      makeDay (civilFromDays z).1 ((civilFromDays z).2.1 - 1) (civilFromDays z).2.2 = z := by
  by_cases hz : z < 11017
  · have hk : (z - 10957).toNat < 60 := by omega
    have := civil_early ⟨(z - 10957).toNat, hk⟩
    have e : (10957 : Int) + (((⟨(z - 10957).toNat, hk⟩ : Fin 60).val : Nat) : Int) = z := by
      show (10957 : Int) + (((z - 10957).toNat : Nat) : Int) = z
      omega
    rw [e] at this
    exact this
  · exact civil_aux z _ _ _ _ _ (by omega) h1 rfl rfl rfl rfl rfl

/-! ### Display dates written by `nowTimestamp` -/

theorem padStart2_data : ∀ k : Fin 100,
    (padStart2 (jsString (k.val : Int))).data = twoDigit k.val := by
  decide!

theorem sliceLast2_year_data : ∀ k : Fin 100,
    (sliceLast2 (jsString (2000 + (k.val : Int)))).data = twoDigit k.val := by
  decide!

theorem digitVal_ofNat : ∀ q : Fin 10, digitVal (Char.ofNat (48 + q.val)) = some q.val := by
  decide

theorem digit_ne_slash : ∀ q : Fin 10, Char.ofNat (48 + q.val) ≠ '/' := by
  decide

theorem calendarFields_twoDigit (a b c : Nat) (ha : a < 100) (hb : b < 100) (hc : c < 100) :
    calendarFields (String.mk (twoDigit a ++ '/' :: (twoDigit b ++ '/' :: twoDigit c))) =
      some (c, a, b) := by
  have d1 := digitVal_ofNat ⟨a / 10, by omega⟩
  have d2 := digitVal_ofNat ⟨a % 10, by omega⟩
  have d3 := digitVal_ofNat ⟨b / 10, by omega⟩
  have d4 := digitVal_ofNat ⟨b % 10, by omega⟩
  have d5 := digitVal_ofNat ⟨c / 10, by omega⟩
  have d6 := digitVal_ofNat ⟨c % 10, by omega⟩
  simp only at d1 d2 d3 d4 d5 d6
  have ea : 10 * (a / 10) + a % 10 = a := by omega
  have eb : 10 * (b / 10) + b % 10 = b := by omega
  have ec : 10 * (c / 10) + c % 10 = c := by omega
  simp only [calendarFields, twoDigit, List.cons_append, List.nil_append, and_self, if_true, d1,
    d2, d3, d4, d5, d6, ea, eb, ec]

theorem nowTimestamp_date_data (tz t : Int) (h : InDisplayCentury tz t) :
    (nowTimestamp tz t).date.data =
      twoDigit (civilFromDays (localDay tz t)).2.1.toNat ++ '/' ::
        (twoDigit (civilFromDays (localDay tz t)).2.2.toNat ++ '/' ::
          twoDigit ((civilFromDays (localDay tz t)).1 - 2000).toNat) := by
  obtain ⟨c1, c2, c3, c4, c5, c6, -⟩ := civilFromDays_century (localDay tz t) h.1 h.2
  have hm : (civilFromDays (localDay tz t)).2.1.toNat < 100 := by omega
  have hd : (civilFromDays (localDay tz t)).2.2.toNat < 100 := by omega
  have hy : ((civilFromDays (localDay tz t)).1 - 2000).toNat < 100 := by omega
  have pm := padStart2_data ⟨_, hm⟩
  have pd := padStart2_data ⟨_, hd⟩
  have py := sliceLast2_year_data ⟨_, hy⟩
  have em : (((civilFromDays (localDay tz t)).2.1.toNat : Nat) : Int) =
      getMonth tz t + 1 := by
    simp only [getMonth]; omega
  have ed : (((civilFromDays (localDay tz t)).2.2.toNat : Nat) : Int) = getDate tz t := by
    simp only [getDate]; omega
  have ey : (2000 : Int) + ((((civilFromDays (localDay tz t)).1 - 2000).toNat : Nat) : Int) =
      getFullYear tz t := by
    simp only [getFullYear]; omega
  simp only [em, ed, ey] at pm pd py
  simp only [nowTimestamp, String.data_append, pm, pd, py]
  rfl

theorem dayKey_nowTimestamp (tz t : Int) (h : InDisplayCentury tz t) :
    dayKey (nowTimestamp tz t).date = localDay tz t := by
  obtain ⟨c1, c2, c3, c4, c5, c6, c7⟩ := civilFromDays_century (localDay tz t) h.1 h.2
  have hs : (nowTimestamp tz t).date = String.mk (nowTimestamp tz t).date.data := rfl
  rw [hs, nowTimestamp_date_data tz t h, dayKey,
    calendarFields_twoDigit _ _ _ (by omega) (by omega) (by omega)]
  simp only [fieldsDay]
  have e1 : (2000 : Int) + ((((civilFromDays (localDay tz t)).1 - 2000).toNat : Nat) : Int) =
      (civilFromDays (localDay tz t)).1 := by omega
  have e2 : ((((civilFromDays (localDay tz t)).2.1).toNat : Nat) : Int) =
      (civilFromDays (localDay tz t)).2.1 := by omega
  have e3 : ((((civilFromDays (localDay tz t)).2.2).toNat : Nat) : Int) =
      (civilFromDays (localDay tz t)).2.2 := by omega
  rw [e1, e2, e3]
  exact c7

/-- Two instants of the years 2000-2099 have the same display date exactly when they fall
on the same local day. -/
theorem nowTimestamp_date_eq_iff (tz a b : Int) (ha : InDisplayCentury tz a)
    (hb : InDisplayCentury tz b) :
    (nowTimestamp tz a).date = (nowTimestamp tz b).date ↔ localDay tz a = localDay tz b := by
  constructor
  · intro h
    rw [← dayKey_nowTimestamp tz a ha, ← dayKey_nowTimestamp tz b hb, h]
  · intro h
    simp only [nowTimestamp, getMonth, getDate, getFullYear, h]

/-! ### Daily and weekly spend -/

theorem foldl_add_filter (p : Transaction → Bool) (txs : List Transaction) (acc : ℚ) :
    txs.foldl (fun spending tx => if p tx = true then spending + tx.amount else spending) acc =
      acc + ((txs.filter p).map (·.amount)).sum := by
  induction txs generalizing acc with
  | nil => simp
  | cons tx rest ih =>
    rw [List.foldl_cons, ih]
    by_cases h : p tx = true
    · simp [List.filter_cons, h, add_assoc]
    · simp [List.filter_cons, h]

theorem calculateSpendingForPeriod_sameDay (tz : Int) (txs : List Transaction) (today : Int) :
    calculateSpendingForPeriod tz txs today today =
      ((txs.filter (fun tx => decide (tx.type = "outflow" ∧
        localDay tz tx.createdAt.iso = localDay tz today))).map (·.amount)).sum := by
  have hstep : (fun (spending : ℚ) (tx : Transaction) =>
      if tx.type = "outflow" then
        if sameDateString tz today today = true then
          if sameDateString tz tx.createdAt.iso today = true then spending + tx.amount
          else spending
        else if today ≤ tx.createdAt.iso ∧ tx.createdAt.iso ≤ today then spending + tx.amount
        else spending
      else spending) =
      (fun spending tx => if (decide (tx.type = "outflow" ∧
        localDay tz tx.createdAt.iso = localDay tz today)) = true then spending + tx.amount
        else spending) := by
    funext spending tx
    by_cases h1 : tx.type = "outflow"
    · by_cases h2 : localDay tz tx.createdAt.iso = localDay tz today
      · simp [sameDateString, h1, h2]
      · simp [sameDateString, h1, h2]
    · simp [h1]
  unfold calculateSpendingForPeriod
  simp only [hstep]
  rw [foldl_add_filter]
  simp

/-- For a ledger whose records carry the display date written by `nowTimestamp` at their
creation in the zone of the reader, all within the years 2000-2099, the same-day sum of
`calculateSpendingForPeriod` is the sum of the amounts of the outflow records whose display
date is today's. -/
theorem daily_spend_display_date (tz : Int) (txs : List Transaction) (today : Int)
    (hdate : ∀ tx ∈ txs, tx.date = (nowTimestamp tz tx.createdAt.iso).date)
    (hrange : ∀ tx ∈ txs, InDisplayCentury tz tx.createdAt.iso)
    (htoday : InDisplayCentury tz today) :
    calculateSpendingForPeriod tz txs today today = dailySpendSpec tz txs today ∧
      (∀ tx ∈ txs, (tx.date = (nowTimestamp tz today).date ↔
        localDay tz tx.createdAt.iso = localDay tz today)) ∧
      (∀ tx, tx.type ≠ "outflow" ∨ tx.date ≠ (nowTimestamp tz today).date →
        tx.date = (nowTimestamp tz tx.createdAt.iso).date →
        InDisplayCentury tz tx.createdAt.iso →
        calculateSpendingForPeriod tz (txs ++ [tx]) today today =
          calculateSpendingForPeriod tz txs today today) := by
  have hiff : ∀ tx : Transaction, tx.date = (nowTimestamp tz tx.createdAt.iso).date →
      InDisplayCentury tz tx.createdAt.iso →
      (tx.date = (nowTimestamp tz today).date ↔
        localDay tz tx.createdAt.iso = localDay tz today) := by
    intro tx hd hr
    rw [hd]
    exact nowTimestamp_date_eq_iff tz _ _ hr htoday
  refine ⟨?_, fun tx htx => hiff tx (hdate tx htx) (hrange tx htx), ?_⟩
  · rw [calculateSpendingForPeriod_sameDay]
    unfold dailySpendSpec
    congr 2
    apply List.filter_congr
    intro tx htx
    have := hiff tx (hdate tx htx) (hrange tx htx)
    by_cases h1 : tx.type = "outflow"
    · by_cases h2 : tx.date = (nowTimestamp tz today).date
      · simp [h1, h2, this.1 h2]
      · have h3 : ¬ localDay tz tx.createdAt.iso = localDay tz today := fun h => h2 (this.2 h)
        simp [h1, h2, h3]
    · simp [h1]
  · intro tx hne hd hr
    rw [calculateSpendingForPeriod_sameDay, calculateSpendingForPeriod_sameDay,
      List.filter_append]
    have hfalse : ¬ (tx.type = "outflow" ∧
        localDay tz tx.createdAt.iso = localDay tz today) := by
      rintro ⟨h1, h2⟩
      rcases hne with h | h
      · exact h h1
      · exact h ((hiff tx hd hr).2 h2)
    simp [List.filter_cons, hfalse]

/-- C12 (counterexample): `calculateSpendingForPeriod` never reads the display date; it
compares the local day of `createdAt.iso` in the zone of the reader. An outflow of 10
created on 1 January 2025 at 23:30 in a UTC+8 zone carries the display date `01/01/25`;
read in a UTC+9 zone on 2 January 2025 at 10:00 (display date `01/02/25`) its instant falls
on 2 January, so the daily spend is 10 where the outflows whose display date is today's
sum to 0. -/
theorem C12_display_date_of_another_zone :
    (newTransaction (nowTimestamp 28800000 1735745400000) "tx_a" "outflow" 10 "tea"
        "a@b.c").date = "01/01/25" ∧
    (nowTimestamp 32400000 1735779600000).date = "01/02/25" ∧
    calculateSpendingForPeriod 32400000
      [newTransaction (nowTimestamp 28800000 1735745400000) "tx_a" "outflow" 10 "tea" "a@b.c"]
      1735779600000 1735779600000 = 10 ∧
    dailySpendSpec 32400000
      [newTransaction (nowTimestamp 28800000 1735745400000) "tx_a" "outflow" 10 "tea" "a@b.c"]
      1735779600000 = 0 ∧
    calculateSpendingForPeriod 32400000
      [newTransaction (nowTimestamp 28800000 1735745400000) "tx_a" "outflow" 10 "tea" "a@b.c"]
      1735779600000 1735779600000 ≠
    dailySpendSpec 32400000
      [newTransaction (nowTimestamp 28800000 1735745400000) "tx_a" "outflow" 10 "tea" "a@b.c"]
      1735779600000 := by
  refine ⟨by decide, by decide, by decide!, by decide!, by decide!⟩

/-- C12 (amended): for every ledger and every current instant,
`calculateSpendingForPeriod(txs, today, today)` is the sum of the amounts of the outflow
records whose creation instant falls on today's local calendar day, whatever their time of
day and whatever their display date; inflows and records created on another local day add
nothing. When the display dates were written at creation in the zone of the reader (years
2000-2099), these are the records whose display date is today's: in a UTC+8 zone on
2 January 2025 at 20:00 two outflows of that day (30 at 00:30, 20 at 19:00) give 50 beside
an inflow of that day and an outflow of the day before. -/
theorem C12_daily_spend_by_instant (tz : Int) (txs : List Transaction) (today : Int) :
    calculateSpendingForPeriod tz txs today today =
      ((txs.filter (fun tx => decide (tx.type = "outflow" ∧
        localDay tz tx.createdAt.iso = localDay tz today))).map (·.amount)).sum ∧
    (∀ tx : Transaction,
      tx.type ≠ "outflow" ∨ localDay tz tx.createdAt.iso ≠ localDay tz today →
      calculateSpendingForPeriod tz (txs ++ [tx]) today today =
        calculateSpendingForPeriod tz txs today today) ∧
    (∀ tx : Transaction,
      tx.type = "outflow" → localDay tz tx.createdAt.iso = localDay tz today →
      calculateSpendingForPeriod tz (txs ++ [tx]) today today =
        calculateSpendingForPeriod tz txs today today + tx.amount) ∧
    ((∀ tx ∈ txs, tx.date = (nowTimestamp tz tx.createdAt.iso).date) →
      (∀ tx ∈ txs, InDisplayCentury tz tx.createdAt.iso) → InDisplayCentury tz today →
      calculateSpendingForPeriod tz txs today today = dailySpendSpec tz txs today) ∧
    (calculateSpendingForPeriod 28800000
        [newTransaction (nowTimestamp 28800000 1735749000000) "tx_a" "outflow" 30 "rice" "a@b.c",
         newTransaction (nowTimestamp 28800000 1735815600000) "tx_b" "outflow" 20 "bus" "a@b.c",
         newTransaction (nowTimestamp 28800000 1735790000000) "tx_c" "inflow" 100 "pay" "a@b.c",
         newTransaction (nowTimestamp 28800000 1735740000000) "tx_d" "outflow" 7 "tea" "a@b.c"]
        1735819200000 1735819200000 = 50 ∧
      dailySpendSpec 28800000
        [newTransaction (nowTimestamp 28800000 1735749000000) "tx_a" "outflow" 30 "rice" "a@b.c",
         newTransaction (nowTimestamp 28800000 1735815600000) "tx_b" "outflow" 20 "bus" "a@b.c",
         newTransaction (nowTimestamp 28800000 1735790000000) "tx_c" "inflow" 100 "pay" "a@b.c",
         newTransaction (nowTimestamp 28800000 1735740000000) "tx_d" "outflow" 7 "tea" "a@b.c"]
        1735819200000 = 50) := by
  refine ⟨calculateSpendingForPeriod_sameDay tz txs today, ?_, ?_, ?_, by decide!, by decide!⟩
  · intro tx hne
    rw [calculateSpendingForPeriod_sameDay, calculateSpendingForPeriod_sameDay,
      List.filter_append]
    have hfalse : ¬ (tx.type = "outflow" ∧
        localDay tz tx.createdAt.iso = localDay tz today) := by
      rintro ⟨h1, h2⟩
      rcases hne with h | h
      · exact h h1
      · exact h h2
    simp [List.filter_cons, hfalse]
  · intro tx h1 h2
    rw [calculateSpendingForPeriod_sameDay, calculateSpendingForPeriod_sameDay,
      List.filter_append]
    simp [List.filter_cons, h1, h2]
  · intro hdate hrange htoday
    exact (daily_spend_display_date tz txs today hdate hrange htoday).1

/-- C11 (failing input): on Wednesday 8 January 2025 at 12:00 (UTC zone) the week starts on
Sunday 5 January, kept at 12:00; an outflow of 90 recorded that Sunday at 08:00 carries the
display date `01/05/25` and belongs to the specification's weekly spend (90), but the
weekly spend of `checkSpendingLimits` is 0 and a weekly limit of 100 raises no warning;
the same outflow recorded at 13:00 is counted and warns. -/
theorem C11_weekly_spend_misses_sunday_morning :
    getDay 0 1736337600000 = 3 ∧
      currentWeekStart 0 1736337600000 = 1736078400000 ∧
      getDay 0 (currentWeekStart 0 1736337600000) = 0 ∧
      (newTransaction (nowTimestamp 0 1736064000000) "tx_s" "outflow" 90 "books" "a@b.c").date =
        "01/05/25" ∧
      (nowTimestamp 0 (currentWeekStart 0 1736337600000)).date = "01/05/25" ∧
      weeklySpendSpec 0
        [newTransaction (nowTimestamp 0 1736064000000) "tx_s" "outflow" 90 "books" "a@b.c"]
        1736337600000 = 90 ∧
      calculateSpendingForPeriod 0
        [newTransaction (nowTimestamp 0 1736064000000) "tx_s" "outflow" 90 "books" "a@b.c"]
        (currentWeekStart 0 1736337600000) 1736337600000 = 0 ∧
      (checkSpendingLimits 0
        (some (applySettings (newUser "a@b.c" "A" "1234") 0 0 100 false false))
        [newTransaction (nowTimestamp 0 1736064000000) "tx_s" "outflow" 90 "books" "a@b.c"]
        1736337600000 true).map (·.out) = some [] ∧
      (checkSpendingLimits 0
        (some (applySettings (newUser "a@b.c" "A" "1234") 0 0 100 false false))
        [newTransaction (nowTimestamp 0 1736082000000) "tx_s" "outflow" 90 "books" "a@b.c"]
        1736337600000 true).map (·.out) =
          some [⟨"Weekly Spending Limit Warning", 90, 90, 100⟩] := by
  refine ⟨by decide, by decide, by decide, by decide, by decide, by decide!, by decide!,
    by decide!, by decide!⟩

/-! ### Savings-goal progress -/

/-- C13 (failing input): `updateSavingsGoalProgress` takes only the upper clamp,
`Math.min(100, saved / goal * 100)`; with a goal of 1000 and a month holding one outflow
of 500 the fill percentage is -50, below 0, where the clamp into `[0, 100]` gives 0. The
value agrees with the clamp exactly when the month's net is not negative. -/
theorem C13_progress_not_clamped_below :
    (∀ (tz : Int) (u : User) (st : Settings) (goal : ℚ) (txs : List Transaction) (now : Int),
      u.settings = some st → st.savingsGoal = some goal → 0 < goal →
      ∃ p, updateSavingsGoalProgress tz (some u) txs now = some p ∧
        p.progressPercent = min 100 (p.monthlySavings / goal * 100) ∧
        p.progressPercent ≤ 100 ∧
        (0 ≤ p.monthlySavings → p.progressPercent = clampPercent (p.monthlySavings / goal * 100)) ∧
        (p.monthlySavings < 0 → p.progressPercent < 0 ∧
          p.progressPercent ≠ clampPercent (p.monthlySavings / goal * 100))) ∧
      updateSavingsGoalProgress 0
        (some (applySettings (newUser "a@b.c" "A" "1234") 1000 0 0 false false))
        [newTransaction (nowTimestamp 0 1735718400000) "tx_a" "outflow" 500 "rent" "a@b.c"]
        1735819200000 = some ⟨-500, 1000, -50⟩ ∧
      clampPercent ((-500 : ℚ) / 1000 * 100) = 0 := by
  refine ⟨?_, by decide!, by decide!⟩
  intro tz u st goal txs now hu hg hpos
  have hne : goal ≠ 0 := ne_of_gt hpos
  have hdef : updateSavingsGoalProgress tz (some u) txs now =
      some ⟨monthlySavings (newDateLocal tz (getFullYear tz now) (getMonth tz now) 1) now txs,
        goal, min 100 (monthlySavings
          (newDateLocal tz (getFullYear tz now) (getMonth tz now) 1) now txs / goal * 100)⟩ := by
    simp only [updateSavingsGoalProgress, hu, hg, hne, if_false]
  refine ⟨_, hdef, rfl, min_le_left _ _, ?_, ?_⟩
  · intro h0
    have hx : 0 ≤ monthlySavings
        (newDateLocal tz (getFullYear tz now) (getMonth tz now) 1) now txs / goal * 100 :=
      mul_nonneg (div_nonneg h0 (le_of_lt hpos)) (by norm_num)
    simp only [clampPercent]
    rw [max_eq_right (le_min (by norm_num) hx)]
  · intro hneg
    have hx : monthlySavings
        (newDateLocal tz (getFullYear tz now) (getMonth tz now) 1) now txs / goal * 100 < 0 :=
      mul_neg_of_neg_of_pos (div_neg_of_neg_of_pos hneg hpos) (by norm_num)
    have hlt : min 100 (monthlySavings
        (newDateLocal tz (getFullYear tz now) (getMonth tz now) 1) now txs / goal * 100) < 0 :=
      lt_of_le_of_lt (min_le_right _ _) hx
    refine ⟨hlt, ?_⟩
    simp only [clampPercent]
    intro heq
    have : (0 : ℚ) ≤ min 100 (monthlySavings
        (newDateLocal tz (getFullYear tz now) (getMonth tz now) 1) now txs / goal * 100) := by
      rw [heq]
      exact le_max_left _ _
    exact absurd this (not_le.2 hlt)

/-! ### Notifications of a registered user -/

theorem getCurrentUser_transactions (session : Option Session) (users : List User) (u : User)
    (h : getCurrentUser session users = some u) :
    ∃ v ∈ users, u.transactions = v.transactions := by
  unfold getCurrentUser at h
  cases session with
  | none => simp at h
  | some sess =>
    simp only at h
    cases hf : users.find? (fun u => decide (u.email = sess.email)) with
    | none => simp [hf] at h
    | some v =>
      rw [hf] at h
      simp only [Option.some.injEq] at h
      refine ⟨v, List.mem_of_find?_eq_some hf, ?_⟩
      rw [← h]

/-- C14 (failing input): the register handler builds a user without a `transactions`
property and no code path adds one, so `generateNotifications` leaves through its first
guard with an empty list for every registered user, whatever the limits and spends: with a
weekly limit of 1000 and a weekly spend of 850 `checkSpendingLimits` warns and
`generateNotifications` returns no record. Were the property present, a spend of exactly
80% (800 of 1000) would still warn in `checkSpendingLimits` only, as the notification test
is the strict `spent > limit * 0.8`. -/
theorem C14_registered_user_never_notified :
    (∀ (tz : Int) (u : User) (txs : List Transaction) (today : Int),
      u.transactions = none → (generateNotifications tz (some u) txs today).out = []) ∧
    (∀ (email name pin : String) (g d w : ℚ) (r1 r2 : Bool),
      (applySettings (newUser email name pin) g d w r1 r2).transactions = none) ∧
    (∀ (session : Option Session) (users : List User) (u : User),
      (∀ v ∈ users, v.transactions = none) → getCurrentUser session users = some u →
      ∀ (tz : Int) (txs : List Transaction) (today : Int),
        (generateNotifications tz (some u) txs today).out = []) ∧
    ((checkSpendingLimits 0
        (getCurrentUser (some ⟨"a@b.c", "A", 1736300000000⟩)
          [applySettings (newUser "a@b.c" "A" "1234") 0 0 1000 false false])
        [newTransaction (nowTimestamp 0 1736244000000) "tx_a" "outflow" 850 "fees" "a@b.c"]
        1736337600000 true).map (·.out) =
        some [⟨"Weekly Spending Limit Warning", 850, 85, 1000⟩] ∧
      (generateNotifications 0
        (getCurrentUser (some ⟨"a@b.c", "A", 1736300000000⟩)
          [applySettings (newUser "a@b.c" "A" "1234") 0 0 1000 false false])
        [newTransaction (nowTimestamp 0 1736244000000) "tx_a" "outflow" 850 "fees" "a@b.c"]
        1736337600000).out = []) ∧
    ((checkSpendingLimits 0
        (some { applySettings (newUser "a@b.c" "A" "1234") 0 0 1000 false false with
                transactions := some [] })
        [newTransaction (nowTimestamp 0 1736244000000) "tx_a" "outflow" 800 "fees" "a@b.c"]
        1736337600000 true).map (·.out) =
        some [⟨"Weekly Spending Limit Warning", 800, 80, 1000⟩] ∧
      (generateNotifications 0
        (some { applySettings (newUser "a@b.c" "A" "1234") 0 0 1000 false false with
                transactions := some [] })
        [newTransaction (nowTimestamp 0 1736244000000) "tx_a" "outflow" 800 "fees" "a@b.c"]
        1736337600000).out = []) := by
  have hgen : ∀ (tz : Int) (u : User) (txs : List Transaction) (today : Int),
      u.transactions = none → (generateNotifications tz (some u) txs today).out = [] := by
    intro tz u txs today h
    simp [generateNotifications, h]
  refine ⟨hgen, ?_, ?_, ⟨by decide!, by decide!⟩, ⟨by decide!, by decide!⟩⟩
  · intro email name pin g d w r1 r2
    rfl
  · intro session users u hall hu tz txs today
    obtain ⟨v, hv, he⟩ := getCurrentUser_transactions session users u hu
    exact hgen tz u txs today (he.trans (hall v hv))

/-! ### Pattern comparator -/

theorem patternLoop_cons (cur last : Dict Cell) (k : String) (rest : List String)
    (t : Trace Notification) :
    patternLoop cur last (k :: rest) t = patternLoop cur last rest
      { divisions := t.divisions ++ (patternDivision cur last k).toList,
        out := t.out ++ (patternAlert cur last k).toList } := by
  rcases hl : last.get k with _ | (p | ⟨m, a⟩)
  · by_cases hk : k ∈ objectPrototypeKeys
    · rcases hc : cur.get k with _ | (v | ⟨m2, a2⟩) <;>
        simp [patternLoop, lookup, hl, hc, hk, Lookup.truthy, numericOperands, patternAlert,
          patternDivision]
    · rcases hc : cur.get k with _ | (v | ⟨m2, a2⟩) <;>
        simp [patternLoop, lookup, hl, hc, hk, Lookup.truthy, numericOperands, patternAlert,
          patternDivision]
  · by_cases hp : p = 0
    · rcases hc : cur.get k with _ | (v | ⟨m2, a2⟩) <;>
        simp [patternLoop, lookup, hl, hc, hp, Lookup.truthy, numericOperands, patternAlert,
          patternDivision]
    · rcases hc : cur.get k with _ | (v | ⟨m2, a2⟩)
      · by_cases hk : k ∈ objectPrototypeKeys <;>
          simp [patternLoop, lookup, hl, hc, hp, hk, Lookup.truthy, numericOperands,
            patternAlert, patternDivision]
      · by_cases hgt : |changePercent v p| > 20
        · simp [patternLoop, lookup, hl, hc, hp, hgt, Lookup.truthy, numericOperands,
            patternAlert, patternDivision, Trace.emit, Trace.divide]
        · simp [patternLoop, lookup, hl, hc, hp, hgt, Lookup.truthy, numericOperands,
            patternAlert, patternDivision, Trace.emit, Trace.divide]
      · simp [patternLoop, lookup, hl, hc, hp, Lookup.truthy, numericOperands, patternAlert,
          patternDivision]
  · rcases hc : cur.get k with _ | (v | ⟨m2, a2⟩)
    · by_cases hk : k ∈ objectPrototypeKeys <;>
        simp [patternLoop, lookup, hl, hc, hk, Lookup.truthy, numericOperands, patternAlert,
          patternDivision]
    · simp [patternLoop, lookup, hl, hc, Lookup.truthy, numericOperands, patternAlert,
        patternDivision]
    · simp [patternLoop, lookup, hl, hc, Lookup.truthy, numericOperands, patternAlert,
        patternDivision]

theorem patternLoop_eq (cur last : Dict Cell) (ks : List String) (t : Trace Notification) :
    patternLoop cur last ks t =
      { divisions := t.divisions ++ ks.filterMap (patternDivision cur last),
        out := t.out ++ ks.filterMap (patternAlert cur last) } := by
  induction ks generalizing t with
  | nil => simp [patternLoop]
  | cons k rest ih =>
    rw [patternLoop_cons, ih]
    cases hd : patternDivision cur last k <;> cases ha : patternAlert cur last k <;>
      simp [List.filterMap_cons, hd, ha]


theorem patternAlert_some (cur last : Dict Cell) (k : String) (n : Notification)
    (h : patternAlert cur last k = some n) :
    n.title = "Spending Pattern Change" ∧ n.type = "info" ∧
      (∃ dir, n.messageWords = [dir, k]) ∧
      ∃ v p, cur.get k = some (Cell.number v) ∧ last.get k = some (Cell.number p) ∧ p ≠ 0 ∧
        |changePercent v p| > 20 := by
  unfold patternAlert at h
  rcases hc : cur.get k with _ | (v | ⟨m2, a2⟩)
  · simp [hc] at h
  · rcases hl : last.get k with _ | (p | ⟨m, a⟩)
    · simp [hc, hl] at h
    · rw [hc, hl] at h
      simp only at h
      by_cases hp : p = 0
      · simp [hp] at h
      · rw [if_neg hp] at h
        by_cases hgt : |changePercent v p| > 20
        · rw [if_pos hgt] at h
          simp only [Option.some.injEq] at h
          subst h
          exact ⟨rfl, rfl, ⟨_, rfl⟩, v, p, rfl, rfl, hp, hgt⟩
        · rw [if_neg hgt] at h
          simp at h
    · simp [hc, hl] at h
  · rcases hl : last.get k with _ | (p | ⟨m, a⟩) <;> simp [hc, hl] at h

theorem changePercent_zero (v : ℚ) : changePercent v 0 = 0 := by
  simp [changePercent, roundDouble]

theorem patternAlert_isSome (cur last : Dict Cell) (k : String) (v p : ℚ)
    (hc : cur.get k = some (Cell.number v)) (hl : last.get k = some (Cell.number p))
    (hgt : |changePercent v p| > 20) :
    ∃ n, patternAlert cur last k = some n := by
  have hp : p ≠ 0 := by
    intro h0
    rw [h0, changePercent_zero] at hgt
    simp at hgt
    exact absurd hgt (by norm_num)
  unfold patternAlert
  rw [hc, hl]
  simp only [hp, if_false, hgt, if_true]
  exact ⟨_, rfl⟩

/-- The alerts of the loop over `ks`: category `c` is flagged exactly when it is one of
`ks`, holds a number in both mappings, and the change exceeds 20 percent in absolute
value. -/
theorem flagged_iff (cur last : Dict Cell) (ks : List String) (c : String) :
    (∃ n ∈ ks.filterMap (patternAlert cur last), Flags n c) ↔
      c ∈ ks ∧ ∃ v p, cur.get c = some (Cell.number v) ∧ last.get c = some (Cell.number p) ∧
        |changePercent v p| > 20 := by
  constructor
  · rintro ⟨n, hn, hf⟩
    obtain ⟨k, hk, hkn⟩ := List.mem_filterMap.1 hn
    obtain ⟨-, -, ⟨dir, hw⟩, v, p, hc, hl, -, hgt⟩ := patternAlert_some cur last k n hkn
    obtain ⟨-, dir2, hw2⟩ := hf
    rw [hw] at hw2
    have hkc : k = c := by
      simp only [List.cons.injEq, and_true] at hw2
      exact hw2.2
    subst hkc
    exact ⟨hk, v, p, hc, hl, hgt⟩
  · rintro ⟨hk, v, p, hc, hl, hgt⟩
    obtain ⟨n, hn⟩ := patternAlert_isSome cur last c v p hc hl hgt
    obtain ⟨h1, -, h3, -⟩ := patternAlert_some cur last c n hn
    exact ⟨n, List.mem_filterMap.2 ⟨c, hk, hn⟩, h1, h3⟩

theorem flagged_keys_iff (cur last : Dict Cell) (c : String) :
    (∃ n ∈ cur.keys.filterMap (patternAlert cur last), Flags n c) ↔
      ∃ v p, cur.get c = some (Cell.number v) ∧ last.get c = some (Cell.number p) ∧
        |changePercent v p| > 20 := by
  rw [flagged_iff]
  constructor
  · rintro ⟨-, h⟩
    exact h
  · rintro ⟨v, p, hc, hl, hgt⟩
    exact ⟨(Dict.mem_keys_iff cur c).2 (by rw [hc]; rfl), v, p, hc, hl, hgt⟩

theorem alertBlock_shape (title time what : String) (limit : Option ℚ) (spent : ℚ)
    (t : Trace Notification) :
    ∃ ds os, alertBlock title time what limit spent t =
        { divisions := t.divisions ++ ds, out := t.out ++ os } ∧
      (∀ n ∈ os, n.messageWords = []) ∧ (∀ e ∈ ds, e.2.2 ≠ 0) := by
  unfold alertBlock
  split
  · rename_i h
    obtain ⟨l, hl, hpos⟩ := (isPositive_iff limit).1 h.1
    refine ⟨[(what, spent, limit.getD 0)], _, rfl, ?_, ?_⟩
    · intro n hn
      rw [List.mem_singleton.1 hn]
    · intro e he
      rw [List.mem_singleton.1 he, hl]
      exact ne_of_gt hpos
  · exact ⟨[], [], by simp, by simp, by simp⟩

/-- The shape of the result of `generateNotifications` for a user that passes the first
guard: limit alerts, then the alerts of the pattern loop on the two weekly mappings, then
at most one reminder; its divisions are those of the limit alerts, then those of the loop. -/
theorem generateNotifications_shape (tz : Int) (u : User) (txs : List Transaction)
    (today : Int) (hu : u.transactions ≠ none) :
    ∃ pre post dpre,
      (generateNotifications tz (some u) txs today).out = pre ++
        ((updateSpendingPatterns tz txs today).currentWeekSpending.keys.filterMap
          (patternAlert (updateSpendingPatterns tz txs today).currentWeekSpending
            (updateSpendingPatterns tz txs today).lastWeekSpending)) ++ post ∧
      (generateNotifications tz (some u) txs today).divisions = dpre ++
        ((updateSpendingPatterns tz txs today).currentWeekSpending.keys.filterMap
          (patternDivision (updateSpendingPatterns tz txs today).currentWeekSpending
            (updateSpendingPatterns tz txs today).lastWeekSpending)) ∧
      (∀ n ∈ pre, n.messageWords = []) ∧ (∀ n ∈ post, n.messageWords = []) ∧
      (∀ e ∈ dpre, e.2.2 ≠ 0) := by
  have hnone : u.transactions.isNone = false := by
    cases h : u.transactions with
    | none => exact absurd h hu
    | some _ => rfl
  cases hs : u.settings with
  | none =>
    simp only [generateNotifications, hnone, Bool.false_eq_true, if_false, hs, patternLoop_eq,
      Option.bind_none]
    cases txs.getLast? with
    | none =>
      simp only
      exact ⟨[], [], [], by simp; rfl, by simp; rfl, by simp, by simp, by simp⟩
    | some lastTx =>
      simp only
      split
      · rename_i h
        simp at h
      · exact ⟨[], [], [], by simp; rfl, by simp; rfl, by simp, by simp, by simp⟩
  | some settings =>
    obtain ⟨d1, o1, h1, ho1, hd1⟩ := alertBlock_shape "Daily Spending Alert" "Today"
      "dailySpendingLimit" settings.dailySpendingLimit
      (calculateSpendingForPeriod tz txs today today) ⟨[], []⟩
    obtain ⟨d2, o2, h2, ho2, hd2⟩ := alertBlock_shape "Weekly Spending Alert" "This week"
      "weeklySpendingLimit" settings.weeklySpendingLimit
      (calculateSpendingForPeriod tz txs (currentWeekStart tz today) today) ⟨d1, o1⟩
    have hpre : ∀ n ∈ o1 ++ o2, n.messageWords = [] := by
      intro n hn
      rcases List.mem_append.1 hn with hn | hn
      · exact ho1 n hn
      · exact ho2 n hn
    have hdpre : ∀ e ∈ d1 ++ d2, e.2.2 ≠ 0 := by
      intro e he
      rcases List.mem_append.1 he with he | he
      · exact hd1 e he
      · exact hd2 e he
    simp only [generateNotifications, hnone, Bool.false_eq_true, if_false, hs, h1,
      List.nil_append, h2, patternLoop_eq]
    cases txs.getLast? with
    | none =>
      simp only
      exact ⟨o1 ++ o2, [], d1 ++ d2, by simp; rfl, rfl, hpre, by simp, hdpre⟩
    | some lastTx =>
      simp only
      split
      · refine ⟨o1 ++ o2, [_], d1 ++ d2, rfl, rfl, hpre, ?_, hdpre⟩
        intro n hn
        rw [List.mem_singleton.1 hn]
      · exact ⟨o1 ++ o2, [], d1 ++ d2, by simp; rfl, rfl, hpre, by simp, hdpre⟩

theorem generateNotifications_flagged (tz : Int) (u : User) (txs : List Transaction)
    (today : Int) (hu : u.transactions ≠ none) (c : String) :
    (∃ n ∈ (generateNotifications tz (some u) txs today).out, Flags n c) ↔
      ∃ n ∈ (updateSpendingPatterns tz txs today).currentWeekSpending.keys.filterMap
        (patternAlert (updateSpendingPatterns tz txs today).currentWeekSpending
          (updateSpendingPatterns tz txs today).lastWeekSpending), Flags n c := by
  obtain ⟨pre, post, dpre, hout, -, hpre, hpost, -⟩ :=
    generateNotifications_shape tz u txs today hu
  rw [hout]
  constructor
  · rintro ⟨n, hn, hf⟩
    rcases List.mem_append.1 hn with hn | hn
    · rcases List.mem_append.1 hn with hn | hn
      · obtain ⟨-, dir, hw⟩ := hf
        rw [hpre n hn] at hw
        simp at hw
      · exact ⟨n, hn, hf⟩
    · obtain ⟨-, dir, hw⟩ := hf
      rw [hpost n hn] at hw
      simp at hw
  · rintro ⟨n, hn, hf⟩
    exact ⟨n, List.mem_append_left _ (List.mem_append_right _ hn), hf⟩

theorem patternDivision_some (cur last : Dict Cell) (k : String) (e : String × ℚ × ℚ)
    (h : patternDivision cur last k = some e) :
    e.2.2 ≠ 0 ∧ last.get k = some (Cell.number e.2.2) := by
  unfold patternDivision at h
  rcases hc : cur.get k with _ | (v | ⟨m2, a2⟩)
  · simp [hc] at h
  · rcases hl : last.get k with _ | (p | ⟨m, a⟩)
    · simp [hc, hl] at h
    · rw [hc, hl] at h
      simp only at h
      by_cases hp : p = 0
      · simp [hp] at h
      · rw [if_neg hp] at h
        simp only [Option.some.injEq] at h
        subst h
        exact ⟨hp, rfl⟩
    · simp [hc, hl] at h
  · rcases hl : last.get k with _ | (p | ⟨m, a⟩) <;> simp [hc, hl] at h

theorem not_flagged_of_absent (cur last : Dict Cell) (ks : List String) (c : String)
    (hc : last.get c = none ∨ last.get c = some (Cell.number 0)) :
    ¬ ∃ n ∈ ks.filterMap (patternAlert cur last), Flags n c := by
  intro hex
  obtain ⟨n, hn, hf⟩ := hex
  obtain ⟨k, hk, hkn⟩ := List.mem_filterMap.1 hn
  obtain ⟨-, -, ⟨dir, hw⟩, v, p, -, hl, hp, -⟩ := patternAlert_some cur last k n hkn
  obtain ⟨-, dir2, hw2⟩ := hf
  rw [hw] at hw2
  have hkc : k = c := by
    simp only [List.cons.injEq, and_true] at hw2
    exact hw2.2
  subst hkc
  rcases hc with h | h
  · rw [h] at hl
    simp at hl
  · rw [h] at hl
    simp only [Option.some.injEq, Cell.number.injEq] at hl
    exact hp hl.symm

theorem truthy_plain (last : Dict Cell) (c : String) (hc : c ∉ objectPrototypeKeys) :
    (lookup last c).truthy = true ↔ ∃ v, last.get c = some v ∧ v ≠ Cell.number 0 := by
  rw [lookup_plain last c hc]
  rcases hl : last.get c with _ | (p | ⟨m, a⟩)
  · simp [Lookup.truthy]
  · simp [Lookup.truthy]
  · simp [Lookup.truthy]

/-- C15: the loop of `updatePatternAlerts` emits an alert for category `c` exactly when
`c` holds a number `v` in the current-week mapping and a number `p` in the previous-week
mapping with `|(v - p) / p * 100| > 20`, the expression being evaluated in doubles as the
script does (a flagged category has `p` different from 0; a key that holds a string gives
`NaN` and is not flagged); the same holds for the alerts that `generateNotifications`
returns once its first guard is passed; a change of exactly 20 percent (120 against 100)
is not flagged, 121 against 100 is; 3.60 against 3.00 is flagged, the doubles giving
20.000000000000004, and 3.40 against 4.25 is not, the doubles giving exactly -20. -/
theorem C15_pattern_comparator (cur last : Dict Cell) (c : String) :
    ((∃ n ∈ (patternLoop cur last cur.keys ⟨[], []⟩).out, Flags n c) ↔
      ∃ v p, cur.get c = some (Cell.number v) ∧ last.get c = some (Cell.number p) ∧
        |changePercent v p| > 20) ∧
    (∃ t, updatePatternAlerts true cur last = some t ∧
      ((∃ n ∈ t.out, Flags n c) ↔
        ∃ v p, cur.get c = some (Cell.number v) ∧ last.get c = some (Cell.number p) ∧
          |changePercent v p| > 20)) ∧
    ((∃ n ∈ (patternLoop cur last cur.keys ⟨[], []⟩).out, Flags n c) →
      ∃ p, last.get c = some (Cell.number p) ∧ p ≠ 0) ∧
    (∀ (tz : Int) (u : User) (txs : List Transaction) (today : Int),
      u.transactions ≠ none →
      ((∃ n ∈ (generateNotifications tz (some u) txs today).out, Flags n c) ↔
        ∃ v p, (updateSpendingPatterns tz txs today).currentWeekSpending.get c =
            some (Cell.number v) ∧
          (updateSpendingPatterns tz txs today).lastWeekSpending.get c =
            some (Cell.number p) ∧
          |changePercent v p| > 20)) ∧
    (∀ v p : ℚ, changePercent v p =
      roundDouble (roundDouble (roundDouble (v - p) / p) * 100)) ∧
    (patternLoop [("Food", 120)] [("Food", 100)] ["Food"] ⟨[], []⟩).out = [] ∧
    (patternLoop [("Food", 121)] [("Food", 100)] ["Food"] ⟨[], []⟩).out =
      [⟨"info", "Spending Pattern Change", [21], ["more", "Food"], "This week"⟩] ∧
    (patternLoop [("Food", Cell.number (roundDouble (36 / 10)))] [("Food", 3)] ["Food"]
        ⟨[], []⟩).out =
      [⟨"info", "Spending Pattern Change", [5629499534213121 / 281474976710656],
        ["more", "Food"], "This week"⟩] ∧
    changePercent (roundDouble (34 / 10)) (425 / 100) = -20 ∧
    (patternLoop [("Food", Cell.number (roundDouble (34 / 10)))]
        [("Food", Cell.number (425 / 100))] ["Food"] ⟨[], []⟩).out = [] := by
  have hloop : (∃ n ∈ (patternLoop cur last cur.keys ⟨[], []⟩).out, Flags n c) ↔
      ∃ v p, cur.get c = some (Cell.number v) ∧ last.get c = some (Cell.number p) ∧
        |changePercent v p| > 20 := by
    rw [patternLoop_eq]
    simp only [List.nil_append]
    exact flagged_keys_iff cur last c
  refine ⟨hloop, ⟨_, rfl, hloop⟩, ?_, ?_, fun _ _ => rfl, by decide!, by decide!, by decide!,
    by decide!, by decide!⟩
  · rintro ⟨n, hn, hf⟩
    rw [patternLoop_eq] at hn
    simp only [List.nil_append] at hn
    obtain ⟨k, -, hkn⟩ := List.mem_filterMap.1 hn
    obtain ⟨-, -, ⟨dir, hw⟩, v, p, -, hl, hp, -⟩ := patternAlert_some cur last k n hkn
    obtain ⟨-, dir2, hw2⟩ := hf
    rw [hw] at hw2
    simp only [List.cons.injEq, and_true] at hw2
    rw [← hw2.2]
    exact ⟨p, hl, hp⟩
  · intro tz u txs today hu
    rw [generateNotifications_flagged tz u txs today hu c]
    exact flagged_keys_iff _ _ c

/-- C16 (failing input): the guard `if (lastWeekSpending[category])` reads an object
literal, which inherits the members of `Object.prototype`. With one current-week outflow
of category `toString` and an empty previous week the guard holds, so the change is
computed (it is `NaN`) for a category that is absent from the previous week. For every
category that is not the name of a member of `Object.prototype` the guard holds exactly
when the previous-week mapping holds a value other than the number 0. On every pair of
mappings each division of two numbers that the loop evaluates has a denominator different
from 0 that is a previous-week total, and a category that is absent from the previous
week, or has a previous total of exactly 0, is never flagged, by `updatePatternAlerts`
and by `generateNotifications` alike. -/
theorem C16_division_guard_prototype_members :
    (getSpendingByCategory
        [{ newTransaction (nowTimestamp 0 1735718400000) "tx_a" "outflow" 50 "fee" "a@b.c" with
            category := some "toString" }] 1735689600000 1735862400000 =
        [("toString", Cell.text "toString" [50])] ∧
      Dict.get ([] : Dict Cell) "toString" = none ∧
      (lookup [] "toString").truthy = true ∧
      numericOperands (lookup [("toString", Cell.text "toString" [50])] "toString")
        (lookup [] "toString") = none ∧
      (updatePatternAlerts true [("toString", Cell.text "toString" [50])] []).map
        (fun t => (t.divisions, t.out)) = some ([], [])) ∧
    (∀ (last : Dict Cell) (c : String), c ∉ objectPrototypeKeys →
      ((lookup last c).truthy = true ↔ ∃ v, last.get c = some v ∧ v ≠ Cell.number 0)) ∧
    (∀ cur last : Dict Cell,
      (∀ e ∈ (patternLoop cur last cur.keys ⟨[], []⟩).divisions,
        e.2.2 ≠ 0 ∧ ∃ c ∈ cur.keys, last.get c = some (Cell.number e.2.2)) ∧
      (∀ c, (last.get c = none ∨ last.get c = some (Cell.number 0)) →
        ¬ ∃ n ∈ (patternLoop cur last cur.keys ⟨[], []⟩).out, Flags n c) ∧
      (∃ t, updatePatternAlerts true cur last = some t ∧
        (∀ e ∈ t.divisions, e.2.2 ≠ 0) ∧
        ∀ c, (last.get c = none ∨ last.get c = some (Cell.number 0)) →
          ¬ ∃ n ∈ t.out, Flags n c)) ∧
    (∀ (tz : Int) (user : Option User) (txs : List Transaction) (today : Int),
      (∀ e ∈ (generateNotifications tz user txs today).divisions, e.2.2 ≠ 0) ∧
      ∀ c, ((updateSpendingPatterns tz txs today).lastWeekSpending.get c = none ∨
          (updateSpendingPatterns tz txs today).lastWeekSpending.get c =
            some (Cell.number 0)) →
        ¬ ∃ n ∈ (generateNotifications tz user txs today).out, Flags n c) ∧
    ((patternLoop [("Food", 50)] [("Food", 0)] ["Food"] ⟨[], []⟩).divisions = [] ∧
      (patternLoop [("Food", 50)] [("Food", 0)] ["Food"] ⟨[], []⟩).out = [] ∧
      (patternLoop [("Food", 50)] [] ["Food"] ⟨[], []⟩).divisions = [] ∧
      (patternLoop [("Food", 50)] [] ["Food"] ⟨[], []⟩).out = [] ∧
      (patternLoop [("Food", 50)] [("Food", 100)] ["Food"] ⟨[], []⟩).divisions =
        [("lastWeekSpending[category]", -50, 100)]) := by
  have hdiv : ∀ (cur last : Dict Cell) (ks : List String),
      ∀ e ∈ ks.filterMap (patternDivision cur last),
        e.2.2 ≠ 0 ∧ ∃ c ∈ ks, last.get c = some (Cell.number e.2.2) := by
    intro cur last ks e he
    obtain ⟨k, hk, hke⟩ := List.mem_filterMap.1 he
    obtain ⟨h1, h2⟩ := patternDivision_some cur last k e hke
    exact ⟨h1, k, hk, h2⟩
  refine ⟨⟨by decide!, rfl, by decide, by decide, by decide!⟩, truthy_plain, ?_, ?_,
    by decide!, by decide!, by decide!, by decide!, by decide!⟩
  · intro cur last
    have hloop1 : ∀ e ∈ (patternLoop cur last cur.keys ⟨[], []⟩).divisions,
        e.2.2 ≠ 0 ∧ ∃ c ∈ cur.keys, last.get c = some (Cell.number e.2.2) := by
      intro e he
      rw [patternLoop_eq] at he
      simp only [List.nil_append] at he
      exact hdiv cur last cur.keys e he
    have hloop2 : ∀ c, (last.get c = none ∨ last.get c = some (Cell.number 0)) →
        ¬ ∃ n ∈ (patternLoop cur last cur.keys ⟨[], []⟩).out, Flags n c := by
      intro c hc
      rw [patternLoop_eq]
      simp only [List.nil_append]
      exact not_flagged_of_absent cur last cur.keys c hc
    exact ⟨hloop1, hloop2, ⟨_, rfl, fun e he => (hloop1 e he).1, hloop2⟩⟩
  · intro tz user txs today
    cases user with
    | none =>
      constructor
      · intro e he
        simp [generateNotifications] at he
      · intro c _ hex
        simp [generateNotifications] at hex
    | some u =>
      by_cases hu : u.transactions = none
      · constructor
        · intro e he
          simp [generateNotifications, hu] at he
        · intro c _ hex
          simp [generateNotifications, hu] at hex
      · obtain ⟨pre, post, dpre, hout, hd, hpre, hpost, hdpre⟩ :=
          generateNotifications_shape tz u txs today hu
        constructor
        · intro e he
          rw [hd] at he
          rcases List.mem_append.1 he with he | he
          · exact hdpre e he
          · exact (hdiv _ _ _ e he).1
        · intro c hc hex
          rw [generateNotifications_flagged tz u txs today hu c] at hex
          exact not_flagged_of_absent _ _ _ c hc hex

/-! ### The two last-week windows -/

theorem lastWeek_ends (tz today : Int) :
    patternsLastWeekEnd tz today + msPerDay - 1 = insightsLastWeekEnd tz today := by
  simp only [patternsLastWeekEnd, insightsLastWeekEnd, lastWeekStart, addDays, msPerDay]
  ring

/-- C17: the last-week window of `updateSavingsInsights` ends one day less one millisecond
after the last-week window of `updateSpendingPatterns` and `generateNotifications`, both
starting at the same instant; every instant after the earlier end and up to the later end
is inside the first window and outside the second; on Wednesday 2025-01-08 12:00 UTC an
outflow of 40 created on Saturday 2025-01-04 18:00 UTC is counted in `lastWeekSavings`
and is missing from `lastWeekSpending`. -/
theorem C17_last_week_windows_disagree :
    (∀ tz today : Int,
      patternsLastWeekEnd tz today + msPerDay - 1 = insightsLastWeekEnd tz today) ∧
    (∀ tz today t : Int,
      patternsLastWeekEnd tz today < t → t ≤ insightsLastWeekEnd tz today →
        (lastWeekStart tz today ≤ t ∧ t ≤ insightsLastWeekEnd tz today) ∧
        ¬ (lastWeekStart tz today ≤ t ∧ t ≤ patternsLastWeekEnd tz today)) ∧
    (∃ tz today t : Int,
      (lastWeekStart tz today ≤ t ∧ t ≤ insightsLastWeekEnd tz today) ∧
      ¬ (lastWeekStart tz today ≤ t ∧ t ≤ patternsLastWeekEnd tz today)) ∧
    (lastWeekStart 0 1736337600000 = 1735473600000 ∧
      insightsLastWeekEnd 0 1736337600000 = 1736078399999 ∧
      patternsLastWeekEnd 0 1736337600000 = 1735992000000) ∧
    (updateSavingsInsights 0 (some (newUser "a@b.c" "A" "1234"))
        [newTransaction (nowTimestamp 0 1736013600000) "tx_a" "outflow" 40 "snack" "a@b.c"]
        1736337600000).map (·.lastWeekSavings) = some (-40) ∧
    (updateSpendingPatterns 0
        [newTransaction (nowTimestamp 0 1736013600000) "tx_a" "outflow" 40 "snack" "a@b.c"]
        1736337600000).lastWeekSpending = [] ∧
    getSpendingByCategory
        [newTransaction (nowTimestamp 0 1736013600000) "tx_a" "outflow" 40 "snack" "a@b.c"]
        (lastWeekStart 0 1736337600000) (insightsLastWeekEnd 0 1736337600000) =
      [("Other", 40)] := by
  have hstart : ∀ tz today : Int, lastWeekStart tz today ≤ patternsLastWeekEnd tz today := by
    intro tz today
    simp only [patternsLastWeekEnd]
    omega
  refine ⟨lastWeek_ends, ?_, ⟨0, 1736337600000, 1736013600000, by decide⟩, by decide,
    by decide!, by decide!, by decide!⟩
  intro tz today t h1 h2
  have := hstart tz today
  exact ⟨⟨by omega, h2⟩, fun h => by omega⟩

/-! ### PIN validation -/

theorem isDigit_unit (c : Char) (h : c.isDigit = true) : c.toNat < 65536 := by
  simp only [Char.isDigit, Bool.and_eq_true, decide_eq_true_eq] at h
  have h2 : c.val.toNat ≤ 57 := by
    have := h.2
    exact UInt32.le_def.1 this
  simp only [Char.toNat]
  omega

theorem sum_units (l : List Char) (h : ∀ c ∈ l, c.isDigit = true) :
    (l.map (fun c => if c.toNat < 65536 then 1 else 2)).sum = l.length := by
  induction l with
  | nil => rfl
  | cons a l ih =>
    have ha := isDigit_unit a (h a (List.mem_cons_self a l))
    simp only [List.map_cons, List.sum_cons, List.length_cons, if_pos ha]
    rw [ih (fun c hc => h c (List.mem_cons_of_mem a hc))]
    omega

theorem utf16Length_digits (s : String) (h : ∀ c ∈ s.data, c.isDigit = true) :
    utf16Length s = s.length :=
  sum_units s.data h

theorem testDigits_iff (s : String) :
    testDigits s = true ↔ s ≠ "" ∧ ∀ c ∈ s.data, c.isDigit = true := by
  obtain ⟨l⟩ := s
  cases l with
  | nil => simp [testDigits]
  | cons a l =>
    have : (String.mk (a :: l)) ≠ "" := by
      intro h
      have := congrArg String.data h
      simp at this
    simp [testDigits, this]

theorem isValidPin_iff (pin : String) :
    isValidPin (some pin) = true ↔
      (∀ c ∈ pin.data, c.isDigit = true) ∧ 4 ≤ pin.length ∧ pin.length ≤ 12 := by
  simp only [isValidPin, Bool.and_eq_true, decide_eq_true_eq, testDigits_iff]
  constructor
  · rintro ⟨⟨⟨-, h4⟩, h12⟩, -, hd⟩
    rw [utf16Length_digits pin hd] at h4 h12
    exact ⟨hd, h4, h12⟩
  · rintro ⟨hd, h4, h12⟩
    have hne : pin ≠ "" := by
      intro h
      rw [h] at h4
      simp at h4
    rw [utf16Length_digits pin hd]
    exact ⟨⟨⟨hne, h4⟩, h12⟩, hne, hd⟩

/-- C20: for every string `pin`, `isValidPin` is truthy exactly when every character of
`pin` is one of the decimal digits `0` to `9` and the length of `pin` is from 4 to 12; the
empty string and a missing pin are rejected; the strength indicator shows 'PIN is valid'
for exactly the pins that `isValidPin` accepts. -/
theorem C20_pin_validation :
    (∀ pin : String, isValidPin (some pin) = true ↔
      (∀ c ∈ pin.data, '0' ≤ c ∧ c ≤ '9') ∧ 4 ≤ pin.length ∧ pin.length ≤ 12) ∧
    (∀ pin : String, isValidPin (some pin) = true → utf16Length pin = pin.length) ∧
    isValidPin (some "") = false ∧
    isValidPin none = false ∧
    (∀ pin : String, pinStrength pin = some ("PIN is valid", "var(--success)") ↔
      isValidPin (some pin) = true) ∧
    (isValidPin (some "1234") = true ∧ isValidPin (some "123456789012") = true ∧
      isValidPin (some "123") = false ∧ isValidPin (some "1234567890123") = false ∧
      isValidPin (some "12a4") = false ∧ isValidPin (some "12 34") = false ∧
      isValidPin (some "-1234") = false ∧ isValidPin (some "12.34") = false ∧
      isValidPin (some "١٢٣٤") = false) := by
  have hdig : ∀ c : Char, c.isDigit = true ↔ '0' ≤ c ∧ c ≤ '9' := by
    intro c
    simp only [Char.isDigit, Bool.and_eq_true, decide_eq_true_eq]
    exact Iff.rfl
  refine ⟨?_, ?_, by decide, rfl, ?_, by decide⟩
  · intro pin
    rw [isValidPin_iff]
    constructor
    · rintro ⟨hd, h⟩
      exact ⟨fun c hc => (hdig c).1 (hd c hc), h⟩
    · rintro ⟨hd, h⟩
      exact ⟨fun c hc => (hdig c).2 (hd c hc), h⟩
  · intro pin h
    exact utf16Length_digits pin ((isValidPin_iff pin).1 h).1
  · intro pin
    simp only [pinStrength, isValidPin]
    by_cases h0 : pin = ""
    · simp [h0]
    · by_cases h4 : utf16Length pin < 4
      · simp [h0, h4]
      · by_cases h12 : utf16Length pin > 12
        · simp [h0, h4, h12]
        · by_cases ht : testDigits pin = true
          · simp [h0, h4, h12, ht]
            omega
          · simp [h0, h4, h12, ht]

/-! ### Validation in `saveTransaction` -/

/-- C19: when the parsed amount is not a number or is at most 0, or the note is empty
after trimming, `saveTransaction` returns the storage it was given, in add mode and in
edit mode alike, so the stored ledger is as it was; it shows one alert of type error and
leaves the modal open with `editingId` untouched. -/
theorem C19_validation_rejects_before_mutation (tz now : Int) (random : String)
    (writeOk : Bool) (ls : LocalStorage) (editingId : Option String) (form : TxForm)
    (h : form.amount = none ∨ (∃ a, form.amount = some a ∧ a ≤ 0) ∨ trim form.note = "") :
    (saveTransaction tz now random writeOk ls editingId form).storage = ls ∧
    getTx (saveTransaction tz now random writeOk ls editingId form).storage = getTx ls ∧
    (∃ message,
      (saveTransaction tz now random writeOk ls editingId form).alerts = [(message, "error")]) ∧
    (saveTransaction tz now random writeOk ls editingId form).editingId = editingId ∧
    (saveTransaction tz now random writeOk ls editingId form).modalActive = true ∧
    (saveTransaction tz now random writeOk ls editingId form).rendered = false := by
  have key : ∃ message, saveTransaction tz now random writeOk ls editingId form =
      ⟨ls, [(message, "error")], editingId, true, false⟩ := by
    unfold saveTransaction
    cases hs : getSession ls with
    | none => exact ⟨_, rfl⟩
    | some session =>
      simp only
      cases ha : form.amount with
      | none => exact ⟨_, rfl⟩
      | some amount =>
        simp only
        by_cases hle : amount ≤ 0
        · rw [if_pos hle]
          exact ⟨_, rfl⟩
        · rw [if_neg hle]
          rcases h with h | ⟨a, h1, h2⟩ | h
          · rw [ha] at h
            cases h
          · rw [ha] at h1
            cases h1
            exact absurd h2 hle
          · rw [if_pos h]
            exact ⟨_, rfl⟩
  obtain ⟨message, hm⟩ := key
  rw [hm]
  exact ⟨rfl, rfl, ⟨message, rfl⟩, rfl, rfl, rfl⟩

theorem C19_validation_rejects_before_mutation_witness :
    ((none : Option ℚ) = none ∨ (∃ a, (none : Option ℚ) = some a ∧ a ≤ 0) ∨
        trim "lunch" = "") ∧
    ((saveTransaction 0 1736424000000 "k3x9q2a" true scenarioStorage (some "tx_a")
        ⟨"outflow", none, "lunch"⟩).storage = scenarioStorage ∧
      getTx (saveTransaction 0 1736424000000 "k3x9q2a" true scenarioStorage (some "tx_a")
        ⟨"outflow", none, "lunch"⟩).storage = getTx scenarioStorage ∧
      (∃ message,
        (saveTransaction 0 1736424000000 "k3x9q2a" true scenarioStorage (some "tx_a")
          ⟨"outflow", none, "lunch"⟩).alerts = [(message, "error")]) ∧
      (saveTransaction 0 1736424000000 "k3x9q2a" true scenarioStorage (some "tx_a")
        ⟨"outflow", none, "lunch"⟩).editingId = some "tx_a" ∧
      (saveTransaction 0 1736424000000 "k3x9q2a" true scenarioStorage (some "tx_a")
        ⟨"outflow", none, "lunch"⟩).modalActive = true ∧
      (saveTransaction 0 1736424000000 "k3x9q2a" true scenarioStorage (some "tx_a")
        ⟨"outflow", none, "lunch"⟩).rendered = false) :=
  ⟨Or.inl rfl,
    C19_validation_rejects_before_mutation 0 1736424000000 "k3x9q2a" true scenarioStorage
      (some "tx_a") ⟨"outflow", none, "lunch"⟩ (Or.inl rfl)⟩

theorem saveTransaction_scenarios :
    (getTx scenarioStorage).length = 1 ∧
    (getTx (saveTransaction 0 1736424000000 "k3x9q2a" true scenarioStorage none
      ⟨"outflow", some 25, " lunch "⟩).storage).map (fun tx => (tx.id, tx.type, tx.amount, tx.note)) =
      [("tx_a", "inflow", 100, "allowance"), ("tx_k3x9q2a", "outflow", 25, "lunch")] ∧
    (getTx (saveTransaction 0 1736424000000 "k3x9q2a" true scenarioStorage (some "tx_a")
      ⟨"outflow", some 25, " lunch "⟩).storage).map (fun tx => (tx.id, tx.type, tx.amount, tx.note)) =
      [("tx_a", "outflow", 25, "lunch")] ∧
    getTx (saveTransaction 0 1736424000000 "k3x9q2a" true scenarioStorage (some "tx_a")
      ⟨"outflow", some 0, "lunch"⟩).storage = getTx scenarioStorage ∧
    getTx (saveTransaction 0 1736424000000 "k3x9q2a" true scenarioStorage none
      ⟨"outflow", some 25, " \t\n"⟩).storage = getTx scenarioStorage := by
  refine ⟨by decide!, by decide!, by decide!, by decide!, by decide!⟩

/-! ### Export -/

theorem stamp_ofJson_toJson (s : Stamp) : Stamp.ofJson s.toJson = some s := by
  simp [Stamp.ofJson, Stamp.toJson, Json.field, Dict.get]

theorem transaction_ofJson_toJson (tx : Transaction) :
    Transaction.ofJson tx.toJson = some tx := by
  obtain ⟨id, type, amount, note, date, time, createdBy, createdAt, category, editedBy,
    editedAt⟩ := tx
  cases category <;> cases editedBy <;> cases editedAt <;>
    simp [Transaction.ofJson, Transaction.toJson, Json.field, Dict.get, optField, optRead,
      Json.asStr, Json.asNum, stamp_ofJson_toJson]

theorem readRecords_toJson (txs : List Transaction) :
    readRecords (txs.map Transaction.toJson) = some txs := by
  induction txs with
  | nil => rfl
  | cons tx txs ih =>
    simp only [List.map_cons, readRecords, transaction_ofJson_toJson, ih]

/-- C18: the object that `exportData` builds has the properties `exportedAt`, `user` and
`transactions` in this order; `transactions` is the array of the records that `getTx`
returns, one entry per record in the same order, each with all its fields (different
records have different entries); reading that array back gives the ledger again; `user`
is `null` without a session. -/
theorem C18_export_round_trip (tz now : Int) (ls : LocalStorage) :
    (exportData tz now ls).field "transactions" =
      some (Json.arr ((getTx ls).map Transaction.toJson)) ∧
    importTransactions (exportData tz now ls) = some (getTx ls) ∧
    (∀ a b : Transaction, a.toJson = b.toJson → a = b) ∧
    (∀ txs txs2 : List Transaction,
      txs.map Transaction.toJson = txs2.map Transaction.toJson → txs = txs2) ∧
    (∃ e u t, exportData tz now ls =
      Json.obj [("exportedAt", e), ("user", u), ("transactions", t)]) ∧
    (exportData tz now ls).field "exportedAt" = some (nowTimestamp tz now).toJson ∧
    (getSession ls = none → (exportData tz now ls).field "user" = some Json.null) ∧
    (∀ s, getSession ls = some s → (exportData tz now ls).field "user" =
      some (Json.obj [("email", Json.str s.email), ("name", Json.str s.name)])) := by
  have hf : (exportData tz now ls).field "transactions" =
      some (Json.arr ((getTx ls).map Transaction.toJson)) := by
    simp [exportData, Json.field, Dict.get]
  have hinj : ∀ a b : Transaction, a.toJson = b.toJson → a = b := by
    intro a b h
    have := congrArg Transaction.ofJson h
    rw [transaction_ofJson_toJson, transaction_ofJson_toJson] at this
    exact Option.some.inj this
  refine ⟨hf, ?_, hinj, ?_, ⟨_, _, _, rfl⟩, ?_, ?_, ?_⟩
  · simp only [importTransactions, hf, readRecords_toJson]
  · intro txs txs2 h
    have := congrArg readRecords h
    rw [readRecords_toJson, readRecords_toJson] at this
    exact Option.some.inj this
  · simp [exportData, Json.field, Dict.get]
  · intro h
    simp [exportData, Json.field, Dict.get, h]
  · intro s h
    simp [exportData, Json.field, Dict.get, h]







/-! ### Storage -/

theorem txKey_ne_users (e : String) : TX_KEY_PREFIX ++ e ≠ USERS_KEY := by
  intro h
  have := congrArg String.data h
  simp [TX_KEY_PREFIX, USERS_KEY] at this

theorem txKey_ne_session (e : String) : TX_KEY_PREFIX ++ e ≠ SESSION_KEY := by
  intro h
  have := congrArg String.data h
  simp [TX_KEY_PREFIX, SESSION_KEY] at this

theorem txKey_inj (a b : String) (h : TX_KEY_PREFIX ++ a = TX_KEY_PREFIX ++ b) : a = b := by
  have := congrArg String.data h
  simp only [String.data_append, List.append_cancel_left_eq] at this
  exact String.ext this

theorem users_ne_session : USERS_KEY ≠ SESSION_KEY := by decide

theorem getTxKey_eq (ls : LocalStorage) (k : String) (h : getTxKey ls = some k) :
    ∃ s, getSession ls = some s ∧ s.email ≠ "" ∧ k = TX_KEY_PREFIX ++ s.email := by
  unfold getTxKey at h
  cases hs : getSession ls with
  | none => simp [hs] at h
  | some s =>
    simp only [hs] at h
    by_cases he : s.email = ""
    · simp [he] at h
    · simp only [he, if_false, Option.some.injEq] at h
      exact ⟨s, rfl, he, h.symm⟩

theorem getSession_set (ls : LocalStorage) (k : String) (v : Stored) (hk : k ≠ SESSION_KEY) :
    getSession (ls.set k v) = getSession ls := by
  simp only [getSession, load, Dict.get_set, hk, if_false]

theorem getUsers_set (ls : LocalStorage) (k : String) (v : Stored) (hk : k ≠ USERS_KEY) :
    getUsers (ls.set k v) = getUsers ls := by
  simp only [getUsers, load, Dict.get_set, hk, if_false]

theorem getTxKey_set (ls : LocalStorage) (k : String) (v : Stored) (hk : k ≠ SESSION_KEY) :
    getTxKey (ls.set k v) = getTxKey ls := by
  simp only [getTxKey, getSession_set ls k v hk]

theorem getUsers_saveUsers (ls : LocalStorage) (u : List User) :
    getUsers (saveUsers true ls u).storage = u := by
  simp [saveUsers, save, getUsers, load, Dict.get_set]

theorem Dict.set_eq_self {α : Type} (d : Dict α) (k : String) (v : α)
    (h : d.get k = some v) : d.set k v = d := by
  induction d with
  | nil => simp [Dict.get] at h
  | cons p rest ih =>
    obtain ⟨a, b⟩ := p
    by_cases hak : a = k
    · simp only [Dict.get, hak, if_true, Option.some.injEq] at h
      simp [Dict.set, hak, h]
    · simp only [Dict.get, hak, if_false] at h
      simp [Dict.set, hak, ih h]

theorem saveTx_cases (w : Bool) (ls : LocalStorage) (arr : List Transaction) :
    ((saveTx w ls arr).ok = true ∧ w = true ∧
      (∃ k, getTxKey ls = some k ∧ (saveTx w ls arr).storage = ls.set k (Stored.ledger arr)) ∧
      (saveTx w ls arr).alerts = [] ∧
      getTx (saveTx w ls arr).storage = arr) ∨
    ((saveTx w ls arr).ok = false ∧ (saveTx w ls arr).storage = ls) := by
  unfold saveTx
  cases hk : getTxKey ls with
  | none => exact Or.inr ⟨rfl, rfl⟩
  | some k =>
    cases w with
    | false => exact Or.inr ⟨rfl, rfl⟩
    | true =>
      refine Or.inl ⟨rfl, rfl, ⟨k, rfl, rfl⟩, rfl, ?_⟩
      obtain ⟨s, -, -, hks⟩ := getTxKey_eq ls k hk
      have hne : k ≠ SESSION_KEY := by
        rw [hks]
        exact txKey_ne_session s.email
      simp only [save, if_true, getTx, getTxKey_set ls k _ hne, hk, load, Dict.get_set]

theorem saveTx_frame (w : Bool) (ls : LocalStorage) (arr : List Transaction) :
    getUsers (saveTx w ls arr).storage = getUsers ls ∧
    getSession (saveTx w ls arr).storage = getSession ls := by
  rcases saveTx_cases w ls arr with ⟨-, -, ⟨k, hk, hst⟩, -, -⟩ | ⟨-, hst⟩
  · obtain ⟨s, -, -, hks⟩ := getTxKey_eq ls k hk
    rw [hst, hks]
    exact ⟨getUsers_set ls _ _ (txKey_ne_users s.email),
      getSession_set ls _ _ (txKey_ne_session s.email)⟩
  · rw [hst]
    exact ⟨rfl, rfl⟩

theorem getTx_no_key (ls : LocalStorage) (h : getTxKey ls = none) : getTx ls = [] := by
  simp [getTx, h]

theorem getTx_saveTx_true (ls : LocalStorage) (arr : List Transaction) :
    getTx (saveTx true ls arr).storage = arr ∨
      (getTxKey ls = none ∧ (saveTx true ls arr).storage = ls) := by
  cases hk : getTxKey ls with
  | none => exact Or.inr ⟨rfl, by simp [saveTx, hk]⟩
  | some k =>
    rcases saveTx_cases true ls arr with ⟨-, -, -, -, h⟩ | ⟨h, -⟩
    · exact Or.inl h
    · simp [saveTx, hk, save] at h

/-! ### Registration -/

theorem any_email_iff (users : List User) (email : String) :
    users.any (fun u => decide (u.email = email)) = true ↔ email ∈ users.map (·.email) := by
  simp only [List.any_eq_true, decide_eq_true_eq, List.mem_map]

theorem register_cases (toLowerCase : String → String) (usersOk ledgerOk : Bool)
    (ls : LocalStorage) (form : RegisterForm) :
    ((register toLowerCase usersOk ledgerOk ls form).storage = ls ∧
      (register toLowerCase usersOk ledgerOk ls form).loginEmail = none ∧
      ∀ a ∈ (register toLowerCase usersOk ledgerOk ls form).alerts, a.2 = "error") ∨
    (toLowerCase (trim form.email) ∉ (getUsers ls).map (·.email) ∧
      isValidEmail (toLowerCase (trim form.email)) = true ∧
      isValidPin (some form.pin) = true ∧ trim form.name ≠ "" ∧ usersOk = true ∧
      (register toLowerCase usersOk ledgerOk ls form).loginEmail =
        some (toLowerCase (trim form.email)) ∧
      getUsers (register toLowerCase usersOk ledgerOk ls form).storage =
        getUsers ls ++ [newUser (toLowerCase (trim form.email)) (trim form.name) form.pin] ∧
      ("Account created successfully. You may now login.", "success") ∈
        (register toLowerCase usersOk ledgerOk ls form).alerts) := by
  unfold register
  simp only
  by_cases h1 : trim form.name = "" ∨ toLowerCase (trim form.email) = "" ∨ form.pin = ""
  · rw [if_pos h1]
    exact Or.inl ⟨rfl, rfl, by simp⟩
  · rw [if_neg h1]
    by_cases h2 : isValidEmail (toLowerCase (trim form.email)) = true
    · have e2 : ¬ ((!isValidEmail (toLowerCase (trim form.email))) = true) := by simp [h2]
      rw [if_neg e2]
      by_cases h3 : isValidPin (some form.pin) = true
      · have e3 : ¬ ((!isValidPin (some form.pin)) = true) := by simp [h3]
        rw [if_neg e3]
        by_cases h4 : (getUsers ls).any
            (fun u => decide (u.email = toLowerCase (trim form.email))) = true
        · rw [if_pos h4]
          exact Or.inl ⟨rfl, rfl, by simp⟩
        · rw [if_neg h4]
          have hnot : toLowerCase (trim form.email) ∉ (getUsers ls).map (·.email) :=
            fun h => h4 ((any_email_iff _ _).2 h)
          cases usersOk with
          | false =>
            refine Or.inl ?_
            simp [saveUsers, save]
          | true =>
            refine Or.inr ⟨hnot, h2, h3, fun h => h1 (Or.inl h), rfl, ?_, ?_, ?_⟩
            · simp [saveUsers, save]
            · cases ledgerOk with
              | false => simp [saveUsers, save, getUsers, load, Dict.get_set]
              | true =>
                simp only [saveUsers, save, if_true]
                rw [getUsers_set _ _ _ (txKey_ne_users _)]
                simp [getUsers, load, Dict.get_set]
            · simp [saveUsers, save]
      · have e3 : (!isValidPin (some form.pin)) = true := by simp [h3]
        rw [if_pos e3]
        exact Or.inl ⟨rfl, rfl, by simp⟩
    · have e2 : (!isValidEmail (toLowerCase (trim form.email))) = true := by simp [h2]
      rw [if_pos e2]
      exact Or.inl ⟨rfl, rfl, by simp⟩

/-- C21: for a stored user collection with pairwise distinct emails, the register handler
rejects an email that, trimmed and lower-cased, is already in the collection, and leaves
the storage as it was; a registration that succeeds stores the collection with exactly
one user appended, built from the normalised email with empty settings and reflections;
in every case the stored emails are still pairwise distinct. -/
theorem C21_registration_unique_emails (toLowerCase : String → String)
    (usersOk ledgerOk : Bool) (ls : LocalStorage) (form : RegisterForm)
    (hdistinct : ((getUsers ls).map (·.email)).Nodup) :
    (toLowerCase (trim form.email) ∈ (getUsers ls).map (·.email) →
      (register toLowerCase usersOk ledgerOk ls form).storage = ls ∧
      (register toLowerCase usersOk ledgerOk ls form).loginEmail = none ∧
      ∀ a ∈ (register toLowerCase usersOk ledgerOk ls form).alerts, a.2 = "error") ∧
    (getUsers (register toLowerCase usersOk ledgerOk ls form).storage = getUsers ls ∨
      getUsers (register toLowerCase usersOk ledgerOk ls form).storage =
        getUsers ls ++ [newUser (toLowerCase (trim form.email)) (trim form.name) form.pin]) ∧
    ((register toLowerCase usersOk ledgerOk ls form).loginEmail ≠ none →
      getUsers (register toLowerCase usersOk ledgerOk ls form).storage =
        getUsers ls ++ [newUser (toLowerCase (trim form.email)) (trim form.name) form.pin] ∧
      toLowerCase (trim form.email) ∉ (getUsers ls).map (·.email)) ∧
    ((newUser (toLowerCase (trim form.email)) (trim form.name) form.pin).settings = some {} ∧
      (newUser (toLowerCase (trim form.email)) (trim form.name) form.pin).reflections =
        some []) ∧
    ((getUsers (register toLowerCase usersOk ledgerOk ls form).storage).map (·.email)).Nodup := by
  rcases register_cases toLowerCase usersOk ledgerOk ls form with
    ⟨hst, hlog, hal⟩ | ⟨hnot, -, -, -, -, hlog, husers, -⟩
  · refine ⟨fun _ => ⟨hst, hlog, hal⟩, Or.inl (by rw [hst]), fun h => absurd hlog h,
      ⟨rfl, rfl⟩, ?_⟩
    rw [hst]
    exact hdistinct
  · refine ⟨fun h => absurd h hnot, Or.inr husers, fun _ => ⟨husers, hnot⟩, ⟨rfl, rfl⟩, ?_⟩
    rw [husers, List.map_append]
    refine List.Nodup.append hdistinct (List.nodup_singleton _) ?_
    intro e h1 h2
    simp only [List.map_cons, List.map_nil, List.mem_singleton] at h2
    rw [h2] at h1
    exact hnot h1

theorem C21_registration_unique_emails_witness :
    ((getUsers scenarioStorage).map (·.email)).Nodup ∧
    (register (fun s => String.mk (s.data.map Char.toLower)) true true scenarioStorage ⟨"B", " A@B.C ", "5678"⟩).storage =
      scenarioStorage ∧
    getUsers (register (fun s => String.mk (s.data.map Char.toLower)) true true scenarioStorage
        ⟨" B ", " B@B.C ", "5678"⟩).storage =
      [newUser "a@b.c" "A" "1234", newUser "b@b.c" "B" "5678"] ∧
    ((getUsers (register (fun s => String.mk (s.data.map Char.toLower)) true true scenarioStorage
        ⟨" B ", " B@B.C ", "5678"⟩).storage).map (·.email)).Nodup :=
  ⟨by decide,
    ((C21_registration_unique_emails (fun s => String.mk (s.data.map Char.toLower)) true true scenarioStorage
      ⟨"B", " A@B.C ", "5678"⟩ (by decide)).1 (by decide)).1,
    by decide,
    (C21_registration_unique_emails (fun s => String.mk (s.data.map Char.toLower)) true true scenarioStorage
      ⟨" B ", " B@B.C ", "5678"⟩ (by decide)).2.2.2.2⟩

/-! ### Deleting and editing by identifier -/

theorem deleteTx_storage (w : Bool) (ls : LocalStorage) (id : String) :
    (deleteTx true w ls id).storage =
      (saveTx w ls ((getTx ls).filter (fun x => decide (x.id ≠ id)))).storage := by
  unfold deleteTx
  simp only [Bool.not_true, Bool.false_eq_true, if_false]
  split <;> rfl

theorem filter_id_self (txs : List Transaction) (id : String)
    (h : ∀ tx ∈ txs, tx.id ≠ id) : txs.filter (fun x => decide (x.id ≠ id)) = txs := by
  rw [List.filter_eq_self]
  intro tx htx
  simpa using h tx htx

/-- C22: after a confirmed `deleteTx(id)` whose write succeeds, the ledger that `getTx`
returns is the ledger before the call without the records whose id is `id`: those records
are all gone, every other record is kept, in the original order; the user collection and
the session are untouched. An unconfirmed call and a failed write leave the storage as it
was. -/
theorem C22_delete_by_id (ls : LocalStorage) (id : String) :
    getTx (deleteTx true true ls id).storage =
      (getTx ls).filter (fun x => decide (x.id ≠ id)) ∧
    (∀ tx ∈ getTx (deleteTx true true ls id).storage, tx.id ≠ id ∧ tx ∈ getTx ls) ∧
    (∀ tx ∈ getTx ls, tx.id ≠ id → tx ∈ getTx (deleteTx true true ls id).storage) ∧
    (getTx (deleteTx true true ls id).storage).Sublist (getTx ls) ∧
    getUsers (deleteTx true true ls id).storage = getUsers ls ∧
    getSession (deleteTx true true ls id).storage = getSession ls ∧
    (∀ w, (deleteTx false w ls id).storage = ls) ∧
    (deleteTx true false ls id).storage = ls ∧
    (getTx (deleteTx true true scenarioJournal "tx_a").storage).map (fun tx => tx.id) =
      ["tx_b"] := by
  have hmain : getTx (deleteTx true true ls id).storage =
      (getTx ls).filter (fun x => decide (x.id ≠ id)) := by
    rw [deleteTx_storage]
    rcases getTx_saveTx_true ls ((getTx ls).filter (fun x => decide (x.id ≠ id))) with
      h | ⟨hk, hst⟩
    · exact h
    · rw [hst, getTx_no_key ls hk]
      rfl
  have hframe := saveTx_frame true ls ((getTx ls).filter (fun x => decide (x.id ≠ id)))
  refine ⟨hmain, ?_, ?_, ?_, ?_, ?_, ?_, ?_, by decide!⟩
  · intro tx htx
    rw [hmain, List.mem_filter] at htx
    exact ⟨by simpa using htx.2, htx.1⟩
  · intro tx htx hne
    rw [hmain, List.mem_filter]
    exact ⟨htx, by simpa using hne⟩
  · rw [hmain]
    exact List.filter_sublist _
  · rw [deleteTx_storage]
    exact hframe.1
  · rw [deleteTx_storage]
    exact hframe.2
  · intro w
    rfl
  · rw [deleteTx_storage]
    rcases saveTx_cases false ls ((getTx ls).filter (fun x => decide (x.id ≠ id))) with
      ⟨-, h, -⟩ | ⟨-, h⟩
    · cases h
    · exact h

theorem findIndex_none {α : Type} (p : α → Bool) (l : List α) (h : ∀ x ∈ l, p x = false) :
    findIndex p l = none := by
  induction l with
  | nil => rfl
  | cons a l ih =>
    have ha : p a = false := h a (List.mem_cons_self a l)
    simp only [findIndex, ha, Bool.false_eq_true, if_false,
      ih (fun x hx => h x (List.mem_cons_of_mem a hx)), Option.map_none']

theorem saveTransaction_not_found (tz now : Int) (random : String) (w : Bool)
    (ls : LocalStorage) (id : String) (form : TxForm)
    (hid : ∀ tx ∈ getTx ls, tx.id ≠ id) (hne : id ≠ "") :
    (saveTransaction tz now random w ls (some id) form).storage = ls := by
  unfold saveTransaction
  cases hs : getSession ls with
  | none => rfl
  | some session =>
    simp only
    cases ha : form.amount with
    | none => rfl
    | some amount =>
      simp only
      by_cases hle : amount ≤ 0
      · rw [if_pos hle]
      · rw [if_neg hle]
        by_cases hn : trim form.note = ""
        · rw [if_pos hn]
        · rw [if_neg hn]
          have hf : (some id).filter (fun id => decide (id ≠ "")) = some id := by
            simp [Option.filter, hne]
          have hnone : findIndex (fun x => decide (x.id = id)) (getTx ls) = none :=
            findIndex_none _ _ (fun x hx => by simpa using hid x hx)
          simp only [hf, hnone]

theorem deleteReflection_not_found (confirmed w : Bool) (ls : LocalStorage) (rid : String)
    (hrid : ∀ r ∈ currentReflections ls, r.id ≠ rid) :
    (deleteReflection confirmed w ls rid).storage = ls := by
  unfold deleteReflection
  by_cases h0 : rid = ""
  · rw [if_pos h0]
  · rw [if_neg h0]
    cases confirmed with
    | false => rfl
    | true =>
      simp only [Bool.not_true, Bool.false_eq_true, if_false]
      cases hu : getCurrentUser (getSession ls) (getUsers ls) with
      | none => rfl
      | some user =>
        simp only
        cases hr : user.reflections with
        | none => rfl
        | some reflections =>
          simp only
          have hkeep : reflections.filter (fun ref => decide (ref.id ≠ rid)) = reflections := by
            rw [List.filter_eq_self]
            intro r hrm
            have hmem : r ∈ currentReflections ls := by
              simp only [currentReflections, hu, hr, Option.getD_some]
              exact hrm
            simpa using hrid r hmem
          rw [hkeep, if_pos rfl]

/-- C23: for an id that no record of the ledger carries, a `deleteTx(id)` (confirmed or
not, written or not) leaves the ledger that `getTx` returns, the user collection and the
session as they were, and the storage itself when the ledger has been stored before; an
edit of that id through `saveTransaction`, with any form, returns the storage it was
given; and for a reflection id that no reflection of the current user carries,
`deleteReflection` returns the storage it was given. -/
theorem C23_not_found_is_noop (tz now : Int) (random : String) (confirmed w : Bool)
    (ls : LocalStorage) (id rid : String) (form : TxForm)
    (hid : ∀ tx ∈ getTx ls, tx.id ≠ id) (hne : id ≠ "")
    (hrid : ∀ r ∈ currentReflections ls, r.id ≠ rid) :
    (getTx (deleteTx confirmed w ls id).storage = getTx ls ∧
      getUsers (deleteTx confirmed w ls id).storage = getUsers ls ∧
      getSession (deleteTx confirmed w ls id).storage = getSession ls) ∧
    (∀ k, getTxKey ls = some k → load ls k = some (Stored.ledger (getTx ls)) →
      (deleteTx confirmed w ls id).storage = ls) ∧
    (saveTransaction tz now random w ls (some id) form).storage = ls ∧
    (deleteReflection confirmed w ls rid).storage = ls := by
  refine ⟨?_, ?_, saveTransaction_not_found tz now random w ls id form hid hne,
    deleteReflection_not_found confirmed w ls rid hrid⟩
  · cases confirmed with
    | false => exact ⟨rfl, rfl, rfl⟩
    | true =>
      rw [deleteTx_storage, filter_id_self _ _ hid]
      refine ⟨?_, (saveTx_frame w ls (getTx ls)).1, (saveTx_frame w ls (getTx ls)).2⟩
      rcases saveTx_cases w ls (getTx ls) with ⟨-, -, -, -, h⟩ | ⟨-, h⟩
      · exact h
      · rw [h]
  · intro k hk hload
    cases confirmed with
    | false => rfl
    | true =>
      rw [deleteTx_storage, filter_id_self _ _ hid]
      rcases saveTx_cases w ls (getTx ls) with ⟨-, -, ⟨k2, hk2, hst⟩, -, -⟩ | ⟨-, h⟩
      · rw [hst]
        rw [hk] at hk2
        cases hk2
        exact Dict.set_eq_self ls k _ hload
      · exact h

theorem C23_not_found_is_noop_witness :
    ((∀ tx ∈ getTx scenarioJournal, tx.id ≠ "tx_zzz") ∧ "tx_zzz" ≠ "" ∧
      ∀ r ∈ currentReflections scenarioJournal, r.id ≠ "ref_zzz") ∧
    (deleteTx true true scenarioJournal "tx_zzz").storage = scenarioJournal ∧
    (saveTransaction 0 1736424000000 "k3x9q2a" true scenarioJournal (some "tx_zzz")
      ⟨"outflow", some 25, "lunch"⟩).storage = scenarioJournal ∧
    (deleteReflection true true scenarioJournal "ref_zzz").storage = scenarioJournal ∧
    getUsers (deleteReflection true true scenarioJournal "ref_q7w1e5r").storage =
      [{ newUser "a@b.c" "A" "1234" with reflections := some [] }] :=
  ⟨⟨by decide, by decide, by decide⟩,
    (C23_not_found_is_noop 0 1736424000000 "k3x9q2a" true true scenarioJournal "tx_zzz" "ref_zzz"
      ⟨"outflow", some 25, "lunch"⟩ (by decide) (by decide) (by decide)).2.1
        "cms_tx_a@b.c" (by decide) (by decide),
    (C23_not_found_is_noop 0 1736424000000 "k3x9q2a" true true scenarioJournal "tx_zzz" "ref_zzz"
      ⟨"outflow", some 25, "lunch"⟩ (by decide) (by decide) (by decide)).2.2.1,
    (C23_not_found_is_noop 0 1736424000000 "k3x9q2a" true true scenarioJournal "tx_zzz" "ref_zzz"
      ⟨"outflow", some 25, "lunch"⟩ (by decide) (by decide) (by decide)).2.2.2,
    by decide⟩

theorem findIndex_some {α : Type} (p : α → Bool) (l : List α) (i : Nat)
    (h : findIndex p l = some i) :
    ∃ x, l[i]? = some x ∧ p x = true ∧ ∀ j, j < i → ∀ y, l[j]? = some y → p y = false := by
  induction l generalizing i with
  | nil => simp [findIndex] at h
  | cons a l ih =>
    by_cases ha : p a = true
    · simp only [findIndex, ha, if_true, Option.some.injEq] at h
      subst h
      exact ⟨a, by simp, ha, fun j hj => absurd hj (Nat.not_lt_zero j)⟩
    · simp only [findIndex, ha, Bool.false_eq_true, if_false, Option.map_eq_some'] at h
      obtain ⟨k, hk, hki⟩ := h
      subst hki
      obtain ⟨x, hx, hpx, hlt⟩ := ih k hk
      refine ⟨x, by simpa using hx, hpx, ?_⟩
      intro j hj y hy
      cases j with
      | zero =>
        simp only [List.getElem?_cons_zero, Option.some.injEq] at hy
        subst hy
        simpa using ha
      | succ j =>
        simp only [List.getElem?_cons_succ] at hy
        exact hlt j (by omega) y hy

theorem findIndex_isSome {α : Type} (p : α → Bool) (l : List α) (h : ∃ x ∈ l, p x = true) :
    ∃ i, findIndex p l = some i := by
  induction l with
  | nil =>
    obtain ⟨x, hx, -⟩ := h
    cases hx
  | cons a l ih =>
    by_cases ha : p a = true
    · exact ⟨0, by simp [findIndex, ha]⟩
    · obtain ⟨x, hx, hpx⟩ := h
      rcases List.mem_cons.1 hx with rfl | hx
      · exact absurd hpx ha
      · obtain ⟨i, hi⟩ := ih ⟨x, hx, hpx⟩
        exact ⟨i + 1, by simp [findIndex, ha, hi]⟩

theorem getTxKey_of_session (ls : LocalStorage) (session : Session)
    (hs : getSession ls = some session) (he : session.email ≠ "") :
    getTxKey ls = some ( TX_KEY_PREFIX ++ session.email) := by
  simp [getTxKey, hs, he]

theorem saveTx_ok (ls : LocalStorage) (session : Session) (arr : List Transaction)
    (hs : getSession ls = some session) (he : session.email ≠ "") :
    (saveTx true ls arr).ok = true ∧ (saveTx true ls arr).alerts = [] ∧
      getTx (saveTx true ls arr).storage = arr := by
  rcases saveTx_cases true ls arr with ⟨h1, -, -, h2, h3⟩ | ⟨h, -⟩
  · exact ⟨h1, h2, h3⟩
  · simp [saveTx, getTxKey_of_session ls session hs he, save] at h

theorem saveTransaction_edit (tz now : Int) (random : String) (ls : LocalStorage)
    (session : Session) (id : String) (form : TxForm) (amount : ℚ) (idx : Nat)
    (old : Transaction)
    (hs : getSession ls = some session) (he : session.email ≠ "")
    (ha : form.amount = some amount) (hpos : 0 < amount) (hnote : trim form.note ≠ "")
    (hid : id ≠ "") (hidx : findIndex (fun x => decide (x.id = id)) (getTx ls) = some idx)
    (hold : (getTx ls)[idx]? = some old) :
    saveTransaction tz now random true ls (some id) form =
      ⟨(saveTx true ls ((getTx ls).set idx (editedRecord old form.type amount
          (trim form.note) session.email (nowTimestamp tz now)))).storage,
        [("Transaction updated successfully", "success")], none, false, true⟩ := by
  have hle : ¬ amount ≤ 0 := not_le.2 hpos
  have hf : (some id).filter (fun id => decide (id ≠ "")) = some id := by
    simp [Option.filter, hid]
  obtain ⟨hok, hal, -⟩ := saveTx_ok ls session ((getTx ls).set idx (editedRecord old form.type
    amount (trim form.note) session.email (nowTimestamp tz now))) hs he
  simp only [saveTransaction, hs, ha, hle, if_false, hnote, hf, hidx, hold]
  show (⟨(saveTx true ls ((getTx ls).set idx (editedRecord old form.type amount
        (trim form.note) session.email (nowTimestamp tz now)))).storage,
      (saveTx true ls ((getTx ls).set idx (editedRecord old form.type amount
        (trim form.note) session.email (nowTimestamp tz now)))).alerts ++
      (if (saveTx true ls ((getTx ls).set idx (editedRecord old form.type amount
        (trim form.note) session.email (nowTimestamp tz now)))).ok = true then
        [("Transaction updated successfully", "success")] else []),
      none, false, true⟩ : SaveOutcome) = _
  rw [hok, hal]
  rfl

theorem map_id_set (l : List Transaction) (i : Nat) (old new : Transaction)
    (h : l[i]? = some old) (hid : new.id = old.id) :
    (l.set i new).map (·.id) = l.map (·.id) := by
  induction l generalizing i with
  | nil => rfl
  | cons a l ih =>
    cases i with
    | zero =>
      simp only [List.getElem?_cons_zero, Option.some.injEq] at h
      subst h
      simp [hid]
    | succ i =>
      simp only [List.getElem?_cons_succ] at h
      simp [ih i h]

/-- C24: with a session, a valid form and a ledger that holds a record with the edited
id, `saveTransaction` in edit mode (write succeeding) stores the ledger with the first
record of that id replaced: its type, amount and note are the submitted ones (the note
trimmed), `editedBy` is the session email and `editedAt` the current timestamp, while its
id, display date, display time, `createdBy`, `createdAt` and category are unchanged; every
other position, the length and the order of the ledger are unchanged. -/
theorem C24_edit_frame (tz now : Int) (random : String) (ls : LocalStorage)
    (session : Session) (id : String) (form : TxForm) (amount : ℚ)
    (hs : getSession ls = some session) (he : session.email ≠ "")
    (ha : form.amount = some amount) (hpos : 0 < amount) (hnote : trim form.note ≠ "")
    (hid : id ≠ "") (hmem : ∃ tx ∈ getTx ls, tx.id = id) :
    ∃ (idx : Nat) (old new : Transaction),
      (getTx ls)[idx]? = some old ∧ old.id = id ∧
      (∀ j : Nat, j < idx → ∀ y : Transaction, (getTx ls)[j]? = some y → y.id ≠ id) ∧
      (getTx (saveTransaction tz now random true ls (some id) form).storage)[idx]? = some new ∧
      (new.type = form.type ∧ new.amount = amount ∧ new.note = trim form.note ∧
        new.editedBy = some session.email ∧ new.editedAt = some (nowTimestamp tz now)) ∧
      (new.id = old.id ∧ new.date = old.date ∧ new.time = old.time ∧
        new.createdBy = old.createdBy ∧ new.createdAt = old.createdAt ∧
        new.category = old.category) ∧
      new = editedRecord old form.type amount (trim form.note) session.email
        (nowTimestamp tz now) ∧
      (∀ j : Nat, j ≠ idx →
        (getTx (saveTransaction tz now random true ls (some id) form).storage)[j]? =
          (getTx ls)[j]?) ∧
      (getTx (saveTransaction tz now random true ls (some id) form).storage).length =
        (getTx ls).length ∧
      (getTx (saveTransaction tz now random true ls (some id) form).storage).map (·.id) =
        (getTx ls).map (·.id) ∧
      (saveTransaction tz now random true ls (some id) form).alerts =
        [("Transaction updated successfully", "success")] := by
  obtain ⟨idx, hidx⟩ := findIndex_isSome (fun x => decide (x.id = id)) (getTx ls)
    (by
      obtain ⟨tx, htx, hte⟩ := hmem
      exact ⟨tx, htx, by simpa using hte⟩)
  obtain ⟨old, hold, hp, hbefore⟩ := findIndex_some _ _ _ hidx
  have hoid : old.id = id := by simpa using hp
  have hlt : idx < (getTx ls).length := by
    rcases Nat.lt_or_ge idx (getTx ls).length with h | h
    · exact h
    · rw [List.getElem?_eq_none h] at hold
      cases hold
  have hout := saveTransaction_edit tz now random ls session id form amount idx old hs he ha
    hpos hnote hid hidx hold
  have hget : getTx (saveTransaction tz now random true ls (some id) form).storage =
      (getTx ls).set idx (editedRecord old form.type amount (trim form.note) session.email
        (nowTimestamp tz now)) := by
    rw [hout]
    exact (saveTx_ok ls session _ hs he).2.2
  have hal : (saveTransaction tz now random true ls (some id) form).alerts =
      [("Transaction updated successfully", "success")] := by
    rw [hout]
  rw [hget, hal]
  refine ⟨idx, old, editedRecord old form.type amount (trim form.note) session.email
    (nowTimestamp tz now), hold, hoid, ?_, ?_, ⟨rfl, rfl, rfl, rfl, rfl⟩,
    ⟨rfl, rfl, rfl, rfl, rfl, rfl⟩, rfl, ?_, ?_, ?_, rfl⟩
  · intro j hj y hy
    simpa using hbefore j hj y hy
  · simp [List.getElem?_set, hlt]
  · intro j hj
    simp [List.getElem?_set, Ne.symm hj]
  · simp
  · exact map_id_set _ idx old _ hold rfl

theorem C24_edit_frame_witness :
    (getSession scenarioJournal = some ⟨"a@b.c", "A", 1736337600000⟩ ∧
      (0 : ℚ) < 25 ∧ trim " snack " ≠ "" ∧ ∃ tx ∈ getTx scenarioJournal, tx.id = "tx_b") ∧
    (∃ (idx : Nat) (old new : Transaction),
      (getTx scenarioJournal)[idx]? = some old ∧ old.id = "tx_b" ∧
      (∀ j : Nat, j < idx → ∀ y : Transaction, (getTx scenarioJournal)[j]? = some y → y.id ≠ "tx_b") ∧
      (getTx (saveTransaction 0 1736424000000 "k3x9q2a" true scenarioJournal (some "tx_b")
        ⟨"inflow", some 25, " snack "⟩).storage)[idx]? = some new ∧
      (new.type = "inflow" ∧ new.amount = 25 ∧ new.note = trim " snack " ∧
        new.editedBy = some "a@b.c" ∧ new.editedAt = some (nowTimestamp 0 1736424000000)) ∧
      (new.id = old.id ∧ new.date = old.date ∧ new.time = old.time ∧
        new.createdBy = old.createdBy ∧ new.createdAt = old.createdAt ∧
        new.category = old.category) ∧
      new = editedRecord old "inflow" 25 (trim " snack ") "a@b.c"
        (nowTimestamp 0 1736424000000) ∧
      (∀ j : Nat, j ≠ idx →
        (getTx (saveTransaction 0 1736424000000 "k3x9q2a" true scenarioJournal (some "tx_b")
          ⟨"inflow", some 25, " snack "⟩).storage)[j]? = (getTx scenarioJournal)[j]?) ∧
      (getTx (saveTransaction 0 1736424000000 "k3x9q2a" true scenarioJournal (some "tx_b")
        ⟨"inflow", some 25, " snack "⟩).storage).length = (getTx scenarioJournal).length ∧
      (getTx (saveTransaction 0 1736424000000 "k3x9q2a" true scenarioJournal (some "tx_b")
        ⟨"inflow", some 25, " snack "⟩).storage).map (·.id) =
        (getTx scenarioJournal).map (·.id) ∧
      (saveTransaction 0 1736424000000 "k3x9q2a" true scenarioJournal (some "tx_b")
        ⟨"inflow", some 25, " snack "⟩).alerts =
        [("Transaction updated successfully", "success")]) ∧
    (getTx (saveTransaction 0 1736424000000 "k3x9q2a" true scenarioJournal (some "tx_b")
      ⟨"inflow", some 25, " snack "⟩).storage).map
        (fun tx => (tx.id, tx.type, tx.amount, tx.note)) =
      [("tx_a", "inflow", 100, "allowance"), ("tx_b", "inflow", 25, "snack")] :=
  ⟨⟨by decide, by norm_num, by decide, by decide⟩,
    C24_edit_frame 0 1736424000000 "k3x9q2a" scenarioJournal ⟨"a@b.c", "A", 1736337600000⟩
      "tx_b" ⟨"inflow", some 25, " snack "⟩ 25 (by decide) (by decide) rfl (by norm_num)
      (by decide) (by decide) (by decide),
    by decide!⟩

/-! ### Ledger invariants -/

theorem saveTransaction_ledger (tz now : Int) (random : String) (w : Bool)
    (ls : LocalStorage) (editingId : Option String) (form : TxForm) :
    getTx (saveTransaction tz now random w ls editingId form).storage = getTx ls ∨
    (∃ amount session, form.amount = some amount ∧ 0 < amount ∧
      getSession ls = some session ∧
      editingId.filter (fun id => decide (id ≠ "")) = none ∧
      getTx (saveTransaction tz now random w ls editingId form).storage =
        getTx ls ++ [newTransaction (nowTimestamp tz now) (uid "tx_" random) form.type amount
          (trim form.note) session.email]) ∨
    (∃ amount session id idx old, form.amount = some amount ∧ 0 < amount ∧
      getSession ls = some session ∧
      editingId.filter (fun id => decide (id ≠ "")) = some id ∧
      (getTx ls)[idx]? = some old ∧ old.id = id ∧
      getTx (saveTransaction tz now random w ls editingId form).storage =
        (getTx ls).set idx (editedRecord old form.type amount (trim form.note) session.email
          (nowTimestamp tz now))) := by
  unfold saveTransaction
  cases hs : getSession ls with
  | none => exact Or.inl rfl
  | some session =>
    simp only
    cases ha : form.amount with
    | none => exact Or.inl rfl
    | some amount =>
      simp only
      by_cases hle : amount ≤ 0
      · rw [if_pos hle]
        exact Or.inl rfl
      · rw [if_neg hle]
        have hpos : 0 < amount := not_le.1 hle
        by_cases hn : trim form.note = ""
        · rw [if_pos hn]
          exact Or.inl rfl
        · rw [if_neg hn]
          cases hf : editingId.filter (fun id => decide (id ≠ "")) with
          | none =>
            simp only
            rcases saveTx_cases w ls (getTx ls ++ [newTransaction (nowTimestamp tz now)
              (uid "tx_" random) form.type amount (trim form.note) session.email]) with
              ⟨-, -, -, -, h⟩ | ⟨-, h⟩
            · exact Or.inr (Or.inl ⟨amount, session, rfl, hpos, rfl, trivial, h⟩)
            · refine Or.inl ?_
              rw [h]
          | some id =>
            simp only
            cases hi : findIndex (fun x => decide (x.id = id)) (getTx ls) with
            | none => exact Or.inl rfl
            | some idx =>
              obtain ⟨old, hold, hp, -⟩ := findIndex_some _ _ _ hi
              simp only [hold]
              rcases saveTx_cases w ls ((getTx ls).set idx (editedRecord old form.type amount
                (trim form.note) session.email (nowTimestamp tz now))) with
                ⟨-, -, -, -, h⟩ | ⟨-, h⟩
              · exact Or.inr (Or.inr ⟨amount, session, id, idx, old, rfl, hpos, rfl, rfl, hold,
                  by simpa using hp, h⟩)
              · refine Or.inl ?_
                show getTx (saveTx w ls ((getTx ls).set idx (editedRecord old form.type amount
                  (trim form.note) session.email (nowTimestamp tz now)))).storage = _
                rw [h]

theorem deleteTx_ledger (confirmed w : Bool) (ls : LocalStorage) (id : String) :
    getTx (deleteTx confirmed w ls id).storage = getTx ls ∨
      getTx (deleteTx confirmed w ls id).storage =
        (getTx ls).filter (fun x => decide (x.id ≠ id)) := by
  cases confirmed with
  | false => exact Or.inl rfl
  | true =>
    rw [deleteTx_storage]
    rcases saveTx_cases w ls ((getTx ls).filter (fun x => decide (x.id ≠ id))) with
      ⟨-, -, -, -, h⟩ | ⟨-, h⟩
    · exact Or.inr h
    · rw [h]
      exact Or.inl rfl

/-- C25: when every record of the stored ledger has a positive amount, every record of the
ledger stored after a call of `saveTransaction` (add or edit, any form, accepted or
rejected, written or not) and after a call of `deleteTx` (confirmed or not) still has a
positive amount. -/
theorem C25_amount_invariant (tz now : Int) (random : String) (confirmed w : Bool)
    (ls : LocalStorage) (editingId : Option String) (form : TxForm) (id : String)
    (hpos : ∀ tx ∈ getTx ls, 0 < tx.amount) :
    (∀ tx ∈ getTx (saveTransaction tz now random w ls editingId form).storage, 0 < tx.amount) ∧
    (∀ tx ∈ getTx (deleteTx confirmed w ls id).storage, 0 < tx.amount) := by
  constructor
  · rcases saveTransaction_ledger tz now random w ls editingId form with
      h | ⟨amount, session, -, ha, -, -, h⟩ | ⟨amount, session, id2, idx, old, -, ha, -, -, -, -, h⟩
    · rw [h]
      exact hpos
    · rw [h]
      intro tx htx
      rcases List.mem_append.1 htx with htx | htx
      · exact hpos tx htx
      · rw [List.mem_singleton] at htx
        rw [htx]
        exact ha
    · rw [h]
      intro tx htx
      rcases List.mem_or_eq_of_mem_set htx with htx | htx
      · exact hpos tx htx
      · rw [htx]
        exact ha
  · rcases deleteTx_ledger confirmed w ls id with h | h
    · rw [h]
      exact hpos
    · rw [h]
      intro tx htx
      exact hpos tx (List.mem_filter.1 htx).1

theorem C25_amount_invariant_witness :
    (∀ tx ∈ getTx scenarioJournal, 0 < tx.amount) ∧
    (∀ tx ∈ getTx (saveTransaction 0 1736424000000 "k3x9q2a" true scenarioJournal none
      ⟨"outflow", some 25, "lunch"⟩).storage, 0 < tx.amount) ∧
    (∀ tx ∈ getTx (deleteTx true true scenarioJournal "tx_a").storage, 0 < tx.amount) ∧
    (getTx (saveTransaction 0 1736424000000 "k3x9q2a" true scenarioJournal none
      ⟨"outflow", some 25, "lunch"⟩).storage).map (·.amount) = [100, 30, 25] ∧
    (getTx (saveTransaction 0 1736424000000 "k3x9q2a" true scenarioJournal none
      ⟨"outflow", some (-25), "lunch"⟩).storage).map (·.amount) = [100, 30] :=
  ⟨by decide!,
    (C25_amount_invariant 0 1736424000000 "k3x9q2a" true true scenarioJournal none
      ⟨"outflow", some 25, "lunch"⟩ "tx_a" (by decide!)).1,
    (C25_amount_invariant 0 1736424000000 "k3x9q2a" true true scenarioJournal none
      ⟨"outflow", some 25, "lunch"⟩ "tx_a" (by decide!)).2,
    by decide!, by decide!⟩

/-- C26 (counterexample): `uid` draws its suffix at random and `saveTransaction` does not
compare the new id with the stored ones; when two additions receive the same value from
`uid`, the ledger, whose ids were pairwise distinct, holds the id `tx_k3x9q2a` twice. -/
theorem C26_uid_collision :
    ((getTx (saveTransaction 0 1736424000000 "k3x9q2a" true scenarioJournal none
        ⟨"outflow", some 25, "lunch"⟩).storage).map (·.id)).Nodup ∧
    (getTx (saveTransaction 0 1736427600000 "k3x9q2a" true
        (saveTransaction 0 1736424000000 "k3x9q2a" true scenarioJournal none
          ⟨"outflow", some 25, "lunch"⟩).storage none
        ⟨"outflow", some 40, "books"⟩).storage).map (·.id) =
      ["tx_a", "tx_b", "tx_k3x9q2a", "tx_k3x9q2a"] ∧
    ¬ ((getTx (saveTransaction 0 1736427600000 "k3x9q2a" true
        (saveTransaction 0 1736424000000 "k3x9q2a" true scenarioJournal none
          ⟨"outflow", some 25, "lunch"⟩).storage none
        ⟨"outflow", some 40, "books"⟩).storage).map (·.id)).Nodup := by
  refine ⟨by decide!, by decide!, by decide!⟩

/-- C26 (amended): when the ids of the stored ledger are pairwise distinct, they are still
pairwise distinct after `saveTransaction` in edit mode, after `saveTransaction` in add mode
provided the value that `uid` returns is not the id of a stored record, and after
`deleteTx`. -/
theorem C26_ids_distinct_without_collision (tz now : Int) (random : String)
    (confirmed w : Bool) (ls : LocalStorage) (editingId : Option String) (form : TxForm)
    (id : String)
    (hdistinct : ((getTx ls).map (·.id)).Nodup) :
    ((editingId.filter (fun id => decide (id ≠ "")) ≠ none ∨
        uid "tx_" random ∉ (getTx ls).map (·.id)) →
      ((getTx (saveTransaction tz now random w ls editingId form).storage).map (·.id)).Nodup) ∧
    ((getTx (deleteTx confirmed w ls id).storage).map (·.id)).Nodup := by
  constructor
  · intro hcase
    rcases saveTransaction_ledger tz now random w ls editingId form with
      h | ⟨amount, session, -, -, -, hadd, h⟩ |
      ⟨amount, session, id2, idx, old, -, -, -, -, hold, -, h⟩
    · rw [h]
      exact hdistinct
    · rw [h, List.map_append]
      have hnew : uid "tx_" random ∉ (getTx ls).map (·.id) := by
        rcases hcase with hc | hc
        · exact absurd hadd hc
        · exact hc
      refine List.Nodup.append hdistinct (List.nodup_singleton _) ?_
      intro e h1 h2
      simp only [List.map_cons, List.map_nil, List.mem_singleton] at h2
      rw [h2] at h1
      exact hnew h1
    · rw [h, map_id_set (getTx ls) idx old (editedRecord old form.type amount (trim form.note)
        session.email (nowTimestamp tz now)) hold rfl]
      exact hdistinct
  · rcases deleteTx_ledger confirmed w ls id with h | h
    · rw [h]
      exact hdistinct
    · rw [h]
      exact List.Nodup.sublist (List.Sublist.map _ (List.filter_sublist _)) hdistinct

theorem C26_ids_distinct_without_collision_witness :
    (((getTx scenarioJournal).map (·.id)).Nodup ∧
      uid "tx_" "k3x9q2a" ∉ (getTx scenarioJournal).map (·.id)) ∧
    ((getTx (saveTransaction 0 1736424000000 "k3x9q2a" true scenarioJournal none
      ⟨"outflow", some 25, "lunch"⟩).storage).map (·.id)).Nodup ∧
    ((getTx (deleteTx true true scenarioJournal "tx_a").storage).map (·.id)).Nodup ∧
    (getTx (saveTransaction 0 1736424000000 "k3x9q2a" true scenarioJournal none
      ⟨"outflow", some 25, "lunch"⟩).storage).map (·.id) = ["tx_a", "tx_b", "tx_k3x9q2a"] :=
  ⟨⟨by decide, by decide⟩,
    (C26_ids_distinct_without_collision 0 1736424000000 "k3x9q2a" true true scenarioJournal
      none ⟨"outflow", some 25, "lunch"⟩ "tx_a" (by decide)).1 (Or.inr (by decide)),
    (C26_ids_distinct_without_collision 0 1736424000000 "k3x9q2a" true true scenarioJournal
      none ⟨"outflow", some 25, "lunch"⟩ "tx_a" (by decide)).2,
    by decide!⟩

/-! ### Ledgers per user -/

theorem getTx_setSession (ls ls2 : LocalStorage) (s : Session)
    (h : s.email ≠ "" → load ls ( TX_KEY_PREFIX ++ s.email) = load ls2 ( TX_KEY_PREFIX ++ s.email)) :
    getTx (setSession true ls s).storage = getTx (setSession true ls2 s).storage := by
  have hs : ∀ l : LocalStorage, getSession (l.set SESSION_KEY (Stored.session s)) = some s := by
    intro l
    simp [getSession, load, Dict.get_set]
  by_cases he : s.email = ""
  · simp [setSession, save, getTx, getTxKey, hs, he]
  · have hk : ¬ SESSION_KEY = TX_KEY_PREFIX ++ s.email := fun h => txKey_ne_session s.email h.symm
    have hl := h he
    simp only [load] at hl
    simp only [setSession, save, if_true, getTx, getTxKey, hs, he, if_false, load, Dict.get_set,
      hk, hl]

/-- C27: for two sessions with different emails the ledger keys of `getTxKey` differ, and
no ledger key is the users key or the session key; a ledger saved under one session
(written or not) leaves the ledger that `getTx` returns under the other session, and the
user collection, as they were; without a session `getTx` returns the empty list and
`saveTx` stores nothing. -/
theorem C27_ledgers_partitioned (ls : LocalStorage) (a b : Session) (arr : List Transaction)
    (w : Bool) (hne : a.email ≠ b.email) :
    (∀ k1 k2, getTxKey (setSession true ls a).storage = some k1 →
      getTxKey (setSession true ls b).storage = some k2 → k1 ≠ k2) ∧
    (∀ k, getTxKey (setSession true ls a).storage = some k → k ≠ USERS_KEY ∧ k ≠ SESSION_KEY) ∧
    getTx (setSession true (saveTx w (setSession true ls a).storage arr).storage b).storage =
      getTx (setSession true ls b).storage ∧
    getUsers (saveTx w (setSession true ls a).storage arr).storage = getUsers ls ∧
    (a.email ≠ "" → getTx (saveTx true (setSession true ls a).storage arr).storage = arr) ∧
    (getSession ls = none →
      getTx ls = [] ∧ (saveTx w ls arr).storage = ls ∧ (saveTx w ls arr).ok = false) := by
  have hsa : getSession (setSession true ls a).storage = some a := by
    simp [setSession, save, getSession, load, Dict.get_set]
  have hsb : getSession (setSession true ls b).storage = some b := by
    simp [setSession, save, getSession, load, Dict.get_set]
  refine ⟨?_, ?_, ?_, ?_, ?_, ?_⟩
  · intro k1 k2 h1 h2 h12
    obtain ⟨s1, hs1, -, hk1⟩ := getTxKey_eq _ k1 h1
    obtain ⟨s2, hs2, -, hk2⟩ := getTxKey_eq _ k2 h2
    rw [hsa] at hs1
    rw [hsb] at hs2
    cases hs1
    cases hs2
    rw [hk1, hk2] at h12
    exact hne (txKey_inj _ _ h12)
  · intro k h
    obtain ⟨s1, -, -, hk1⟩ := getTxKey_eq _ k h
    rw [hk1]
    exact ⟨txKey_ne_users _, txKey_ne_session _⟩
  · apply getTx_setSession
    intro hb
    have hsk : ¬ SESSION_KEY = TX_KEY_PREFIX ++ b.email :=
      fun h => txKey_ne_session b.email h.symm
    rcases saveTx_cases w (setSession true ls a).storage arr with
      ⟨-, -, ⟨k, hk, hst⟩, -, -⟩ | ⟨-, hst⟩
    · obtain ⟨s1, hs1, -, hk1⟩ := getTxKey_eq _ k hk
      rw [hsa] at hs1
      cases hs1
      have hkk : ¬ k = TX_KEY_PREFIX ++ b.email := by
        rw [hk1]
        exact fun h => hne (txKey_inj _ _ h)
      rw [hst]
      simp only [load, Dict.get_set, hkk, if_false, setSession, save, if_true, hsk]
    · rw [hst]
      simp only [load, Dict.get_set, if_false, setSession, save, if_true, hsk]
  · rw [(saveTx_frame w _ arr).1]
    exact getUsers_set ls _ _ (fun h => users_ne_session h.symm)
  · intro ha
    exact (saveTx_ok _ a arr hsa ha).2.2
  · intro hnone
    have hk : getTxKey ls = none := by simp [getTxKey, hnone]
    exact ⟨getTx_no_key ls hk, by simp [saveTx, hk], by simp [saveTx, hk]⟩

theorem C27_ledgers_partitioned_witness :
    ("b@b.c" ≠ "a@b.c") ∧
    getTx (setSession true (saveTx true (setSession true scenarioJournal
        ⟨"b@b.c", "B", 1736424000000⟩).storage
        [newTransaction (nowTimestamp 0 1736424000000) "tx_c" "outflow" 5 "tea" "b@b.c"]).storage
        ⟨"a@b.c", "A", 1736427600000⟩).storage =
      getTx (setSession true scenarioJournal ⟨"a@b.c", "A", 1736427600000⟩).storage ∧
    (getTx (setSession true scenarioJournal ⟨"a@b.c", "A", 1736427600000⟩).storage).map
      (·.id) = ["tx_a", "tx_b"] ∧
    (getTx (saveTx true (setSession true scenarioJournal
        ⟨"b@b.c", "B", 1736424000000⟩).storage
        [newTransaction (nowTimestamp 0 1736424000000) "tx_c" "outflow" 5 "tea"
          "b@b.c"]).storage).map (·.id) = ["tx_c"] :=
  ⟨by decide,
    (C27_ledgers_partitioned scenarioJournal ⟨"b@b.c", "B", 1736424000000⟩
      ⟨"a@b.c", "A", 1736427600000⟩
      [newTransaction (nowTimestamp 0 1736424000000) "tx_c" "outflow" 5 "tea" "b@b.c"] true
      (by decide)).2.2.1,
    by decide, by decide⟩

/-! ### Statistics and the list filters -/

/-- C28: the four numbers that `loadAndRender` shows through `updateStatistics` are the
same for every view type and every search query, and for every list passed as the
argument of `updateStatistics`: they are the totals of the ledger records inside the
period. With the view set to inflow the filtered list of the scenario ledger holds one
record while the statistics still count three. -/
theorem C28_statistics_ignore_view_and_search (searchHit : String → Transaction → Bool)
    (txs : List Transaction) (start stop : Option Int) (viewType searchQuery : String)
    (viewType2 searchQuery2 : String) (arg : List Transaction) :
    loadAndRenderStatistics searchHit txs start stop viewType searchQuery =
      loadAndRenderStatistics searchHit txs start stop viewType2 searchQuery2 ∧
    loadAndRenderStatistics searchHit txs start stop viewType searchQuery =
      updateStatistics txs start stop arg ∧
    (loadAndRenderStatistics searchHit txs start stop viewType searchQuery).count =
      (periodTransactions start stop txs).length ∧
    (loadAndRenderStatistics searchHit txs start stop viewType searchQuery).inflow =
      (((periodTransactions start stop txs).filter
        (fun tx => decide (tx.type = "inflow"))).map (·.amount)).sum ∧
    (loadAndRenderStatistics searchHit txs start stop viewType searchQuery).outflow =
      (((periodTransactions start stop txs).filter
        (fun tx => !decide (tx.type = "inflow"))).map (·.amount)).sum ∧
    (loadAndRenderStatistics searchHit txs start stop viewType searchQuery).savings =
      (loadAndRenderStatistics searchHit txs start stop viewType searchQuery).inflow -
        (loadAndRenderStatistics searchHit txs start stop viewType searchQuery).outflow ∧
    ((loadAndRenderFiltered (fun _ _ => false) none none "inflow" "" scenarioLedger).length = 1 ∧
      (loadAndRenderFiltered (fun _ _ => false) none none "all" "zzz" scenarioLedger).length = 0 ∧
      loadAndRenderStatistics (fun _ _ => false) scenarioLedger none none "inflow" "" =
        { inflow := 100, outflow := 50, savings := 50, count := 3 } ∧
      loadAndRenderStatistics (fun _ _ => false) scenarioLedger none none "all" "zzz" =
        { inflow := 100, outflow := 50, savings := 50, count := 3 }) := by
  refine ⟨rfl, rfl, ?_, ?_, ?_, rfl, by decide, by decide, by decide!, by decide!⟩
  · simp [loadAndRenderStatistics, updateStatistics, reduceStats, foldl_statsStep]
  · simp [loadAndRenderStatistics, updateStatistics, reduceStats, foldl_statsStep]
  · simp [loadAndRenderStatistics, updateStatistics, reduceStats, foldl_statsStep]

/-! ### Weekly and daily spend -/

theorem calculateSpendingForPeriod_range (tz : Int) (txs : List Transaction) (s e : Int)
    (h : localDay tz s ≠ localDay tz e) :
    calculateSpendingForPeriod tz txs s e =
      ((txs.filter (fun tx => decide (tx.type = "outflow" ∧
        s ≤ tx.createdAt.iso ∧ tx.createdAt.iso ≤ e))).map (·.amount)).sum := by
  have hsame : sameDateString tz s e = false := by simp [sameDateString, h]
  have hstep : (fun (spending : ℚ) (tx : Transaction) =>
      if tx.type = "outflow" then
        if sameDateString tz s e = true then
          if sameDateString tz tx.createdAt.iso s = true then spending + tx.amount
          else spending
        else if s ≤ tx.createdAt.iso ∧ tx.createdAt.iso ≤ e then spending + tx.amount
        else spending
      else spending) =
      (fun spending tx => if (decide (tx.type = "outflow" ∧
        s ≤ tx.createdAt.iso ∧ tx.createdAt.iso ≤ e)) = true then spending + tx.amount
        else spending) := by
    funext spending tx
    by_cases h1 : tx.type = "outflow"
    · by_cases h2 : s ≤ tx.createdAt.iso ∧ tx.createdAt.iso ≤ e
      · simp [hsame, h1, h2]
      · simp only [hsame, h1, if_true, Bool.false_eq_true, if_false, h2, true_and,
          decide_False]
    · simp [h1]
  unfold calculateSpendingForPeriod
  simp only [hstep]
  rw [foldl_add_filter]
  simp

theorem sum_filter_mono (p q : Transaction → Bool) (txs : List Transaction)
    (hpq : ∀ tx ∈ txs, p tx = true → q tx = true) (hpos : ∀ tx ∈ txs, 0 ≤ tx.amount) :
    ((txs.filter p).map (·.amount)).sum ≤ ((txs.filter q).map (·.amount)).sum := by
  induction txs with
  | nil => simp
  | cons tx rest ih =>
    have ih2 := ih (fun t ht => hpq t (List.mem_cons_of_mem tx ht))
      (fun t ht => hpos t (List.mem_cons_of_mem tx ht))
    have h0 := hpos tx (List.mem_cons_self tx rest)
    by_cases hp : p tx = true
    · have hq := hpq tx (List.mem_cons_self tx rest) hp
      simp only [List.filter_cons, hp, hq, if_true, List.map_cons, List.sum_cons]
      linarith
    · by_cases hq : q tx = true
      · simp only [List.filter_cons, hp, hq, if_true, Bool.false_eq_true, if_false,
          List.map_cons, List.sum_cons]
        linarith
      · simp only [List.filter_cons, hp, hq, Bool.false_eq_true, if_false]
        exact ih2

theorem getDay_range (tz today : Int) : 0 ≤ getDay tz today ∧ getDay tz today < 7 := by
  unfold getDay
  omega

/-- C29: for a ledger with positive amounts whose records were not created after the
current instant, the weekly spend `calculateSpendingForPeriod(txs, currentWeekStart,
today)` is at least the daily spend `calculateSpendingForPeriod(txs, today, today)`; on a
Sunday `currentWeekStart` is `today` and the two are equal. -/
theorem C29_weekly_dominates_daily (tz : Int) (txs : List Transaction) (today : Int)
    (hpos : ∀ tx ∈ txs, 0 < tx.amount) (hpast : ∀ tx ∈ txs, tx.createdAt.iso ≤ today) :
    calculateSpendingForPeriod tz txs today today ≤
      calculateSpendingForPeriod tz txs (currentWeekStart tz today) today ∧
    (getDay tz today = 0 →
      currentWeekStart tz today = today ∧
      calculateSpendingForPeriod tz txs (currentWeekStart tz today) today =
        calculateSpendingForPeriod tz txs today today) := by
  have hsun : getDay tz today = 0 → currentWeekStart tz today = today := by
    intro h
    simp [currentWeekStart, addDays, h]
  refine ⟨?_, fun h => ⟨hsun h, by rw [hsun h]⟩⟩
  by_cases h0 : getDay tz today = 0
  · rw [hsun h0]
  · obtain ⟨hge, hlt⟩ := getDay_range tz today
    have hk : 1 ≤ getDay tz today := by omega
    have hcws : currentWeekStart tz today = today - getDay tz today * 86400000 := by
      simp only [currentWeekStart, addDays, msPerDay]
      ring
    have hday : localDay tz (currentWeekStart tz today) = localDay tz today - getDay tz today := by
      rw [hcws]
      simp only [localDay, msPerDay]
      have : today - getDay tz today * 86400000 + tz =
          (today + tz) + (-(getDay tz today)) * 86400000 := by ring
      rw [this, Int.add_mul_ediv_right _ _ (by norm_num)]
      ring
    have hne : localDay tz (currentWeekStart tz today) ≠ localDay tz today := by
      rw [hday]
      omega
    rw [calculateSpendingForPeriod_sameDay, calculateSpendingForPeriod_range _ _ _ _ hne]
    apply sum_filter_mono
    · intro tx htx hp
      simp only [decide_eq_true_eq] at hp ⊢
      obtain ⟨hout, hloc⟩ := hp
      refine ⟨hout, ?_, hpast tx htx⟩
      rw [hcws]
      simp only [localDay, msPerDay] at hloc
      generalize getDay tz today = k at hk
      omega
    · intro tx htx
      exact le_of_lt (hpos tx htx)

theorem C29_weekly_dominates_daily_witness :
    ((∀ tx ∈ [newTransaction (nowTimestamp 0 1736330400000) "tx_a" "outflow" 30 "lunch" "a@b.c",
          newTransaction (nowTimestamp 0 1736157600000) "tx_b" "outflow" 20 "bus" "a@b.c"],
        0 < tx.amount) ∧
      ∀ tx ∈ [newTransaction (nowTimestamp 0 1736330400000) "tx_a" "outflow" 30 "lunch" "a@b.c",
          newTransaction (nowTimestamp 0 1736157600000) "tx_b" "outflow" 20 "bus" "a@b.c"],
        tx.createdAt.iso ≤ 1736337600000) ∧
    calculateSpendingForPeriod 0
        [newTransaction (nowTimestamp 0 1736330400000) "tx_a" "outflow" 30 "lunch" "a@b.c",
         newTransaction (nowTimestamp 0 1736157600000) "tx_b" "outflow" 20 "bus" "a@b.c"]
        1736337600000 1736337600000 ≤
      calculateSpendingForPeriod 0
        [newTransaction (nowTimestamp 0 1736330400000) "tx_a" "outflow" 30 "lunch" "a@b.c",
         newTransaction (nowTimestamp 0 1736157600000) "tx_b" "outflow" 20 "bus" "a@b.c"]
        (currentWeekStart 0 1736337600000) 1736337600000 ∧
    (calculateSpendingForPeriod 0
        [newTransaction (nowTimestamp 0 1736330400000) "tx_a" "outflow" 30 "lunch" "a@b.c",
         newTransaction (nowTimestamp 0 1736157600000) "tx_b" "outflow" 20 "bus" "a@b.c"]
        1736337600000 1736337600000 = 30 ∧
      calculateSpendingForPeriod 0
        [newTransaction (nowTimestamp 0 1736330400000) "tx_a" "outflow" 30 "lunch" "a@b.c",
         newTransaction (nowTimestamp 0 1736157600000) "tx_b" "outflow" 20 "bus" "a@b.c"]
        (currentWeekStart 0 1736337600000) 1736337600000 = 50) :=
  ⟨⟨by decide!, by decide⟩,
    (C29_weekly_dominates_daily 0 _ 1736337600000 (by decide!) (by decide)).1,
    by decide!, by decide!⟩

/-! ### Email validation -/

theorem rmatch_plain (x : List EmailChar) :
    (RegularExpression.char EmailChar.dot + RegularExpression.char EmailChar.other).rmatch x =
      true ↔ x = [EmailChar.dot] ∨ x = [EmailChar.other] := by
  rw [RegularExpression.add_rmatch_iff, RegularExpression.char_rmatch_iff,
    RegularExpression.char_rmatch_iff]

theorem flatten_singletons {α : Type} (l : List α) : (l.map (fun c => [c])).flatten = l := by
  induction l with
  | nil => rfl
  | cons a l ih => simp [ih]

theorem rmatch_emailPart (x : List EmailChar) :
    emailPart.rmatch x = true ↔
      x ≠ [] ∧ ∀ t ∈ x, t = EmailChar.dot ∨ t = EmailChar.other := by
  unfold emailPart
  rw [RegularExpression.mul_rmatch_iff]
  constructor
  · rintro ⟨t, u, hx, ht, hu⟩
    rw [rmatch_plain] at ht
    rw [RegularExpression.star_rmatch_iff] at hu
    obtain ⟨S, hS, hall⟩ := hu
    have hu2 : ∀ e ∈ u, e = EmailChar.dot ∨ e = EmailChar.other := by
      intro e he
      rw [hS, List.mem_flatten] at he
      obtain ⟨l, hl, hel⟩ := he
      have := (rmatch_plain l).1 (hall l hl).2
      rcases this with h | h <;> rw [h] at hel <;> simp at hel
      · exact Or.inl hel
      · exact Or.inr hel
    constructor
    · rcases ht with h | h <;> rw [hx, h] <;> simp
    · intro e he
      rw [hx] at he
      rcases List.mem_append.1 he with he | he
      · rcases ht with h | h <;> rw [h] at he <;> simp at he
        · exact Or.inl he
        · exact Or.inr he
      · exact hu2 e he
  · rintro ⟨hne, hall⟩
    cases x with
    | nil => exact absurd rfl hne
    | cons a rest =>
      refine ⟨[a], rest, rfl, ?_, ?_⟩
      · rw [rmatch_plain]
        rcases hall a (List.mem_cons_self a rest) with h | h
        · exact Or.inl (by rw [h])
        · exact Or.inr (by rw [h])
      · rw [RegularExpression.star_rmatch_iff]
        refine ⟨rest.map (fun c => [c]), (flatten_singletons rest).symm, ?_⟩
        intro t ht
        obtain ⟨c, hc, rfl⟩ := List.mem_map.1 ht
        refine ⟨by simp, ?_⟩
        rw [rmatch_plain]
        rcases hall c (List.mem_cons_of_mem a hc) with h | h
        · exact Or.inl (by rw [h])
        · exact Or.inr (by rw [h])

theorem rmatch_emailPattern (x : List EmailChar) :
    emailPattern.rmatch x = true ↔
      ∃ a b c, x = a ++ EmailChar.at :: (b ++ EmailChar.dot :: c) ∧
        emailPart.rmatch a = true ∧ emailPart.rmatch b = true ∧ emailPart.rmatch c = true := by
  unfold emailPattern
  constructor
  · intro h
    obtain ⟨a, r1, h1, ha, h⟩ := (RegularExpression.mul_rmatch_iff _ _ _).1 h
    obtain ⟨t1, r2, h2, ht1, h⟩ := (RegularExpression.mul_rmatch_iff _ _ _).1 h
    obtain ⟨b, r3, h3, hb, h⟩ := (RegularExpression.mul_rmatch_iff _ _ _).1 h
    obtain ⟨t2, c, h4, ht2, hc⟩ := (RegularExpression.mul_rmatch_iff _ _ _).1 h
    rw [RegularExpression.char_rmatch_iff] at ht1 ht2
    refine ⟨a, b, c, ?_, ha, hb, hc⟩
    rw [h1, h2, h3, h4, ht1, ht2]
    rfl
  · rintro ⟨a, b, c, hx, ha, hb, hc⟩
    refine (RegularExpression.mul_rmatch_iff _ _ _).2 ⟨a, _, hx, ha, ?_⟩
    refine (RegularExpression.mul_rmatch_iff _ _ _).2 ⟨[EmailChar.at], _, rfl, ?_, ?_⟩
    · rw [RegularExpression.char_rmatch_iff]
    refine (RegularExpression.mul_rmatch_iff _ _ _).2 ⟨b, _, rfl, hb, ?_⟩
    refine (RegularExpression.mul_rmatch_iff _ _ _).2 ⟨[EmailChar.dot], _, rfl, ?_, hc⟩
    rw [RegularExpression.char_rmatch_iff]

theorem isTrimChar_at : isTrimChar '@' = false := by decide

theorem isTrimChar_dot : isTrimChar '.' = false := by decide

theorem classify_eq_at (c : Char) : classify c = EmailChar.at ↔ c = '@' := by
  unfold classify
  by_cases h2 : c = '@'
  · subst h2
    simp [isTrimChar_at]
  · by_cases h3 : c = '.'
    · subst h3
      simp [isTrimChar_dot]
    · by_cases h1 : isTrimChar c = true
      · simp [h1, h2]
      · simp [h1, h2, h3]

theorem classify_eq_dot (c : Char) : classify c = EmailChar.dot ↔ c = '.' := by
  unfold classify
  by_cases h2 : c = '@'
  · subst h2
    simp [isTrimChar_at]
  · by_cases h3 : c = '.'
    · subst h3
      simp [isTrimChar_dot]
    · by_cases h1 : isTrimChar c = true
      · simp [h1, h3]
      · simp [h1, h2, h3]

theorem classify_plain (c : Char) :
    (classify c = EmailChar.dot ∨ classify c = EmailChar.other) ↔
      isTrimChar c = false ∧ c ≠ '@' := by
  unfold classify
  by_cases h2 : c = '@'
  · subst h2
    simp [isTrimChar_at]
  · by_cases h3 : c = '.'
    · subst h3
      simp [isTrimChar_dot]
    · by_cases h1 : isTrimChar c = true
      · simp [h1]
      · simp [h1, h2, h3]

theorem emailPart_chars (l : List Char) :
    emailPart.rmatch (l.map classify) = true ↔
      l ≠ [] ∧ ∀ c ∈ l, isTrimChar c = false ∧ c ≠ '@' := by
  rw [rmatch_emailPart]
  constructor
  · rintro ⟨hne, hall⟩
    refine ⟨fun h => hne (by rw [h]; rfl), fun c hc => ?_⟩
    exact (classify_plain c).1 (hall _ (List.mem_map_of_mem classify hc))
  · rintro ⟨hne, hall⟩
    refine ⟨fun h => hne (List.map_eq_nil_iff.1 h), fun t ht => ?_⟩
    obtain ⟨c, hc, rfl⟩ := List.mem_map.1 ht
    exact (classify_plain c).2 (hall c hc)

theorem isValidEmail_iff (s : String) :
    isValidEmail s = true ↔
      ∃ x y z, s.data = x ++ '@' :: (y ++ '.' :: z) ∧
        (x ≠ [] ∧ ∀ c ∈ x, isTrimChar c = false ∧ c ≠ '@') ∧
        (y ≠ [] ∧ ∀ c ∈ y, isTrimChar c = false ∧ c ≠ '@') ∧
        (z ≠ [] ∧ ∀ c ∈ z, isTrimChar c = false ∧ c ≠ '@') := by
  unfold isValidEmail
  rw [rmatch_emailPattern]
  constructor
  · rintro ⟨a, b, c, hx, ha, hb, hc⟩
    obtain ⟨x, r1, h1, hxa, hr1⟩ := List.map_eq_append_iff.1 hx
    obtain ⟨c1, r2, h2, hc1, hr2⟩ := List.map_eq_cons_iff.1 hr1
    obtain ⟨y, r3, h3, hyb, hr3⟩ := List.map_eq_append_iff.1 hr2
    obtain ⟨c2, z, h4, hc2, hzc⟩ := List.map_eq_cons_iff.1 hr3
    rw [classify_eq_at] at hc1
    rw [classify_eq_dot] at hc2
    subst hxa hyb hzc hc1 hc2
    refine ⟨x, y, z, ?_, (emailPart_chars x).1 ha, (emailPart_chars y).1 hb,
      (emailPart_chars z).1 hc⟩
    rw [h1, h2, h3, h4]
  · rintro ⟨x, y, z, hs, hx, hy, hz⟩
    refine ⟨x.map classify, y.map classify, z.map classify, ?_, (emailPart_chars x).2 hx,
      (emailPart_chars y).2 hy, (emailPart_chars z).2 hz⟩
    rw [hs]
    simp only [List.map_append, List.map_cons]
    rw [(classify_eq_at '@').2 rfl, (classify_eq_dot '.').2 rfl]

theorem count_at_zero (l : List Char) : l.count '@' = 0 ↔ ∀ c ∈ l, c ≠ '@' := by
  rw [List.count_eq_zero]
  constructor
  · intro h c hc he
    exact h (he ▸ hc)
  · intro h hm
    exact h '@' hm rfl

/-- C30: for every string `s`, `isValidEmail(s)` is true exactly when `s` contains no
white space, contains exactly one `@`, has at least one character before the `@`, and the
part after the `@` contains a `.` with at least one character before it and at least one
after it. -/
theorem C30_email_validation :
    (∀ s : String, isValidEmail s = true ↔ EmailShape s) ∧
    (isValidEmail "student@school.edu" = true ∧ isValidEmail "a@b.c" = true ∧
      isValidEmail "a@b..c" = true ∧ isValidEmail "" = false ∧
      isValidEmail "a@b" = false ∧ isValidEmail "@b.c" = false ∧
      isValidEmail "a@.c" = false ∧ isValidEmail "a@b." = false ∧
      isValidEmail "a@@b.c" = false ∧ isValidEmail "a@b@c.d" = false ∧
      isValidEmail "a b@c.d" = false ∧ isValidEmail "a@b.c\n" = false) := by
  refine ⟨?_, by decide⟩
  intro s
  rw [isValidEmail_iff]
  unfold EmailShape
  constructor
  · rintro ⟨x, y, z, hs, ⟨hx0, hx⟩, ⟨hy0, hy⟩, ⟨hz0, hz⟩⟩
    refine ⟨?_, ?_, x, y ++ '.' :: z, hs, hx0, y, z, rfl, hy0, hz0⟩
    · intro c hc
      rw [hs] at hc
      simp only [List.mem_append, List.mem_cons] at hc
      rcases hc with hc | hc | hc | hc | hc
      · exact (hx c hc).1
      · rw [hc]
        exact isTrimChar_at
      · exact (hy c hc).1
      · rw [hc]
        exact isTrimChar_dot
      · exact (hz c hc).1
    · have cx : x.count '@' = 0 := (count_at_zero x).2 (fun c hc => (hx c hc).2)
      have cy : y.count '@' = 0 := (count_at_zero y).2 (fun c hc => (hy c hc).2)
      have cz : z.count '@' = 0 := (count_at_zero z).2 (fun c hc => (hz c hc).2)
      rw [hs]
      simp [List.count_append, List.count_cons, cx, cy, cz]
  · rintro ⟨hws, hcount, before, after, hs, hb0, y, z, hafter, hy0, hz0⟩
    subst hafter
    rw [hs] at hcount
    simp only [List.count_append, List.count_cons, beq_self_eq_true, if_true] at hcount
    have hdot : (('.' : Char) == '@') = false := by decide
    simp only [hdot, Bool.false_eq_true, if_false, Nat.add_zero] at hcount
    have cb : before.count '@' = 0 := by omega
    have cy : y.count '@' = 0 := by omega
    have cz : z.count '@' = 0 := by omega
    have hmem : ∀ c, c ∈ before ∨ c ∈ y ∨ c ∈ z → c ∈ s.data := by
      intro c hc
      rw [hs]
      simp only [List.mem_append, List.mem_cons]
      rcases hc with h | h | h
      · exact Or.inl h
      · exact Or.inr (Or.inr (Or.inl h))
      · exact Or.inr (Or.inr (Or.inr (Or.inr h)))
    refine ⟨before, y, z, hs, ⟨hb0, fun c hc => ⟨hws c (hmem c (Or.inl hc)), ?_⟩⟩,
      ⟨hy0, fun c hc => ⟨hws c (hmem c (Or.inr (Or.inl hc))), ?_⟩⟩,
      ⟨hz0, fun c hc => ⟨hws c (hmem c (Or.inr (Or.inr hc))), ?_⟩⟩⟩
    · exact (count_at_zero before).1 cb c hc
    · exact (count_at_zero y).1 cy c hc
    · exact (count_at_zero z).1 cz c hc

end Sasuba
